import Mathlib

/-!
amr-wind: right-hand-side assembly, advection and diffusion operators, sources and utilities

A shallow embedding of

* `amr-wind/equation_systems/CompRHSOps.H` (`ComputeRHSOp::predictor_rhs`,
  `ComputeRHSOp::corrector_rhs`),
* `amr-wind/equation_systems/icns/icns_advection.H`
  (constructor and `operator()` of `AdvectionOp<ICNS, fvm::Godunov>`, `preadvect`
  and `operator()` of `AdvectionOp<ICNS, fvm::MOL>`),
* `amr-wind/equation_systems/DiffusionOps.H` (`DiffusionOp::compute_diff_term`),
* `amr-wind/equation_systems/tke/source_terms/KsgsM84Src.cpp`
  (constructor and `operator()` of `KsgsM84Src`),
* `amr-wind/equation_systems/vof/split_advection.H` (`lagrangian_explicit`,
  `balance_lagrangian_fluxes`, `balance_eulerian_fluxes`),
* `amr-wind/fvm/fvm_utils.H` (`fvm::impl::apply`),
* `amr-wind/core/vs/tensorI.H` (`TensorT`, `operator&`, `xrot`, `yrot`, `zrot`,
  `quaternion`), and
* `amr-wind/wind_energy/actuator/disk/uniform_ct_ops.H` (`UpdateVelOp`,
  `ComputeForceOp`).

`amrex::Real` is embedded in an arbitrary linearly ordered field `K`, so every
statement holds over the exact reals, and the definitions can be evaluated over
the rationals.  A multi-level, multi-component array is a total function of
`(lev, i, j, k, n)`; the three-index accessor `a(i, j, k)` of `amrex::Array4`
reads component `0`.
-/

namespace amr_wind

/-! ## Index space -/

/-- Integer triple `(i, j, k)` (`amrex::IntVect`). -/
structure IntVect where
  x : Int
  y : Int
  z : Int

/-- Cell-centred index box with inclusive ends (`amrex::Box`). -/
structure Box where
  smallend : IntVect
  bigend : IntVect

/-- Membership of the cell `(i, j, k)` in a box. -/
def Box.contains (b : Box) (i j k : Int) : Bool :=
  decide (b.smallend.x ≤ i) && decide (i ≤ b.bigend.x) &&
  decide (b.smallend.y ≤ j) && decide (j ≤ b.bigend.y) &&
  decide (b.smallend.z ≤ k) && decide (k ≤ b.bigend.z)

/-- Array over all levels, cells and components: `a lev i j k n`. -/
abbrev Arr (K : Type) : Type := Nat → Int → Int → Int → Nat → K

/-! ## Enumerations and traits -/

/-- Modelled from the spec: the declaration of `DiffusionType`
(`amr-wind/incflo_enums.H`) is not among the sources.  The spec names the
three values `Explicit`, `Crank_Nicolson`, `Implicit` and calls any other value
a fatal configuration error; every other value of the underlying integer type
is kept as `Unrecognized raw`. -/
inductive DiffusionType where
  | Explicit
  | Crank_Nicolson
  | Implicit
  | Unrecognized (raw : Int)
  deriving DecidableEq

/-- The two field states used by the right-hand-side assembly
(`FieldState::New`, `FieldState::Old`). -/
inductive FieldState where
  | New
  | Old
  deriving DecidableEq

/-- Advection scheme tag (`fvm::Godunov`, `fvm::MOL`). -/
inductive Scheme where
  | Godunov
  | MOL
  deriving DecidableEq

/-- Compile-time traits of the `PDE` template parameter used by
`ComputeRHSOp`. -/
structure PDE where
  multiply_rho : Bool
  ndim : Nat

/-! ## Fields and the repository -/

/-- One state of a field: its values and the flag returned by
`in_uniform_space()`. -/
structure Field (K : Type) where
  data : Arr K
  uniform : Bool

/-- Modelled from the spec: `Field::to_stretched_space` is not among the
sources.  The spec describes it as the deterministic, idempotent transform
supplied by the mesh-mapping collaborator that takes a field flagged "uniform
space" to stretched space and flips the flag.  The action on the values is the
parameter `xf`; a field that is not flagged is left alone. -/
def Field.to_stretched_space {K : Type} (xf : Arr K → Arr K) (f : Field K) : Field K :=
  if f.uniform then { data := xf f.data, uniform := false } else f

/-- Everything `ComputeRHSOp` reaches through `fields` and `density`:
the transported field (New and Old state), the density (New and Old state),
the source term, the diffusion and convective terms (New and Old state), the
integer field `mask_cell`, the cell-centred Jacobian determinant of the mesh
mapping, the number of active levels and the tile boxes `MFIter` visits on each
level.  `stretch` is the value transform of the mesh-mapping collaborator. -/
structure PDEFields (K : Type) where
  num_active_levels : Nat
  tiles : Nat → List Box
  field : Field K
  field_old : Field K
  den_new : Arr K
  den_old : Arr K
  src_term : Arr K
  diff_term : Arr K
  diff_term_old : Arr K
  conv_term : Arr K
  conv_term_old : Arr K
  mask_cell : Arr Int
  mesh_detJ : Arr K
  stretch : Arr K → Arr K

/-- Accessor `fields.diff_term.state(fstate)`. -/
def PDEFields.diff_term_state {K : Type} (s : PDEFields K) : FieldState → Arr K
  | .New => s.diff_term
  | .Old => s.diff_term_old

/-- Accessor `fields.conv_term.state(fstate)`. -/
def PDEFields.conv_term_state {K : Type} (s : PDEFields K) : FieldState → Arr K
  | .New => s.conv_term
  | .Old => s.conv_term_old

/-- The cell `(i, j, k)` of level `lev` lies in one of the tile boxes that the
loops `for lev < nlevels` / `for (MFIter mfi(field(lev)); ...)` visit. -/
def PDEFields.visited {K : Type} (s : PDEFields K) (lev : Nat) (i j k : Int) : Bool :=
  decide (lev < s.num_active_levels) && (s.tiles lev).any (fun bx => bx.contains i j k)

/-- Result of a call that may end in `amrex::Abort`: either the call returns
with the final state, or the process is terminated with a message, in which
case the state reached at that moment is recorded. -/
inductive Run (σ : Type) where
  | done (s : σ)
  | abort (msg : String) (s : σ)

/-! ## `ComputeRHSOp` -/

/-- The `switch` at the head of `predictor_rhs`: the blend factor of the
diffusion term, or `none` for the `default:` branch. -/
def predictor_factor {K : Type} [LinearOrderedField K] : DiffusionType → Option K
  | .Explicit => some 1
  | .Crank_Nicolson => some (1 / 2)
  | .Implicit => some 0
  | .Unrecognized _ => none

/-- The `switch` at the head of `corrector_rhs`: `(ofac, nfac)`, or `none` for
the `default:` branch. -/
def corrector_factors {K : Type} [LinearOrderedField K] : DiffusionType → Option (K × K)
  | .Explicit => some (1 / 2, 1 / 2)
  | .Crank_Nicolson => some (1 / 2, 0)
  | .Implicit => some (0, 0)
  | .Unrecognized _ => none

/-- Field state of the diffusion and convective terms read by
`predictor_rhs`. -/
def predictor_fstate : Scheme → FieldState
  | .Godunov => .New
  | .MOL => .Old

/-- Body of the two `ParallelFor` lambdas of `predictor_rhs` for one cell and
one component. -/
def predictor_cell {K : Type} [LinearOrderedField K] (multiply_rho : Bool)
    (difftype : DiffusionType) (mesh_mapping : Bool) (factor dt : K)
    (detJ rho_o rho fld_o src diff ddt_o : K) (imask : Int) : K :=
  let det_j : K := if mesh_mapping then detJ else 1
  if multiply_rho then
    let fld0 : K := rho_o * det_j * fld_o + (imask : K) * dt * (ddt_o + det_j * src + factor * diff)
    let fld1 : K := fld0 / rho
    if difftype = DiffusionType.Explicit then fld1 / det_j else fld1
  else
    let fld0 : K := det_j * fld_o + (imask : K) * dt * (ddt_o + det_j * src + factor * diff)
    if difftype = DiffusionType.Explicit then fld0 / det_j else fld0

/-- Body of the two `ParallelFor` lambdas of `corrector_rhs` for one cell and
one component. -/
def corrector_cell {K : Type} [LinearOrderedField K] (multiply_rho : Bool)
    (difftype : DiffusionType) (mesh_mapping : Bool) (ofac nfac dt : K)
    (detJ rho_o rho fld_o src diff ddt diff_o ddt_o : K) (imask : Int) : K :=
  let det_j : K := if mesh_mapping then detJ else 1
  if multiply_rho then
    let fld0 : K := rho_o * det_j * fld_o +
      (imask : K) * dt * (1 / 2 * (ddt_o + ddt) + ofac * diff_o + nfac * diff + det_j * src)
    let fld1 : K := fld0 / rho
    if difftype = DiffusionType.Explicit then fld1 / det_j else fld1
  else
    let fld0 : K := det_j * fld_o +
      (imask : K) * dt * (1 / 2 * (ddt_o + ddt) + ofac * diff_o + nfac * diff + det_j * src)
    if difftype = DiffusionType.Explicit then fld0 / det_j else fld0

/-- The two guarded calls `field.to_stretched_space()` and
`field_old.to_stretched_space()` that precede the cell loops. -/
def PDEFields.to_stretched {K : Type} (s : PDEFields K) (mesh_mapping : Bool) : PDEFields K :=
  let s1 : PDEFields K :=
    if s.field.uniform && mesh_mapping then
      { s with field := s.field.to_stretched_space s.stretch }
    else s
  if s1.field_old.uniform && mesh_mapping then
    { s1 with field_old := s1.field_old.to_stretched_space s1.stretch }
  else s1

/-- `ComputeRHSOp<PDE, Scheme>::predictor_rhs(difftype, dt, mesh_mapping)`. -/
def predictor_rhs {K : Type} [LinearOrderedField K] (pde : PDE) (scheme : Scheme)
    (difftype : DiffusionType) (dt : K) (mesh_mapping : Bool) (s : PDEFields K) :
    Run (PDEFields K) :=
  match (predictor_factor difftype : Option K) with
  | none => Run.abort "Invalid diffusion type" s
  | some factor =>
    let fstate := predictor_fstate scheme
    let s2 := s.to_stretched mesh_mapping
    let diff_term := s2.diff_term_state fstate
    let conv_term := s2.conv_term_state fstate
    Run.done { s2 with
      field := { s2.field with
        data := fun lev i j k n =>
          if s2.visited lev i j k && decide (n < pde.ndim) then
            predictor_cell pde.multiply_rho difftype mesh_mapping factor dt
              (s2.mesh_detJ lev i j k 0) (s2.den_old lev i j k 0) (s2.den_new lev i j k 0)
              (s2.field_old.data lev i j k n) (s2.src_term lev i j k n)
              (diff_term lev i j k n) (conv_term lev i j k n) (s2.mask_cell lev i j k 0)
          else s2.field.data lev i j k n } }

/-- `ComputeRHSOp<PDE, Scheme>::corrector_rhs(difftype, dt, mesh_mapping)`. -/
def corrector_rhs {K : Type} [LinearOrderedField K] (pde : PDE)
    (difftype : DiffusionType) (dt : K) (mesh_mapping : Bool) (s : PDEFields K) :
    Run (PDEFields K) :=
  match (corrector_factors difftype : Option (K × K)) with
  | none => Run.abort "Invalid diffusion type" s
  | some (ofac, nfac) =>
    let s2 := s.to_stretched mesh_mapping
    Run.done { s2 with
      field := { s2.field with
        data := fun lev i j k n =>
          if s2.visited lev i j k && decide (n < pde.ndim) then
            corrector_cell pde.multiply_rho difftype mesh_mapping ofac nfac dt
              (s2.mesh_detJ lev i j k 0) (s2.den_old lev i j k 0) (s2.den_new lev i j k 0)
              (s2.field_old.data lev i j k n) (s2.src_term lev i j k n)
              (s2.diff_term lev i j k n) (s2.conv_term lev i j k n)
              (s2.diff_term_old lev i j k n) (s2.conv_term_old lev i j k n)
              (s2.mask_cell lev i j k 0)
          else s2.field.data lev i j k n } }

/-- Final state of a run, whether it returned or aborted. -/
def Run.state {σ : Type} : Run σ → σ
  | .done s => s
  | .abort _ s => s

/-- Whether the run ended in `amrex::Abort`. -/
def Run.aborted {σ : Type} : Run σ → Bool
  | .done _ => false
  | .abort _ _ => true

/-! ## A concrete one-level configuration -/

/-- Constant array. -/
def Arr.const {K : Type} (c : K) : Arr K := fun _ _ _ _ _ => c

/-- One level with the single tile `[0,1]^3`; the field values are constants
given by the arguments. -/
def uniform_fields (fld_new fld_old rho_new rho_old src diff diff_old conv conv_old detJ : ℚ)
    (mask : Int) (new_uniform old_uniform : Bool) : PDEFields ℚ where
  num_active_levels := 1
  tiles := fun _ => [⟨⟨0, 0, 0⟩, ⟨1, 1, 1⟩⟩]
  field := ⟨Arr.const fld_new, new_uniform⟩
  field_old := ⟨Arr.const fld_old, old_uniform⟩
  den_new := Arr.const rho_new
  den_old := Arr.const rho_old
  src_term := Arr.const src
  diff_term := Arr.const diff
  diff_term_old := Arr.const diff_old
  conv_term := Arr.const conv
  conv_term_old := Arr.const conv_old
  mask_cell := Arr.const mask
  mesh_detJ := Arr.const detJ
  stretch := fun a lev i j k n => 3 * a lev i j k n

/-- The three values of `DiffusionType` that have a `case` label in the two
`switch` statements. -/
def DiffusionType.recognized : DiffusionType → Bool
  | .Explicit => true
  | .Crank_Nicolson => true
  | .Implicit => true
  | .Unrecognized _ => false

/-! ## Construction of the Godunov ICNS advection operator -/

/-- The reconstruction schemes distinguished by the Godunov operator
(`godunov::scheme`). -/
inductive godunov.scheme where
  | PLM
  | PPM
  | PPM_NOLIM
  | WENOJS
  | WENOZ
  deriving DecidableEq

/-- Lower-casing of a string character by character (`amrex::toLower`). -/
def toLower (s : String) : String :=
  String.mk (s.data.map Char.toLower)

/-- The entries of the input table under one prefix (`amrex::ParmParse pp("incflo")`),
in the order they were given: key and value. -/
structure ParmParse where
  entries : List (String × String)

/-- `pp.contains(name)`: some entry has this key. -/
def ParmParse.contains (pp : ParmParse) (name : String) : Bool :=
  pp.entries.any (fun e => e.1 = name)

/-- `pp.query(name, ref)`: when the key is present `ref` is overwritten with
the value of its last occurrence, otherwise `ref` keeps its value. -/
def ParmParse.query (pp : ParmParse) (name : String) (ref : String) : String :=
  match pp.entries.reverse.find? (fun e => e.1 = name) with
  | some e => e.2
  | none => ref

/-- Semantics of `resize(n, v)` on a vector: truncate to `n` entries or pad
with copies of `v` up to `n` entries. -/
def vec_resize {α : Type} (l : List α) (n : Nat) (v : α) : List α :=
  (l ++ List.replicate (n - l.length) v).take n

/-- Modelled from the spec: `ICNS::ndim` is declared in `icns.H`, which is not
among the sources; the momentum equation has one component per space
direction, three in all. -/
def ICNS.ndim : Nat := 3

/-- Data members of `AdvectionOp<ICNS, fvm::Godunov>` set by its constructor. -/
structure GodunovAdvectionOp where
  iconserv : List Int
  godunov_scheme : godunov.scheme
  godunov_type : String
  godunov_use_forces_in_trans : Bool

/-- The `if / else if` chain of the constructor that maps the configured
string to a scheme. -/
def select_godunov_scheme (godunov_type : String) : godunov.scheme :=
  if toLower godunov_type = "plm" then godunov.scheme.PLM
  else if toLower godunov_type = "ppm" then godunov.scheme.PPM
  else if toLower godunov_type = "ppm_nolim" then godunov.scheme.PPM_NOLIM
  else if toLower godunov_type = "weno" ∨ toLower godunov_type = "weno_js" then
    godunov.scheme.WENOJS
  else if toLower godunov_type = "weno_z" then godunov.scheme.WENOZ
  else godunov.scheme.PPM

/-- Constructor body of `AdvectionOp<ICNS, fvm::Godunov>`: the members start
from their default initialisers (`godunov_scheme = PPM`, empty `godunov_type`,
empty `iconserv`, `godunov_use_forces_in_trans = false`); `godunov_type` is
queried, the deprecated keys abort, the scheme is selected and `iconserv` is
resized to `ICNS::ndim` zeros. -/
def GodunovAdvectionOp.construct (pp : ParmParse) : Run GodunovAdvectionOp :=
  let op0 : GodunovAdvectionOp :=
    { iconserv := [], godunov_scheme := godunov.scheme.PPM, godunov_type := "",
      godunov_use_forces_in_trans := false }
  let op1 : GodunovAdvectionOp :=
    { op0 with godunov_type := pp.query "godunov_type" op0.godunov_type }
  if pp.contains "use_ppm" || pp.contains "use_limiter" then
    Run.abort "Godunov: use_ppm and use_limiter are deprecated. Please update input file" op1
  else
    let op2 : GodunovAdvectionOp :=
      { op1 with godunov_scheme := select_godunov_scheme op1.godunov_type }
    Run.done { op2 with
      iconserv := vec_resize op2.iconserv ICNS.ndim 0 }

/-- Sample configuration: distinct constants in every field, mask 1, Jacobian
determinant 2, no state flagged as being in uniform space. -/
def sample_fields : PDEFields ℚ :=
  uniform_fields 7 5 4 2 1 3 6 (-1) 2 2 1 false false

/-- Configuration with Jacobian determinant 2, unit densities, unit old field
and vanishing source, convective and diffusion terms. -/
def jacobian_fields : PDEFields ℚ :=
  uniform_fields 0 1 1 1 0 0 0 0 0 2 1 false false

/-- The scenario of the end-to-end test: old field 1, diffusion terms -2,
vanishing source and convective terms, mask 1. -/
def scenario_fields : PDEFields ℚ :=
  uniform_fields 0 1 1 1 0 (-2) (-2) 0 0 1 1 false false

/-- The sample configuration with mask 0. -/
def masked_fields : PDEFields ℚ :=
  uniform_fields 7 5 4 2 1 3 6 (-1) 2 2 0 false false

/-- Another configuration with mask 0: same old field, densities and Jacobian
determinant as `masked_fields`, different source, convective and diffusion
terms. -/
def masked_fields_alt : PDEFields ℚ :=
  uniform_fields 0 5 4 2 9 8 7 6 5 2 0 false false

/-- The sample configuration with both states of the transported field
flagged as being in uniform space. -/
def mapped_fields : PDEFields ℚ :=
  uniform_fields 7 5 4 2 1 3 6 (-1) 2 2 1 true true

/-! ## `AdvectionOp<ICNS, fvm::Godunov>::operator()` as a sequence of kernel calls -/

/-- Number of cells of a box in each direction (`Box::size()`). -/
def Box.size (b : Box) : IntVect :=
  ⟨b.bigend.x - b.smallend.x + 1, b.bigend.y - b.smallend.y + 1,
   b.bigend.z - b.smallend.z + 1⟩

/-- Component-wise integer quotient (`IntVect::operator/`), truncating as
C++ integer division does. -/
def IntVect.div (a b : IntVect) : IntVect :=
  ⟨a.x.tdiv b.x, a.y.tdiv b.y, a.z.tdiv b.z⟩

/-- The calls `AdvectionOp<ICNS, fvm::Godunov>::operator()` makes that touch
the fluxes and the convective term, in program order. -/
inductive AdvEvent where
  | compute_fluxes (lev : Nat) (bx : Box)
  | average_down_faces (fine crse : Nat) (rr : IntVect)
  | compute_advection (lev : Nat) (bx : Box)

/-- The event is a call of `godunov::compute_fluxes`. -/
def AdvEvent.is_fluxes : AdvEvent → Bool
  | .compute_fluxes _ _ => true
  | _ => false

/-- The event is a call of `amrex::average_down_faces`. -/
def AdvEvent.is_average_down : AdvEvent → Bool
  | .average_down_faces _ _ _ => true
  | _ => false

/-- The event is a call of `godunov::compute_advection`. -/
def AdvEvent.is_advection : AdvEvent → Bool
  | .compute_advection _ _ => true
  | _ => false

/-- First loop nest of `operator()`: for `lev = 0 .. nlevels-1` and every tile
of the level, one call of `godunov::compute_fluxes`. -/
def godunov_flux_loop (nlevels : Nat) (tiles : Nat → List Box) : List AdvEvent :=
  (List.range nlevels).flatMap (fun lev => (tiles lev).map (AdvEvent.compute_fluxes lev))

/-- The loop `for (int lev = start; lev > 0; --lev)` that averages the fluxes
of level `lev` down to level `lev - 1` with ratio
`geom[lev].Domain().size() / geom[lev - 1].Domain().size()`; the argument is the
current value of `lev`. -/
def godunov_average_down_loop (domain : Nat → Box) : Nat → List AdvEvent
  | 0 => []
  | lev + 1 =>
    AdvEvent.average_down_faces (lev + 1) lev
        (IntVect.div (domain (lev + 1)).size (domain lev).size) ::
      godunov_average_down_loop domain lev

/-- Last loop nest of `operator()`: for `lev = 0 .. nlevels-1` and every tile of
the level, one call of `godunov::compute_advection`. -/
def godunov_advection_loop (nlevels : Nat) (tiles : Nat → List Box) : List AdvEvent :=
  (List.range nlevels).flatMap (fun lev => (tiles lev).map (AdvEvent.compute_advection lev))

/-- Body of `AdvectionOp<ICNS, fvm::Godunov>::operator()`: the flux loops over
all levels (tiles of the first `MFIter`), the average-down loop started at
`nlevels - 1`, then the advection loops over all levels (tiles of the second
`MFIter`). -/
def godunov_operator (nlevels : Nat) (flux_tiles adv_tiles : Nat → List Box)
    (domain : Nat → Box) : List AdvEvent :=
  godunov_flux_loop nlevels flux_tiles ++
    (godunov_average_down_loop domain (nlevels - 1) ++
      godunov_advection_loop nlevels adv_tiles)

/-- Position-independent description of the average-down calls the claim
expects for `nlevels` levels: the pairs `(lev, lev - 1)` for
`lev = nlevels - 1, ..., 1`, each with the quotient of the domain sizes. -/
def expected_average_down (domain : Nat → Box) (nlevels : Nat) : List AdvEvent :=
  (List.range (nlevels - 1)).reverse.map (fun m =>
    AdvEvent.average_down_faces (m + 1) m
      (IntVect.div (domain (m + 1)).size (domain m).size))

/-! ## Calls of the uniform-to-stretched transform -/

/-- The two guarded calls that precede the cell loops of `predictor_rhs` and
`corrector_rhs`, together with the list of states on which
`to_stretched_space()` was invoked, in program order. -/
def PDEFields.to_stretched_log {K : Type} (s : PDEFields K) (mesh_mapping : Bool) :
    PDEFields K × List FieldState :=
  let r1 : PDEFields K × List FieldState :=
    if s.field.uniform && mesh_mapping then
      ({ s with field := s.field.to_stretched_space s.stretch }, [FieldState.New])
    else (s, [])
  if r1.1.field_old.uniform && mesh_mapping then
    ({ r1.1 with field_old := r1.1.field_old.to_stretched_space r1.1.stretch },
      r1.2 ++ [FieldState.Old])
  else r1

/-- One call of the right-hand-side assembly with its arguments. -/
inductive RhsCall (K : Type) where
  | predictor (pde : PDE) (scheme : Scheme) (difftype : DiffusionType) (dt : K)
      (mesh_mapping : Bool)
  | corrector (pde : PDE) (difftype : DiffusionType) (dt : K) (mesh_mapping : Bool)

/-- The `mesh_mapping` argument of a call. -/
def RhsCall.mesh_mapping {K : Type} : RhsCall K → Bool
  | .predictor _ _ _ _ mm => mm
  | .corrector _ _ _ mm => mm

/-- Execute one call. -/
def RhsCall.run {K : Type} [LinearOrderedField K] : RhsCall K → PDEFields K → Run (PDEFields K)
  | .predictor pde scheme difftype dt mm, s => predictor_rhs pde scheme difftype dt mm s
  | .corrector pde difftype dt mm, s => corrector_rhs pde difftype dt mm s

/-- States transformed by one call: none when the call aborts in its `switch`,
otherwise those recorded by the guarded calls. -/
def RhsCall.transformed {K : Type} [LinearOrderedField K] (c : RhsCall K) (s : PDEFields K) :
    List FieldState :=
  match c.run s with
  | .abort _ _ => []
  | .done _ => (s.to_stretched_log c.mesh_mapping).2

/-- States transformed by a sequence of calls executed one after the other on
the same fields; an abort ends the sequence. -/
def rhs_sequence_transformed {K : Type} [LinearOrderedField K] :
    List (RhsCall K) → PDEFields K → List FieldState
  | [], _ => []
  | c :: cs, s =>
    match c.run s with
    | .abort _ _ => []
    | .done s1 => (s.to_stretched_log c.mesh_mapping).2 ++ rhs_sequence_transformed cs s1

/-! ## State handles of the advection and diffusion operators -/

/-- Accessor `fields.field.state(fstate)`; the handle `fields.field` itself is
the New state. -/
def PDEFields.field_state {K : Type} (s : PDEFields K) : FieldState → Field K
  | .New => s.field
  | .Old => s.field_old

/-- Replace the contents of `fields.conv_term.state(fstate)`. -/
def PDEFields.set_conv_term_state {K : Type} (s : PDEFields K) (fstate : FieldState)
    (a : Arr K) : PDEFields K :=
  match fstate with
  | .New => { s with conv_term := a }
  | .Old => { s with conv_term_old := a }

/-- Replace the contents of `fields.diff_term.state(fstate)`. -/
def PDEFields.set_diff_term_state {K : Type} (s : PDEFields K) (fstate : FieldState)
    (a : Arr K) : PDEFields K :=
  match fstate with
  | .New => { s with diff_term := a }
  | .Old => { s with diff_term_old := a }

/-- Result of writing `new` over `old` in the first `ncomp` components of
every cell of every tile of every active level. -/
def PDEFields.write_visited {K : Type} (s : PDEFields K) (ncomp : Nat) (old new : Arr K) :
    Arr K :=
  fun lev i j k n =>
    if s.visited lev i j k && decide (n < ncomp) then new lev i j k n else old lev i j k n

/-- Number of space dimensions of the build (`AMREX_SPACEDIM`). -/
def AMREX_SPACEDIM : Nat := 3

/-- State of the convective term written by the Godunov `operator()`:
`auto& conv_term = fields.conv_term;`, the New state for every `fstate`. -/
def godunov_conv_term_state (_fstate : FieldState) : FieldState := FieldState.New

/-- State of the convective term written by the method-of-lines `operator()`:
`auto& conv_term = fields.conv_term.state(fstate);`. -/
def mol_conv_term_state (fstate : FieldState) : FieldState := fstate

/-- The `tau_state` of `DiffusionOp::compute_diff_term`: New under Godunov,
`fstate` otherwise. -/
def tau_state (scheme : Scheme) (fstate : FieldState) : FieldState :=
  match scheme with
  | .Godunov => FieldState.New
  | .MOL => fstate

/-- Effect of `AdvectionOp<ICNS, fvm::Godunov>::operator()(fstate, dt)` on the
fields: the degree-of-freedom field is `fields.field.state(fstate)` and the
result of the divergence step, a function `compute_advection` of it supplied
by the Godunov kernels, is written to the convective term. -/
def godunov_advection_op {K : Type} (fstate : FieldState)
    (compute_advection : Arr K → Arr K) (s : PDEFields K) : PDEFields K :=
  let conv_state := godunov_conv_term_state fstate
  let dof_field := s.field_state fstate
  s.set_conv_term_state conv_state
    (s.write_visited ICNS.ndim (s.conv_term_state conv_state) (compute_advection dof_field.data))

/-- Effect of `AdvectionOp<ICNS, fvm::MOL>::operator()(fstate, dt)` on the
fields, with the kernels `mol::compute_convective_fluxes` and
`mol::compute_convective_rate` as the parameter `compute_convective_rate`. -/
def mol_advection_op {K : Type} (fstate : FieldState)
    (compute_convective_rate : Arr K → Arr K) (s : PDEFields K) : PDEFields K :=
  let conv_state := mol_conv_term_state fstate
  let dof_field := s.field_state fstate
  s.set_conv_term_state conv_state
    (s.write_visited AMREX_SPACEDIM (s.conv_term_state conv_state)
      (compute_convective_rate dof_field.data))

/-- `DiffusionOp<PDE, Scheme>::compute_diff_term(fstate)` for a scalar PDE.
`apply_op alpha beta fstate x` is the result of `mlmg.apply` on `x` for the
operator set up by `setup_operator(applier, alpha, beta, fstate)`; the operand
is `fields.field` and the output `fields.diff_term.state(tau_state)`. -/
def compute_diff_term {K : Type} [LinearOrderedField K] (pde : PDE) (scheme : Scheme)
    (fstate : FieldState) (apply_op : K → K → FieldState → Arr K → Arr K)
    (s : PDEFields K) : PDEFields K :=
  let applier := apply_op 0 (-1) fstate
  let tau := tau_state scheme fstate
  s.set_diff_term_state tau
    (s.write_visited pde.ndim (s.diff_term_state tau) (applier s.field.data))

/-- Sample linear operator `x ↦ alpha + beta * x`, cell by cell. -/
def sample_apply_op : ℚ → ℚ → FieldState → Arr ℚ → Arr ℚ :=
  fun alpha beta _ x lev i j k n => alpha + beta * x lev i j k n

/-- The guard at the head of `AdvectionOp<ICNS, fvm::MOL>::preadvect`, applied
to `dof_field`; `xf` is the value transform of the mesh-mapping collaborator. -/
def mol_preadvect_guard {K : Type} (xf : Arr K → Arr K) (m_mesh_mapping : Bool)
    (dof_field : Field K) : Field K :=
  if dof_field.uniform && m_mesh_mapping then dof_field.to_stretched_space xf else dof_field

/-! ## `KsgsM84Src` -/

/-- Component of an integer triple in direction `dir` (`IntVect::operator[]`). -/
def IntVect.get (v : IntVect) (dir : Nat) : Int :=
  match dir with
  | 0 => v.x
  | 1 => v.y
  | _ => v.z

/-- Replace the component in direction `dir` (`IntVect::setVal`). -/
def IntVect.setVal (v : IntVect) (dir : Nat) (val : Int) : IntVect :=
  match dir with
  | 0 => { v with x := val }
  | 1 => { v with y := val }
  | _ => { v with z := val }

/-- The box is not empty (`Box::ok()`): the small end does not exceed the big
end in any direction. -/
def Box.ok (b : Box) : Bool :=
  decide (b.smallend.x ≤ b.bigend.x) && decide (b.smallend.y ≤ b.bigend.y) &&
  decide (b.smallend.z ≤ b.bigend.z)

/-- The boundary box of thickness `len` on the low side of `b` in direction
`dir` (`amrex::bdryLo`): in direction `dir` it runs from `sm - len + 1` to
`sm`, with `sm` the small end of `b`, and is as `b` in the other directions.
The result is node-centred in `dir`; the index type is not represented, it
changes neither `ok()` nor the indices a `ParallelFor` visits. -/
def bdryLo (b : Box) (dir : Nat) (len : Int) : Box :=
  let sm := b.smallend.get dir
  ⟨b.smallend.setVal dir (sm - len + 1), b.bigend.setVal dir sm⟩

/-- Modelled from the spec: the declaration of the boundary-condition types
(`BC` in `amr-wind/incflo_enums.H`) is not among the sources.  The spec lists
the closed set fixed-value, fixed-gradient, wall-model, extrapolation,
periodic and further ones, kept as `other raw`. -/
inductive BC where
  | fixed_value
  | fixed_gradient
  | wall_model
  | extrapolation
  | periodic
  | other (raw : Int)
  deriving DecidableEq

/-- Array of one level and block with three indices. -/
abbrev Arr3 (K : Type) : Type := Int → Int → Int → K

/-- Data reached by `KsgsM84Src::operator()`: the two coefficients, the four
fields, the boundary-condition types of the `tke` field on the low and high
side of each direction, the domain box and the cell sizes of each level, and
the library functions `std::sqrt` and `std::cbrt`. -/
structure KsgsM84Src (K : Type) where
  m_Ceps : K
  m_CepsGround : K
  m_turb_lscale : Arr K
  m_shear_prod : Arr K
  m_buoy_prod : Arr K
  m_tke : Arr K
  bc_type_lo : Nat → BC
  bc_type_hi : Nat → BC
  domain : Nat → Box
  cell_size : Nat → K × K × K
  sqrt : K → K
  cbrt : K → K

/-- `ds = std::cbrt(dx * dy * dz)` on level `lev`. -/
def KsgsM84Src.ds {K : Type} [LinearOrderedField K] (m : KsgsM84Src K) (lev : Nat) : K :=
  m.cbrt ((m.cell_size lev).1 * (m.cell_size lev).2.1 * (m.cell_size lev).2.2)

/-- `ceps_local = (Ceps / 0.93) * (0.19 + (0.74 * tlscale / ds))`. -/
def KsgsM84Src.ceps_local {K : Type} [LinearOrderedField K] (m : KsgsM84Src K) (lev : Nat)
    (i j k : Int) : K :=
  (m.m_Ceps / (93 / 100)) * (19 / 100 + (74 / 100 * m.m_turb_lscale lev i j k 0 / m.ds lev))

/-- The first `ParallelFor` of `operator()`, over `bx`. -/
def KsgsM84Src.interior {K : Type} [LinearOrderedField K] (m : KsgsM84Src K) (lev : Nat)
    (bx : Box) (src_term : Arr3 K) : Arr3 K :=
  fun i j k =>
    if bx.contains i j k then
      src_term i j k +
        (m.m_shear_prod lev i j k 0 + m.m_buoy_prod lev i j k 0 -
          m.ceps_local lev i j k * m.sqrt (m.m_tke lev i j k 0) * m.m_tke lev i j k 0
            / m.m_turb_lscale lev i j k 0)
    else src_term i j k

/-- The `ParallelFor` of the low-side wall branch, over the box `b`. -/
def KsgsM84Src.wall_correction {K : Type} [LinearOrderedField K] (m : KsgsM84Src K)
    (lev : Nat) (b : Box) (src_term : Arr3 K) : Arr3 K :=
  fun i j k =>
    if b.contains i j k then
      src_term i j k +
        (m.ceps_local lev i j k - m.m_CepsGround) * m.sqrt (m.m_tke lev i j k 0) *
          m.m_tke lev i j k 0 / m.m_turb_lscale lev i j k 0
    else src_term i j k

/-- Condition of the low-side branch in direction `dir`. -/
def KsgsM84Src.lo_wall {K : Type} (m : KsgsM84Src K) (lev : Nat) (bx : Box) (dir : Nat) :
    Bool :=
  decide (m.bc_type_lo dir = BC.wall_model) &&
    decide (bx.smallend.get dir = (m.domain lev).smallend.get dir)

/-- Condition of the high-side branch in direction `dir`. -/
def KsgsM84Src.hi_wall {K : Type} (m : KsgsM84Src K) (lev : Nat) (bx : Box) (dir : Nat) :
    Bool :=
  decide (m.bc_type_hi dir = BC.wall_model) &&
    decide (bx.bigend.get dir = (m.domain lev).bigend.get dir)

/-- Low-side part of the loop body for direction `dir`. -/
def KsgsM84Src.lo_side {K : Type} [LinearOrderedField K] (m : KsgsM84Src K) (lev : Nat)
    (bx : Box) (dir : Nat) (src_term : Arr3 K) : Run (Arr3 K) :=
  if m.lo_wall lev bx dir then
    let blo := bdryLo bx dir 1
    if blo.ok then Run.done (m.wall_correction lev blo src_term)
    else Run.abort "Bad box extracted in KsgsM84Src" src_term
  else Run.done src_term

/-- High-side part of the loop body for direction `dir`: `amrex::Abort` does
not return, so the statements that follow it in the branch are never
reached. -/
def KsgsM84Src.hi_side {K : Type} (m : KsgsM84Src K) (lev : Nat)
    (bx : Box) (dir : Nat) (src_term : Arr3 K) : Run (Arr3 K) :=
  if m.hi_wall lev bx dir then
    Run.abort "tke wall model is not supported on upper boundary" src_term
  else Run.done src_term

/-- Body of the loop over `dir`. -/
def KsgsM84Src.dir_body {K : Type} [LinearOrderedField K] (m : KsgsM84Src K) (lev : Nat)
    (bx : Box) (dir : Nat) (src_term : Arr3 K) : Run (Arr3 K) :=
  match m.lo_side lev bx dir src_term with
  | .abort msg s => Run.abort msg s
  | .done s => m.hi_side lev bx dir s

/-- The loop `for (int dir = 0; dir < AMREX_SPACEDIM; ++dir)` over the
remaining directions. -/
def KsgsM84Src.dir_loop {K : Type} [LinearOrderedField K] (m : KsgsM84Src K) (lev : Nat)
    (bx : Box) : List Nat → Arr3 K → Run (Arr3 K)
  | [], src_term => Run.done src_term
  | dir :: rest, src_term =>
    match m.dir_body lev bx dir src_term with
    | .abort msg s => Run.abort msg s
    | .done s => KsgsM84Src.dir_loop m lev bx rest s

/-- `KsgsM84Src::operator()(lev, mfi, bx, fstate, src_term)`. -/
def KsgsM84Src.operator_call {K : Type} [LinearOrderedField K] (m : KsgsM84Src K) (lev : Nat)
    (bx : Box) (src_term : Arr3 K) : Run (Arr3 K) :=
  m.dir_loop lev bx (List.range AMREX_SPACEDIM) (m.interior lev bx src_term)

/-- What the low-side branch of direction `dir` adds when the extracted box is
not empty: the wall correction on `bdryLo(bx, dir, 1)` if the branch is taken,
nothing otherwise. -/
def KsgsM84Src.lo_step {K : Type} [LinearOrderedField K] (m : KsgsM84Src K) (lev : Nat)
    (bx : Box) (dir : Nat) (src_term : Arr3 K) : Arr3 K :=
  if m.lo_wall lev bx dir then m.wall_correction lev (bdryLo bx dir 1) src_term else src_term

/-- Sample source: unit coefficients and fields, the domain `[0,3]^3` on every
level, wall model on the low and on the high side of direction 2 only;
`sqrt` and `cbrt` are stand-ins that return their argument. -/
def sample_ksgs : KsgsM84Src ℚ where
  m_Ceps := 93 / 100
  m_CepsGround := 39 / 10
  m_turb_lscale := Arr.const 1
  m_shear_prod := Arr.const 1
  m_buoy_prod := Arr.const 1
  m_tke := Arr.const 1
  bc_type_lo := fun dir => if dir = 2 then BC.wall_model else BC.periodic
  bc_type_hi := fun dir => if dir = 2 then BC.wall_model else BC.periodic
  domain := fun _ => ⟨⟨0, 0, 0⟩, ⟨3, 3, 3⟩⟩
  cell_size := fun _ => (1, 1, 1)
  sqrt := fun x => x
  cbrt := fun x => x

/-- Tile that touches the low end of the sample domain in every direction and
the high end in none. -/
def sample_low_tile : Box := ⟨⟨0, 0, 0⟩, ⟨1, 1, 1⟩⟩

/-- Sample source with two walls: as `sample_ksgs`, but with the wall model on
the low side of the directions 1 and 2 and on no high side. -/
def sample_ksgs_two_walls : KsgsM84Src ℚ where
  m_Ceps := 93 / 100
  m_CepsGround := 39 / 10
  m_turb_lscale := Arr.const 1
  m_shear_prod := Arr.const 1
  m_buoy_prod := Arr.const 1
  m_tke := Arr.const 1
  bc_type_lo := fun dir => if dir = 1 ∨ dir = 2 then BC.wall_model else BC.periodic
  bc_type_hi := fun _ => BC.periodic
  domain := fun _ => ⟨⟨0, 0, 0⟩, ⟨3, 3, 3⟩⟩
  cell_size := fun _ => (1, 1, 1)
  sqrt := fun x => x
  cbrt := fun x => x

/-- Tile that touches the high end of the sample domain in every direction. -/
def sample_high_tile : Box := ⟨⟨2, 2, 2⟩, ⟨3, 3, 3⟩⟩

/-! ## Vectors and tensors (`amr-wind/core/vs`) -/

/-- Modelled from the spec: `amr-wind/core/vs/vector.H` is not among the
sources.  A vector of the 3D vector space with components `x`, `y`, `z`, as
used through `VectorT<T>{a, b, c}`, `x()`, `y()`, `z()` in `tensorI.H`. -/
structure vs.Vector (K : Type) where
  x : K
  y : K
  z : K

/-- Modelled from the spec: the inner product `v1 & v2` of `vector.H`, which is
not among the sources: the sum of the products of the components. -/
def vs.Vector.dot {K : Type} [LinearOrderedField K] (a b : vs.Vector K) : K :=
  a.x * b.x + a.y * b.y + a.z * b.z

/-- Modelled from the spec: the product `fac * v` of a scalar and a vector of
`vector.H`, which is not among the sources. -/
def vs.Vector.smul {K : Type} [LinearOrderedField K] (fac : K) (v : vs.Vector K) :
    vs.Vector K :=
  ⟨fac * v.x, fac * v.y, fac * v.z⟩

/-- Modelled from the spec: the sum `v1 + v2` of `vector.H`, which is not among
the sources. -/
def vs.Vector.add {K : Type} [LinearOrderedField K] (a b : vs.Vector K) : vs.Vector K :=
  ⟨a.x + b.x, a.y + b.y, a.z + b.z⟩

/-- Modelled from the spec: `v /= fac` of `vector.H`, which is not among the
sources: every component is divided by `fac`. -/
def vs.Vector.div_scalar {K : Type} [LinearOrderedField K] (v : vs.Vector K) (fac : K) :
    vs.Vector K :=
  ⟨v.x / fac, v.y / fac, v.z / fac⟩

/-- Modelled from the spec: `mag(v)` of `vector.H`, which is not among the
sources: the square root of `v & v`, as `mag` of a tensor in `tensorI.H`;
`sqrt` stands for `std::sqrt`. -/
def vs.mag {K : Type} [LinearOrderedField K] (sqrt : K → K) (v : vs.Vector K) : K :=
  sqrt (v.dot v)

/-- The nine components `vv[0..8]` of `TensorT`, named by their accessors
`xx(), xy(), ..., zz()`. -/
structure vs.Tensor (K : Type) where
  xx : K
  xy : K
  xz : K
  yx : K
  yy : K
  yz : K
  zx : K
  zy : K
  zz : K

/-- `TensorT::rows(x, y, z)` applied to a tensor: the vectors become the
rows. -/
def vs.Tensor.rows {K : Type} (x y z : vs.Vector K) : vs.Tensor K :=
  ⟨x.x, x.y, x.z, y.x, y.y, y.z, z.x, z.y, z.z⟩

/-- `TensorT::cols(x, y, z)` applied to a tensor: the vectors become the
columns. -/
def vs.Tensor.cols {K : Type} (x y z : vs.Vector K) : vs.Tensor K :=
  ⟨x.x, y.x, z.x, x.y, y.y, z.y, x.z, y.z, z.z⟩

/-- Constructor `TensorT(x, y, z, transpose)`. -/
def vs.Tensor.of_vectors {K : Type} (x y z : vs.Vector K) (transpose : Bool) : vs.Tensor K :=
  if transpose then vs.Tensor.cols x y z else vs.Tensor.rows x y z

/-- Row accessor `TensorT::x()`. -/
def vs.Tensor.x {K : Type} (t : vs.Tensor K) : vs.Vector K := ⟨t.xx, t.xy, t.xz⟩

/-- Row accessor `TensorT::y()`. -/
def vs.Tensor.y {K : Type} (t : vs.Tensor K) : vs.Vector K := ⟨t.yx, t.yy, t.yz⟩

/-- Row accessor `TensorT::z()`. -/
def vs.Tensor.z {K : Type} (t : vs.Tensor K) : vs.Vector K := ⟨t.zx, t.zy, t.zz⟩

/-- Column accessor `TensorT::cx()`. -/
def vs.Tensor.cx {K : Type} (t : vs.Tensor K) : vs.Vector K := ⟨t.xx, t.yx, t.zx⟩

/-- Column accessor `TensorT::cy()`. -/
def vs.Tensor.cy {K : Type} (t : vs.Tensor K) : vs.Vector K := ⟨t.xy, t.yy, t.zy⟩

/-- Column accessor `TensorT::cz()`. -/
def vs.Tensor.cz {K : Type} (t : vs.Tensor K) : vs.Vector K := ⟨t.xz, t.yz, t.zz⟩

/-- The product `t & v` of a tensor and a vector. -/
def vs.tensor_dot_vector {K : Type} [LinearOrderedField K] (t : vs.Tensor K)
    (v : vs.Vector K) : vs.Vector K :=
  ⟨t.xx * v.x + t.xy * v.y + t.xz * v.z,
   t.yx * v.x + t.yy * v.y + t.yz * v.z,
   t.zx * v.x + t.zy * v.y + t.zz * v.z⟩

/-- The product `v & t` of a vector and a tensor. -/
def vs.vector_dot_tensor {K : Type} [LinearOrderedField K] (v : vs.Vector K)
    (t : vs.Tensor K) : vs.Vector K :=
  ⟨t.xx * v.x + t.yx * v.y + t.zx * v.z,
   t.xy * v.x + t.yy * v.y + t.zy * v.z,
   t.xz * v.x + t.yz * v.y + t.zz * v.z⟩

/-- The transposed tensor, component by component. -/
def vs.Tensor.transposed {K : Type} (t : vs.Tensor K) : vs.Tensor K :=
  ⟨t.xx, t.yx, t.zx, t.xy, t.yy, t.zy, t.xz, t.yz, t.zz⟩

/-- `vs::xrot(angle)`; `cos`, `sin` stand for `std::cos`, `std::sin` and
`radians` for `utils::radians`. -/
def vs.xrot {K : Type} [LinearOrderedField K] (cos sin radians : K → K) (angle : K) :
    vs.Tensor K :=
  let ang := radians angle
  let cval := cos ang
  let sval := sin ang
  ⟨1, 0, 0, 0, cval, sval, 0, -sval, cval⟩

/-- `vs::yrot(angle)`. -/
def vs.yrot {K : Type} [LinearOrderedField K] (cos sin radians : K → K) (angle : K) :
    vs.Tensor K :=
  let ang := radians angle
  let cval := cos ang
  let sval := sin ang
  ⟨cval, 0, -sval, 0, 1, 0, sval, 0, cval⟩

/-- `vs::zrot(angle)`. -/
def vs.zrot {K : Type} [LinearOrderedField K] (cos sin radians : K → K) (angle : K) :
    vs.Tensor K :=
  let ang := radians angle
  let cval := cos ang
  let sval := sin ang
  ⟨cval, sval, 0, -sval, cval, 0, 0, 0, 1⟩

/-- `vs::quaternion(axis, angle)`. -/
def vs.quaternion {K : Type} [LinearOrderedField K] (cos sin sqrt radians : K → K)
    (axis : vs.Vector K) (angle : K) : vs.Tensor K :=
  let ang := -1 * radians angle
  let cval := cos (1 / 2 * ang)
  let sval := sin (1 / 2 * ang)
  let vmag := vs.mag sqrt axis
  let q0 := cval
  let q1 := sval * axis.x / vmag
  let q2 := sval * axis.y / vmag
  let q3 := sval * axis.z / vmag
  { xx := q0 * q0 + q1 * q1 - q2 * q2 - q3 * q3
    xy := 2 * (q1 * q2 - q0 * q3)
    xz := 2 * (q0 * q2 + q1 * q3)
    yx := 2 * (q1 * q2 + q0 * q3)
    yy := q0 * q0 - q1 * q1 + q2 * q2 - q3 * q3
    yz := 2 * (q2 * q3 - q0 * q1)
    zx := 2 * (q1 * q3 - q0 * q2)
    zy := 2 * (q0 * q1 + q2 * q3)
    zz := q0 * q0 - q1 * q1 - q2 * q2 + q3 * q3 }

/-! ## Split advection of the volume fraction (`vof/split_advection.H`) -/

/-- Assignment `a(i, j, k) = v` to one entry of an array. -/
def Arr3.set {K : Type} (a : Arr3 K) (i j k : Int) (v : K) : Arr3 K :=
  fun i1 j1 k1 => if i1 = i ∧ j1 = j ∧ k1 = k then v else a i1 j1 k1

/-- The three values `lagrangian_explicit` leaves in `fluxL(i,j,k)`,
`fluxC(i,j,k)`, `fluxR(i,j,k)`.  `fit_plane` returns `(mx, my, mz, alpha)` and
`cut_volume` is the routine of that name; both come from
`volume_fractions.H`. -/
def lagrangian_explicit_values {K : Type} [LinearOrderedField K]
    (fit_plane : Int → Int → Int → Arr3 K → K × K × K × K)
    (cut_volume : K → K → K → K → K → K → K)
    (i j k : Int) (dir : Nat) (dtdx velL velR : K) (volfrac : Arr3 K) : K × K × K :=
  let tiny : K := 1 / 1000000000000
  let aL := velL * dtdx
  let aR := velR * dtdx
  if |volfrac i j k - 1| ≤ tiny then
    (max (-aL) 0, 1 - max aL 0 + min aR 0, max aR 0)
  else if volfrac i j k > 0 then
    let mx := (fit_plane i j k volfrac).1
    let my := (fit_plane i j k volfrac).2.1
    let mz := (fit_plane i j k volfrac).2.2.1
    let alpha := (fit_plane i j k volfrac).2.2.2
    let mmL := max aL 0
    let mmR := 1 - mmL + min 0 aR
    if dir = 0 then
      let mx1 := mx / (1 - aL + aR)
      let alpha1 := alpha + mx1 * aL
      (if aL < 0 then cut_volume mx1 my mz alpha1 aL (-aL) else 0,
       cut_volume mx1 my mz alpha1 mmL mmR,
       if aR > 0 then cut_volume mx1 my mz alpha1 1 aR else 0)
    else if dir = 1 then
      let my1 := my / (1 - aL + aR)
      let alpha1 := alpha + my1 * aL
      (if aL < 0 then cut_volume my1 mz mx alpha1 aL (-aL) else 0,
       cut_volume my1 mz mx alpha1 mmL mmR,
       if aR > 0 then cut_volume my1 mz mx alpha1 1 aR else 0)
    else if dir = 2 then
      let mz1 := mz / (1 - aL + aR)
      let alpha1 := alpha + mz1 * aL
      (if aL < 0 then cut_volume mz1 mx my alpha1 aL (-aL) else 0,
       cut_volume mz1 mx my alpha1 mmL mmR,
       if aR > 0 then cut_volume mz1 mx my alpha1 1 aR else 0)
    else (0, 0, 0)
  else (0, 0, 0)

/-- `lagrangian_explicit`: the arrays `(fluxL, fluxC, fluxR)` after the call. -/
def lagrangian_explicit {K : Type} [LinearOrderedField K]
    (fit_plane : Int → Int → Int → Arr3 K → K × K × K × K)
    (cut_volume : K → K → K → K → K → K → K)
    (i j k : Int) (dir : Nat) (dtdx velL velR : K) (volfrac fluxL fluxC fluxR : Arr3 K) :
    Arr3 K × Arr3 K × Arr3 K :=
  let v := lagrangian_explicit_values fit_plane cut_volume i j k dir dtdx velL velR volfrac
  (fluxL.set i j k v.1, fluxC.set i j k v.2.1, fluxR.set i j k v.2.2)

/-- The part of `amrex::BCRec` read here: `bc->lo(dir)` and `bc->hi(dir)`. -/
structure BCRec where
  lo : Nat → Int
  hi : Nat → Int

/-- The two guarded assignments at the head of each `dir` branch of
`balance_lagrangian_fluxes` and `balance_eulerian_fluxes`; `ext_dir` and
`hoextrap` are the values of `amrex::BCType::ext_dir` and
`amrex::BCType::hoextrap`.  In direction `dir` the index of the cell is
compared with `domlo` and `domhi`, and the entry of `fluxR` at index
`domlo - 1`, of `fluxL` at index `domhi + 1`, is set to zero.  The result is
`(fluxL, fluxR)`. -/
def balance_boundary_fluxes {K : Type} [LinearOrderedField K] (ext_dir hoextrap : Int)
    (i j k : Int) (dir : Nat) (fluxL fluxR : Arr3 K) (bc : BCRec) (domlo domhi : Int) :
    Arr3 K × Arr3 K :=
  let bclo := bc.lo dir
  let bchi := bc.hi dir
  let cell : IntVect := ⟨i, j, k⟩
  let lo_cell := cell.setVal dir (domlo - 1)
  let hi_cell := cell.setVal dir (domhi + 1)
  let fluxR1 : Arr3 K :=
    if (bclo = ext_dir ∨ bclo = hoextrap) ∧ cell.get dir = domlo then
      fluxR.set lo_cell.x lo_cell.y lo_cell.z 0
    else fluxR
  let fluxL1 : Arr3 K :=
    if (bchi = ext_dir ∨ bchi = hoextrap) ∧ cell.get dir = domhi then
      fluxL.set hi_cell.x hi_cell.y hi_cell.z 0
    else fluxL
  (fluxL1, fluxR1)

/-- State `(volfrac, fluxL, fluxR)` of `balance_lagrangian_fluxes` just before
the clipping statement. -/
def balance_lagrangian_unclipped {K : Type} [LinearOrderedField K] (ext_dir hoextrap : Int)
    (i j k : Int) (dir : Nat) (volfrac fluxL fluxC fluxR : Arr3 K) (bc : BCRec)
    (domlo domhi : Int) : Arr3 K × Arr3 K × Arr3 K :=
  if dir = 0 then
    let f := balance_boundary_fluxes ext_dir hoextrap i j k 0 fluxL fluxR bc domlo domhi
    (volfrac.set i j k (f.2 (i - 1) j k + fluxC i j k + f.1 (i + 1) j k), f.1, f.2)
  else if dir = 1 then
    let f := balance_boundary_fluxes ext_dir hoextrap i j k 1 fluxL fluxR bc domlo domhi
    (volfrac.set i j k (f.2 i (j - 1) k + fluxC i j k + f.1 i (j + 1) k), f.1, f.2)
  else if dir = 2 then
    let f := balance_boundary_fluxes ext_dir hoextrap i j k 2 fluxL fluxR bc domlo domhi
    (volfrac.set i j k (f.2 i j (k - 1) + fluxC i j k + f.1 i j (k + 1)), f.1, f.2)
  else (volfrac, fluxL, fluxR)

/-- `balance_lagrangian_fluxes`: the arrays `(volfrac, fluxL, fluxR)` after the
call. -/
def balance_lagrangian_fluxes {K : Type} [LinearOrderedField K] (ext_dir hoextrap : Int)
    (i j k : Int) (dir : Nat) (volfrac fluxL fluxC fluxR : Arr3 K) (bc : BCRec)
    (domlo domhi : Int) : Arr3 K × Arr3 K × Arr3 K :=
  let u := balance_lagrangian_unclipped ext_dir hoextrap i j k dir volfrac fluxL fluxC fluxR
    bc domlo domhi
  (u.1.set i j k (max 0 (min 1 (u.1 i j k))), u.2.1, u.2.2)

/-- State `(volfrac, fluxL, fluxR)` of `balance_eulerian_fluxes` just before
the clipping statement. -/
def balance_eulerian_unclipped {K : Type} [LinearOrderedField K] (ext_dir hoextrap : Int)
    (i j k : Int) (dir : Nat) (velL velR : K) (volfrac fluxL fluxC fluxR : Arr3 K)
    (bc : BCRec) (domlo domhi : Int) : Arr3 K × Arr3 K × Arr3 K :=
  if dir = 0 then
    let f := balance_boundary_fluxes ext_dir hoextrap i j k 0 fluxL fluxR bc domlo domhi
    (volfrac.set i j k
      (volfrac i j k - (f.2 i j k - f.1 (i + 1) j k) + (f.2 (i - 1) j k - f.1 i j k)
        + fluxC i j k * (velR - velL)), f.1, f.2)
  else if dir = 1 then
    let f := balance_boundary_fluxes ext_dir hoextrap i j k 1 fluxL fluxR bc domlo domhi
    (volfrac.set i j k
      (volfrac i j k - (f.2 i j k - f.1 i (j + 1) k) + (f.2 i (j - 1) k - f.1 i j k)
        + fluxC i j k * (velR - velL)), f.1, f.2)
  else if dir = 2 then
    let f := balance_boundary_fluxes ext_dir hoextrap i j k 2 fluxL fluxR bc domlo domhi
    (volfrac.set i j k
      (volfrac i j k - (f.2 i j k - f.1 i j (k + 1)) + (f.2 i j (k - 1) - f.1 i j k)
        + fluxC i j k * (velR - velL)), f.1, f.2)
  else (volfrac, fluxL, fluxR)

/-- `balance_eulerian_fluxes`: the arrays `(volfrac, fluxL, fluxR)` after the
call. -/
def balance_eulerian_fluxes {K : Type} [LinearOrderedField K] (ext_dir hoextrap : Int)
    (i j k : Int) (dir : Nat) (velL velR : K) (volfrac fluxL fluxC fluxR : Arr3 K)
    (bc : BCRec) (domlo domhi : Int) : Arr3 K × Arr3 K × Arr3 K :=
  let u := balance_eulerian_unclipped ext_dir hoextrap i j k dir velL velR volfrac fluxL
    fluxC fluxR bc domlo domhi
  (u.1.set i j k (max 0 (min 1 (u.1 i j k))), u.2.1, u.2.2)

/-- Stand-in for `fit_plane`: a plane with unit normal component in `x`. -/
def sample_fit_plane : Int → Int → Int → Arr3 ℚ → ℚ × ℚ × ℚ × ℚ :=
  fun _ _ _ _ => (1, 0, 0, 1 / 2)

/-- Stand-in for `cut_volume`: the product of the offset and the width. -/
def sample_cut_volume : ℚ → ℚ → ℚ → ℚ → ℚ → ℚ → ℚ :=
  fun _ _ _ _ x0 deltax => x0 * deltax

/-! ## `fvm::impl::apply` -/

/-- The stencils of `amr-wind/fvm/stencils.H` named in `fvm::impl::apply`. -/
inductive fvm.Stencil where
  | StencilInterior
  | StencilILO
  | StencilJLO
  | StencilKLO
  | StencilIHI
  | StencilJHI
  | StencilKHI
  | StencilIHI_JLO
  | StencilIHI_JHI
  | StencilIHI_KLO
  | StencilIHI_KHI
  | StencilJHI_KLO
  | StencilJHI_KHI
  | StencilILO_JLO
  | StencilILO_JHI
  | StencilILO_KLO
  | StencilILO_KHI
  | StencilJLO_KLO
  | StencilJLO_KHI
  | StencilILO_JLO_KLO
  | StencilILO_JLO_KHI
  | StencilILO_JHI_KLO
  | StencilILO_JHI_KHI
  | StencilIHI_JLO_KLO
  | StencilIHI_JLO_KHI
  | StencilIHI_JHI_KLO
  | StencilIHI_JHI_KHI
  deriving DecidableEq

/-- Position of a stencil with respect to the domain in one direction. -/
inductive fvm.Side where
  | inside
  | lo
  | hi
  deriving DecidableEq

/-- The boundary a stencil is named after, direction by direction
(`I`, `J`, `K`). -/
def fvm.Stencil.sides : fvm.Stencil → fvm.Side × fvm.Side × fvm.Side
  | .StencilInterior => (.inside, .inside, .inside)
  | .StencilILO => (.lo, .inside, .inside)
  | .StencilJLO => (.inside, .lo, .inside)
  | .StencilKLO => (.inside, .inside, .lo)
  | .StencilIHI => (.hi, .inside, .inside)
  | .StencilJHI => (.inside, .hi, .inside)
  | .StencilKHI => (.inside, .inside, .hi)
  | .StencilIHI_JLO => (.hi, .lo, .inside)
  | .StencilIHI_JHI => (.hi, .hi, .inside)
  | .StencilIHI_KLO => (.hi, .inside, .lo)
  | .StencilIHI_KHI => (.hi, .inside, .hi)
  | .StencilJHI_KLO => (.inside, .hi, .lo)
  | .StencilJHI_KHI => (.inside, .hi, .hi)
  | .StencilILO_JLO => (.lo, .lo, .inside)
  | .StencilILO_JHI => (.lo, .hi, .inside)
  | .StencilILO_KLO => (.lo, .inside, .lo)
  | .StencilILO_KHI => (.lo, .inside, .hi)
  | .StencilJLO_KLO => (.inside, .lo, .lo)
  | .StencilJLO_KHI => (.inside, .lo, .hi)
  | .StencilILO_JLO_KLO => (.lo, .lo, .lo)
  | .StencilILO_JLO_KHI => (.lo, .lo, .hi)
  | .StencilILO_JHI_KLO => (.lo, .hi, .lo)
  | .StencilILO_JHI_KHI => (.lo, .hi, .hi)
  | .StencilIHI_JLO_KLO => (.hi, .lo, .lo)
  | .StencilIHI_JLO_KHI => (.hi, .lo, .hi)
  | .StencilIHI_JHI_KLO => (.hi, .hi, .lo)
  | .StencilIHI_JHI_KHI => (.hi, .hi, .hi)

/-- Number of directions in which a side triple lies on a boundary: 1 for a
face, 2 for an edge, 3 for a corner. -/
def fvm.boundary_rank (s : fvm.Side × fvm.Side × fvm.Side) : Nat :=
  (if s.1 = fvm.Side.inside then 0 else 1) + (if s.2.1 = fvm.Side.inside then 0 else 1) +
    (if s.2.2 = fvm.Side.inside then 0 else 1)

/-- `Box::strictly_contains(b)`: `b` lies inside with a margin in every
direction. -/
def Box.strictly_contains (d b : Box) : Bool :=
  (decide (d.smallend.x < b.smallend.x) && decide (d.smallend.y < b.smallend.y) &&
    decide (d.smallend.z < b.smallend.z)) &&
  (decide (b.bigend.x < d.bigend.x) && decide (b.bigend.y < d.bigend.y) &&
    decide (b.bigend.z < d.bigend.z))

/-- The stencils applied after the `continue` test of `fvm::impl::apply`, in
program order: faces, edges, corners. -/
def fvm.boundary_stencils : List fvm.Stencil :=
  [.StencilILO, .StencilJLO, .StencilKLO, .StencilIHI, .StencilJHI, .StencilKHI,
   .StencilIHI_JLO, .StencilIHI_JHI, .StencilIHI_KLO, .StencilIHI_KHI,
   .StencilJHI_KLO, .StencilJHI_KHI, .StencilILO_JLO, .StencilILO_JHI,
   .StencilILO_KLO, .StencilILO_KHI, .StencilJLO_KLO, .StencilJLO_KHI,
   .StencilILO_JLO_KLO, .StencilILO_JLO_KHI, .StencilILO_JHI_KLO, .StencilILO_JHI_KHI,
   .StencilIHI_JLO_KLO, .StencilIHI_JLO_KHI, .StencilIHI_JHI_KLO, .StencilIHI_JHI_KHI]

/-- Body of the `MFIter` loop of `fvm::impl::apply` for one tile: the stencils
passed to `fvmop.apply`, in program order. -/
def fvm.apply_tile (domain tilebox : Box) : List fvm.Stencil :=
  fvm.Stencil.StencilInterior ::
    (if domain.strictly_contains tilebox then [] else fvm.boundary_stencils)

/-- `fvm::impl::apply(fvmop, fld)`: the calls `fvmop.apply<Stencil>(lev, mfi)`
as triples of level, tile box and stencil, in program order. -/
def fvm.apply (nlevels : Nat) (domain : Nat → Box) (tiles : Nat → List Box) :
    List (Nat × Box × fvm.Stencil) :=
  (List.range nlevels).flatMap (fun lev =>
    (tiles lev).flatMap (fun bx =>
      (fvm.apply_tile (domain lev) bx).map (fun st => (lev, bx, st))))

/-! ## Arguments of the Godunov kernels and construction of `KsgsM84Src` -/

/-- The conservative-flag argument `iconserv.data()` of a call made by
`AdvectionOp<ICNS, fvm::Godunov>::operator()`: `godunov::compute_fluxes` and
`godunov::compute_advection` both receive the member `iconserv`;
`amrex::average_down_faces` takes no such argument. -/
def GodunovAdvectionOp.iconserv_argument (op : GodunovAdvectionOp) :
    AdvEvent → Option (List Int)
  | .compute_fluxes _ _ => some op.iconserv
  | .average_down_faces _ _ _ => none
  | .compute_advection _ _ => some op.iconserv

/-- Constructor `KsgsM84Src::KsgsM84Src(sim)`.  `m0` holds the field references
and the default member values, `model_name` is
`sim.turbulence_model().model_name()` and `Ceps` is the entry `coeffs["Ceps"]`
of the model coefficients; a failed `AMREX_ALWAYS_ASSERT` aborts. -/
def KsgsM84Src.construct {K : Type} [LinearOrderedField K] (model_name : String) (Ceps : K)
    (m0 : KsgsM84Src K) : Run (KsgsM84Src K) :=
  if model_name = "OneEqKsgsM84" then
    let m1 : KsgsM84Src K := { m0 with m_Ceps := Ceps }
    Run.done { m1 with m_CepsGround := (39 / 10) / (93 / 100) * m1.m_Ceps }
  else
    Run.abort "Assertion sim.turbulence_model().model_name() == OneEqKsgsM84 failed" m0

/-! ## Uniform-Ct actuator disk (`wind_energy/actuator/disk`) -/

/-- The members of `UniformCtData` that `UpdateVelOp` and `ComputeForceOp`
read or write. -/
structure actuator.UniformCtData (K : Type) where
  num_force_pts : Int
  num_vel_pts : Int
  normal_vec : vs.Vector K
  reference_velocity : vs.Vector K
  disk_velocity : vs.Vector K
  dr : K
  density : K
  current_ct : K
  thrust_coeff : List K
  table_velocity : List K

/-- Modelled from the spec: `ActGrid` is declared in `actuator_types.H`, which
is not among the sources.  Of its members only the lists `force` and `vel` of
vectors are used here, indexed from 0. -/
structure actuator.ActGrid (K : Type) where
  force : Nat → vs.Vector K
  vel : Nat → vs.Vector K

/-- `UpdateVelOp<UniformCt, ActSrcDisk>::operator()`: the meta data after the
call. -/
def actuator.UpdateVelOp {K : Type} [LinearOrderedField K] (mdata : actuator.UniformCtData K)
    (grid : actuator.ActGrid K) : actuator.UniformCtData K :=
  let mdata1 : actuator.UniformCtData K :=
    { mdata with reference_velocity := ⟨0, 0, 0⟩, disk_velocity := ⟨0, 0, 0⟩ }
  let np : Int := mdata1.num_vel_pts.tdiv 2
  let acc := (List.range np.toNat).foldl
    (fun (a : vs.Vector K × vs.Vector K) i =>
      (a.1.add (grid.vel i), a.2.add (grid.vel (i + np.toNat))))
    (mdata1.reference_velocity, mdata1.disk_velocity)
  { mdata1 with
    reference_velocity := acc.1.div_scalar ((np : Int) : K)
    disk_velocity := acc.2.div_scalar ((np : Int) : K) }

/-- Indices of `grid.vel` read by the loop of `UpdateVelOp`, in program
order. -/
def actuator.UpdateVelOp_reads (num_vel_pts : Int) : List Nat :=
  (List.range (num_vel_pts.tdiv 2).toNat).flatMap
    (fun i => [i, i + (num_vel_pts.tdiv 2).toNat])

/-- `ComputeForceOp<UniformCt, ActSrcDisk>::operator()`: the meta data and the
grid after the call.  `pi` is `utils::pi()`, `sqrt` is `std::sqrt` and `linear`
is `interp::linear`. -/
def actuator.ComputeForceOp {K : Type} [LinearOrderedField K] (pi : K) (sqrt : K → K)
    (linear : List K → List K → K → K) (ddata : actuator.UniformCtData K)
    (grid : actuator.ActGrid K) : actuator.UniformCtData K × actuator.ActGrid K :=
  let normal := ddata.normal_vec
  let rho := ddata.density
  let uInfSqr := (ddata.reference_velocity.dot normal) * (ddata.reference_velocity.dot normal)
  let ddata1 : actuator.UniformCtData K :=
    { ddata with current_ct := linear ddata.table_velocity ddata.thrust_coeff (sqrt |uInfSqr|) }
  let npts := ddata1.num_force_pts
  let aeroPressure := 1 / 2 * uInfSqr * rho * ddata1.current_ct
  let dr := ddata1.dr
  let force := (List.range npts.toNat).foldl
    (fun (f : Nat → vs.Vector K) (ip : Nat) =>
      let r := ((ip : K) + 1 / 2) * dr
      let rp := r + dr * (1 / 2)
      let rm := r - dr * (1 / 2)
      let a := pi * (rp * rp - rm * rm)
      Function.update f ip (vs.Vector.smul (aeroPressure * a) normal))
    grid.force
  (ddata1, { grid with force := force })

/-- Sample disk: four velocity points, three force points, ring width 2,
normal `(0, 1, 0)`, reference velocity `(1, 3, 0)`, density 2. -/
def sample_disk : actuator.UniformCtData ℚ where
  num_force_pts := 3
  num_vel_pts := 4
  normal_vec := ⟨0, 1, 0⟩
  reference_velocity := ⟨1, 3, 0⟩
  disk_velocity := ⟨9, 9, 9⟩
  dr := 2
  density := 2
  current_ct := 0
  thrust_coeff := [1 / 2]
  table_velocity := [3]

/-- Sample grid: `vel[i] = (i, 2 i, 1)`, forces initially zero. -/
def sample_grid : actuator.ActGrid ℚ where
  force := fun _ => ⟨0, 0, 0⟩
  vel := fun i => ⟨(i : ℚ), 2 * (i : ℚ), 1⟩

/-- Stand-in for `interp::linear`: the first tabulated coefficient. -/
def sample_linear : List ℚ → List ℚ → ℚ → ℚ :=
  fun _ coeff _ => coeff.headD 0

/-! ## Frame lemmas for the guarded transform -/

section Frame

variable {K : Type}

theorem to_stretched_num_active_levels (s : PDEFields K) (mm : Bool) :
    (s.to_stretched mm).num_active_levels = s.num_active_levels := by
  unfold PDEFields.to_stretched; dsimp only; split_ifs <;> rfl

theorem to_stretched_tiles (s : PDEFields K) (mm : Bool) :
    (s.to_stretched mm).tiles = s.tiles := by
  unfold PDEFields.to_stretched; dsimp only; split_ifs <;> rfl

theorem to_stretched_den_new (s : PDEFields K) (mm : Bool) :
    (s.to_stretched mm).den_new = s.den_new := by
  unfold PDEFields.to_stretched; dsimp only; split_ifs <;> rfl

theorem to_stretched_den_old (s : PDEFields K) (mm : Bool) :
    (s.to_stretched mm).den_old = s.den_old := by
  unfold PDEFields.to_stretched; dsimp only; split_ifs <;> rfl

theorem to_stretched_src_term (s : PDEFields K) (mm : Bool) :
    (s.to_stretched mm).src_term = s.src_term := by
  unfold PDEFields.to_stretched; dsimp only; split_ifs <;> rfl

theorem to_stretched_diff_term (s : PDEFields K) (mm : Bool) :
    (s.to_stretched mm).diff_term = s.diff_term := by
  unfold PDEFields.to_stretched; dsimp only; split_ifs <;> rfl

theorem to_stretched_diff_term_old (s : PDEFields K) (mm : Bool) :
    (s.to_stretched mm).diff_term_old = s.diff_term_old := by
  unfold PDEFields.to_stretched; dsimp only; split_ifs <;> rfl

theorem to_stretched_conv_term (s : PDEFields K) (mm : Bool) :
    (s.to_stretched mm).conv_term = s.conv_term := by
  unfold PDEFields.to_stretched; dsimp only; split_ifs <;> rfl

theorem to_stretched_conv_term_old (s : PDEFields K) (mm : Bool) :
    (s.to_stretched mm).conv_term_old = s.conv_term_old := by
  unfold PDEFields.to_stretched; dsimp only; split_ifs <;> rfl

theorem to_stretched_mask_cell (s : PDEFields K) (mm : Bool) :
    (s.to_stretched mm).mask_cell = s.mask_cell := by
  unfold PDEFields.to_stretched; dsimp only; split_ifs <;> rfl

theorem to_stretched_mesh_detJ (s : PDEFields K) (mm : Bool) :
    (s.to_stretched mm).mesh_detJ = s.mesh_detJ := by
  unfold PDEFields.to_stretched; dsimp only; split_ifs <;> rfl

theorem to_stretched_diff_term_state (s : PDEFields K) (mm : Bool) (fs : FieldState) :
    (s.to_stretched mm).diff_term_state fs = s.diff_term_state fs := by
  cases fs
  · exact to_stretched_diff_term s mm
  · exact to_stretched_diff_term_old s mm

theorem to_stretched_conv_term_state (s : PDEFields K) (mm : Bool) (fs : FieldState) :
    (s.to_stretched mm).conv_term_state fs = s.conv_term_state fs := by
  cases fs
  · exact to_stretched_conv_term s mm
  · exact to_stretched_conv_term_old s mm

theorem to_stretched_visited (s : PDEFields K) (mm : Bool) (lev : Nat) (i j k : Int) :
    (s.to_stretched mm).visited lev i j k = s.visited lev i j k := by
  unfold PDEFields.visited
  rw [to_stretched_num_active_levels, to_stretched_tiles]

theorem to_stretched_field_old (s : PDEFields K) (mm : Bool) :
    (s.to_stretched mm).field_old =
      if s.field_old.uniform && mm then s.field_old.to_stretched_space s.stretch
      else s.field_old := by
  unfold PDEFields.to_stretched; dsimp only; split_ifs <;> rfl

theorem to_stretched_false (s : PDEFields K) : s.to_stretched false = s := by
  unfold PDEFields.to_stretched; simp

end Frame

/-! ## Cell-wise form of the two assembly passes -/

section Cellwise

variable {K : Type} [LinearOrderedField K]

theorem predictor_rhs_cell (pde : PDE) (scheme : Scheme) (d : DiffusionType) (factor dt : K)
    (mm : Bool) (s : PDEFields K) (hf : predictor_factor d = some factor)
    (lev : Nat) (i j k : Int) (n : Nat)
    (hv : s.visited lev i j k = true) (hn : n < pde.ndim) :
    (predictor_rhs pde scheme d dt mm s).state.field.data lev i j k n =
      predictor_cell pde.multiply_rho d mm factor dt
        (s.mesh_detJ lev i j k 0) (s.den_old lev i j k 0) (s.den_new lev i j k 0)
        ((s.to_stretched mm).field_old.data lev i j k n) (s.src_term lev i j k n)
        (s.diff_term_state (predictor_fstate scheme) lev i j k n)
        (s.conv_term_state (predictor_fstate scheme) lev i j k n)
        (s.mask_cell lev i j k 0) := by
  unfold predictor_rhs
  rw [hf]
  simp only [Run.state, to_stretched_visited, hv, hn, decide_True, Bool.and_self, if_true,
    to_stretched_mesh_detJ, to_stretched_den_old, to_stretched_den_new, to_stretched_src_term,
    to_stretched_diff_term_state, to_stretched_conv_term_state, to_stretched_mask_cell]

theorem corrector_rhs_cell (pde : PDE) (d : DiffusionType) (ofac nfac dt : K)
    (mm : Bool) (s : PDEFields K) (hf : corrector_factors d = some (ofac, nfac))
    (lev : Nat) (i j k : Int) (n : Nat)
    (hv : s.visited lev i j k = true) (hn : n < pde.ndim) :
    (corrector_rhs pde d dt mm s).state.field.data lev i j k n =
      corrector_cell pde.multiply_rho d mm ofac nfac dt
        (s.mesh_detJ lev i j k 0) (s.den_old lev i j k 0) (s.den_new lev i j k 0)
        ((s.to_stretched mm).field_old.data lev i j k n) (s.src_term lev i j k n)
        (s.diff_term lev i j k n) (s.conv_term lev i j k n)
        (s.diff_term_old lev i j k n) (s.conv_term_old lev i j k n)
        (s.mask_cell lev i j k 0) := by
  unfold corrector_rhs
  rw [hf]
  simp only [Run.state, to_stretched_visited, hv, hn, decide_True, Bool.and_self, if_true,
    to_stretched_mesh_detJ, to_stretched_den_old, to_stretched_den_new, to_stretched_src_term,
    to_stretched_diff_term, to_stretched_conv_term, to_stretched_diff_term_old,
    to_stretched_conv_term_old, to_stretched_mask_cell]

theorem predictor_rhs_state (pde : PDE) (scheme : Scheme) (d : DiffusionType) (factor dt : K)
    (mm : Bool) (s : PDEFields K) (hf : predictor_factor d = some factor) :
    ∃ fld : Arr K, predictor_rhs pde scheme d dt mm s =
      Run.done { s.to_stretched mm with
        field := { (s.to_stretched mm).field with data := fld } } := by
  unfold predictor_rhs
  rw [hf]
  exact ⟨_, rfl⟩

theorem corrector_rhs_state (pde : PDE) (d : DiffusionType) (ofac nfac dt : K)
    (mm : Bool) (s : PDEFields K) (hf : corrector_factors d = some (ofac, nfac)) :
    ∃ fld : Arr K, corrector_rhs pde d dt mm s =
      Run.done { s.to_stretched mm with
        field := { (s.to_stretched mm).field with data := fld } } := by
  unfold corrector_rhs
  rw [hf]
  exact ⟨_, rfl⟩

theorem predictor_rhs_unrecognized (pde : PDE) (scheme : Scheme) (raw : Int) (dt : K)
    (mm : Bool) (s : PDEFields K) :
    predictor_rhs pde scheme (DiffusionType.Unrecognized raw) dt mm s =
      Run.abort "Invalid diffusion type" s := rfl

theorem corrector_rhs_unrecognized (pde : PDE) (raw : Int) (dt : K)
    (mm : Bool) (s : PDEFields K) :
    corrector_rhs pde (DiffusionType.Unrecognized raw) dt mm s =
      Run.abort "Invalid diffusion type" s := rfl

end Cellwise

/-! ## Update rules of `predictor_rhs` and `corrector_rhs` -/

section Rules

variable {K : Type} [LinearOrderedField K]

/-- C1: for a PDE without density weighting, `predictor_rhs` writes in every
visited cell and every component `n < ndim` the value
`detJ*fld_old + mask*dt*(conv + detJ*src + factor*diff)` with `factor` equal to
`1` (Explicit), `1/2` (Crank-Nicolson), `0` (Implicit), divided by `detJ` for
Explicit only; `detJ` is `1` when mesh mapping is off, and then the Explicit
rule reads `fld_old + mask*dt*(conv + src + diff)`.  `fld_old` is the Old state
as the loop reads it, that is after the guarded transform. -/
theorem predictor_rhs_plain_rule (pde : PDE) (scheme : Scheme) (dt : K) (mm : Bool)
    (s : PDEFields K) (lev : Nat) (i j k : Int) (n : Nat)
    (hrho : pde.multiply_rho = false)
    (hv : s.visited lev i j k = true) (hn : n < pde.ndim) :
    let detJ : K := if mm then s.mesh_detJ lev i j k 0 else 1
    let mask : K := ((s.mask_cell lev i j k 0 : Int) : K)
    let fld_old : K := (s.to_stretched mm).field_old.data lev i j k n
    let src : K := s.src_term lev i j k n
    let conv : K := s.conv_term_state (predictor_fstate scheme) lev i j k n
    let diff : K := s.diff_term_state (predictor_fstate scheme) lev i j k n
    (predictor_rhs pde scheme DiffusionType.Explicit dt mm s).state.field.data lev i j k n
        = (detJ * fld_old + mask * dt * (conv + detJ * src + 1 * diff)) / detJ ∧
    (predictor_rhs pde scheme DiffusionType.Crank_Nicolson dt mm s).state.field.data lev i j k n
        = detJ * fld_old + mask * dt * (conv + detJ * src + 1 / 2 * diff) ∧
    (predictor_rhs pde scheme DiffusionType.Implicit dt mm s).state.field.data lev i j k n
        = detJ * fld_old + mask * dt * (conv + detJ * src + 0 * diff) ∧
    (predictor_rhs pde scheme DiffusionType.Explicit dt false s).state.field.data lev i j k n
        = s.field_old.data lev i j k n + mask * dt * (conv + src + diff) := by
  intro detJ mask fld_old src conv diff
  refine ⟨?_, ?_, ?_, ?_⟩
  · rw [predictor_rhs_cell pde scheme DiffusionType.Explicit 1 dt mm s rfl lev i j k n hv hn]
    simp [predictor_cell, hrho, detJ, mask, fld_old, src, conv, diff]
  · rw [predictor_rhs_cell pde scheme DiffusionType.Crank_Nicolson (1 / 2) dt mm s rfl lev i j k n hv hn]
    simp [predictor_cell, hrho, detJ, mask, fld_old, src, conv, diff]
  · rw [predictor_rhs_cell pde scheme DiffusionType.Implicit 0 dt mm s rfl lev i j k n hv hn]
    simp [predictor_cell, hrho, detJ, mask, fld_old, src, conv, diff]
  · rw [predictor_rhs_cell pde scheme DiffusionType.Explicit 1 dt false s rfl lev i j k n hv hn]
    simp [predictor_cell, hrho, to_stretched_false, mask, src, conv, diff]

/-- Witness of C1: the sample configuration with mesh mapping on; the
Explicit value is `(2*5 + 1/100*(-1 + 2*1 + 3))/2 = 251/50`. -/
theorem predictor_rhs_plain_rule_witness :
    sample_fields.visited 0 0 0 0 = true ∧
    (predictor_rhs ⟨false, 1⟩ Scheme.Godunov DiffusionType.Explicit (1 / 100) true
        sample_fields).state.field.data 0 0 0 0 0 = 251 / 50 :=
  ⟨by decide,
   (predictor_rhs_plain_rule ⟨false, 1⟩ Scheme.Godunov (1 / 100 : ℚ) true sample_fields
      0 0 0 0 0 rfl (by decide) (by decide)).1.trans
     (by norm_num [sample_fields, uniform_fields, Arr.const, PDEFields.to_stretched,
           PDEFields.conv_term_state, PDEFields.diff_term_state, predictor_fstate])⟩

/-- C2: for a density-weighted PDE, `predictor_rhs` writes in every visited
cell and component `(rho_old*detJ*fld_old + mask*dt*(conv + detJ*src +
factor*diff)) / rho_new` with the factor table `1`, `1/2`, `0`, and divides
once more by `detJ` for Explicit only; `rho_old` multiplies the old-field term
alone, `rho_new` divides the whole sum, and `detJ` is `1` when mesh mapping is
off. -/
theorem predictor_rhs_density_rule (pde : PDE) (scheme : Scheme) (dt : K) (mm : Bool)
    (s : PDEFields K) (lev : Nat) (i j k : Int) (n : Nat)
    (hrho : pde.multiply_rho = true)
    (hv : s.visited lev i j k = true) (hn : n < pde.ndim) :
    let detJ : K := if mm then s.mesh_detJ lev i j k 0 else 1
    let mask : K := ((s.mask_cell lev i j k 0 : Int) : K)
    let rho_old : K := s.den_old lev i j k 0
    let rho_new : K := s.den_new lev i j k 0
    let fld_old : K := (s.to_stretched mm).field_old.data lev i j k n
    let src : K := s.src_term lev i j k n
    let conv : K := s.conv_term_state (predictor_fstate scheme) lev i j k n
    let diff : K := s.diff_term_state (predictor_fstate scheme) lev i j k n
    (predictor_rhs pde scheme DiffusionType.Explicit dt mm s).state.field.data lev i j k n
        = (rho_old * detJ * fld_old + mask * dt * (conv + detJ * src + 1 * diff))
            / rho_new / detJ ∧
    (predictor_rhs pde scheme DiffusionType.Crank_Nicolson dt mm s).state.field.data lev i j k n
        = (rho_old * detJ * fld_old + mask * dt * (conv + detJ * src + 1 / 2 * diff))
            / rho_new ∧
    (predictor_rhs pde scheme DiffusionType.Implicit dt mm s).state.field.data lev i j k n
        = (rho_old * detJ * fld_old + mask * dt * (conv + detJ * src + 0 * diff))
            / rho_new ∧
    (predictor_rhs pde scheme DiffusionType.Implicit dt false s).state.field.data lev i j k n
        = (rho_old * 1 * s.field_old.data lev i j k n + mask * dt * (conv + 1 * src + 0 * diff))
            / rho_new := by
  intro detJ mask rho_old rho_new fld_old src conv diff
  refine ⟨?_, ?_, ?_, ?_⟩
  · rw [predictor_rhs_cell pde scheme DiffusionType.Explicit 1 dt mm s rfl lev i j k n hv hn]
    simp [predictor_cell, hrho, detJ, mask, rho_old, rho_new, fld_old, src, conv, diff]
  · rw [predictor_rhs_cell pde scheme DiffusionType.Crank_Nicolson (1 / 2) dt mm s rfl
      lev i j k n hv hn]
    simp [predictor_cell, hrho, detJ, mask, rho_old, rho_new, fld_old, src, conv, diff]
  · rw [predictor_rhs_cell pde scheme DiffusionType.Implicit 0 dt mm s rfl lev i j k n hv hn]
    simp [predictor_cell, hrho, detJ, mask, rho_old, rho_new, fld_old, src, conv, diff]
  · rw [predictor_rhs_cell pde scheme DiffusionType.Implicit 0 dt false s rfl lev i j k n hv hn]
    simp [predictor_cell, hrho, to_stretched_false, mask, rho_old, rho_new, src, conv, diff]

/-- Witness of C2: the sample configuration with mesh mapping on; the
Explicit value is `((2*2*5 + 1/100*(-1 + 2*1 + 3))/4)/2 = 501/200`. -/
theorem predictor_rhs_density_rule_witness :
    sample_fields.visited 0 0 0 0 = true ∧
    (predictor_rhs ⟨true, 1⟩ Scheme.Godunov DiffusionType.Explicit (1 / 100) true
        sample_fields).state.field.data 0 0 0 0 0 = 501 / 200 :=
  ⟨by decide,
   (predictor_rhs_density_rule ⟨true, 1⟩ Scheme.Godunov (1 / 100 : ℚ) true sample_fields
      0 0 0 0 0 rfl (by decide) (by decide)).1.trans
     (by norm_num [sample_fields, uniform_fields, Arr.const, PDEFields.to_stretched,
           PDEFields.conv_term_state, PDEFields.diff_term_state, predictor_fstate])⟩

/-- C3: `corrector_rhs` writes in every visited cell and component
`detJ*fld_old + mask*dt*(0.5*(conv_old + conv_new) + ofac*diff_old +
nfac*diff_new + detJ*src)` with `(ofac, nfac)` equal to `(1/2, 1/2)`
(Explicit), `(1/2, 0)` (Crank-Nicolson), `(0, 0)` (Implicit); for a
density-weighted PDE the first term is `rho_old*detJ*fld_old` and the sum is
divided by `rho_new`; in both variants the result is divided by `detJ` for
Explicit only, and `detJ` is `1` when mesh mapping is off. -/
theorem corrector_rhs_rule (pde : PDE) (dt : K) (mm : Bool)
    (s : PDEFields K) (lev : Nat) (i j k : Int) (n : Nat)
    (hv : s.visited lev i j k = true) (hn : n < pde.ndim) :
    let detJ : K := if mm then s.mesh_detJ lev i j k 0 else 1
    let mask : K := ((s.mask_cell lev i j k 0 : Int) : K)
    let rho_old : K := s.den_old lev i j k 0
    let rho_new : K := s.den_new lev i j k 0
    let fld_old : K := (s.to_stretched mm).field_old.data lev i j k n
    let src : K := s.src_term lev i j k n
    let conv_new : K := s.conv_term lev i j k n
    let conv_old : K := s.conv_term_old lev i j k n
    let diff_new : K := s.diff_term lev i j k n
    let diff_old : K := s.diff_term_old lev i j k n
    let rhs : K → K → K := fun ofac nfac =>
      mask * dt * (1 / 2 * (conv_old + conv_new) + ofac * diff_old + nfac * diff_new + detJ * src)
    let new : DiffusionType → K := fun d =>
      (corrector_rhs pde d dt mm s).state.field.data lev i j k n
    (pde.multiply_rho = false →
      new DiffusionType.Explicit = (detJ * fld_old + rhs (1 / 2) (1 / 2)) / detJ ∧
      new DiffusionType.Crank_Nicolson = detJ * fld_old + rhs (1 / 2) 0 ∧
      new DiffusionType.Implicit = detJ * fld_old + rhs 0 0) ∧
    (pde.multiply_rho = true →
      new DiffusionType.Explicit
        = (rho_old * detJ * fld_old + rhs (1 / 2) (1 / 2)) / rho_new / detJ ∧
      new DiffusionType.Crank_Nicolson = (rho_old * detJ * fld_old + rhs (1 / 2) 0) / rho_new ∧
      new DiffusionType.Implicit = (rho_old * detJ * fld_old + rhs 0 0) / rho_new) ∧
    (mm = false → detJ = 1) := by
  intro detJ mask rho_old rho_new fld_old src conv_new conv_old diff_new diff_old rhs new
  have hE := corrector_rhs_cell pde DiffusionType.Explicit (1 / 2) (1 / 2) dt mm s rfl
    lev i j k n hv hn
  have hC := corrector_rhs_cell pde DiffusionType.Crank_Nicolson (1 / 2) 0 dt mm s rfl
    lev i j k n hv hn
  have hI := corrector_rhs_cell pde DiffusionType.Implicit 0 0 dt mm s rfl
    lev i j k n hv hn
  refine ⟨fun hrho => ⟨?_, ?_, ?_⟩, fun hrho => ⟨?_, ?_, ?_⟩, fun hmm => ?_⟩
  · rw [show new DiffusionType.Explicit = _ from hE]
    simp [corrector_cell, hrho, detJ, mask, fld_old, src, conv_new, conv_old, diff_new,
      diff_old, rhs]
  · rw [show new DiffusionType.Crank_Nicolson = _ from hC]
    simp [corrector_cell, hrho, detJ, mask, fld_old, src, conv_new, conv_old, diff_new,
      diff_old, rhs]
  · rw [show new DiffusionType.Implicit = _ from hI]
    simp [corrector_cell, hrho, detJ, mask, fld_old, src, conv_new, conv_old, diff_new,
      diff_old, rhs]
  · rw [show new DiffusionType.Explicit = _ from hE]
    simp [corrector_cell, hrho, detJ, mask, rho_old, rho_new, fld_old, src, conv_new, conv_old,
      diff_new, diff_old, rhs]
  · rw [show new DiffusionType.Crank_Nicolson = _ from hC]
    simp [corrector_cell, hrho, detJ, mask, rho_old, rho_new, fld_old, src, conv_new, conv_old,
      diff_new, diff_old, rhs]
  · rw [show new DiffusionType.Implicit = _ from hI]
    simp [corrector_cell, hrho, detJ, mask, rho_old, rho_new, fld_old, src, conv_new, conv_old,
      diff_new, diff_old, rhs]
  · simp [detJ, hmm]

/-- Witness of C3: the sample configuration, density-weighted, mesh mapping
on; the Crank-Nicolson value is
`(2*2*5 + 1/100*(1/2*(2 - 1) + 1/2*6 + 0*3 + 2*1))/4 = 4011/800`. -/
theorem corrector_rhs_rule_witness :
    sample_fields.visited 0 0 0 0 = true ∧
    (corrector_rhs ⟨true, 1⟩ DiffusionType.Crank_Nicolson (1 / 100) true
        sample_fields).state.field.data 0 0 0 0 0 = 4011 / 800 :=
  ⟨by decide,
   ((corrector_rhs_rule ⟨true, 1⟩ (1 / 100 : ℚ) true sample_fields
      0 0 0 0 0 (by decide) (by decide)).2.1 rfl).2.1.trans
     (by norm_num [sample_fields, uniform_fields, Arr.const, PDEFields.to_stretched])⟩

/-- C4 (as stated) fails with mesh mapping on: with Jacobian determinant 2,
unit densities, unit old field and vanishing terms the Implicit
density-weighted predictor writes 2, not `rho_old*fld_old/rho_new = 1`. -/
theorem predictor_rhs_implicit_reduction_counterexample :
    jacobian_fields.visited 0 0 0 0 = true ∧
    0 < jacobian_fields.den_old 0 0 0 0 0 ∧ 0 < jacobian_fields.den_new 0 0 0 0 0 ∧
    jacobian_fields.src_term 0 0 0 0 0 = 0 ∧ jacobian_fields.conv_term 0 0 0 0 0 = 0 ∧
    jacobian_fields.diff_term 0 0 0 0 0 = 0 ∧
    (predictor_rhs ⟨true, 1⟩ Scheme.Godunov DiffusionType.Implicit (1 / 100) true
        jacobian_fields).state.field.data 0 0 0 0 0 = 2 ∧
    (predictor_rhs ⟨true, 1⟩ Scheme.Godunov DiffusionType.Implicit (1 / 100) true
        jacobian_fields).state.field.data 0 0 0 0 0 ≠
      jacobian_fields.den_old 0 0 0 0 0 * jacobian_fields.field_old.data 0 0 0 0 0
        / jacobian_fields.den_new 0 0 0 0 0 := by
  have h : (predictor_rhs ⟨true, 1⟩ Scheme.Godunov DiffusionType.Implicit (1 / 100 : ℚ) true
      jacobian_fields).state.field.data 0 0 0 0 0 = 2 := by
    rw [predictor_rhs_cell ⟨true, 1⟩ Scheme.Godunov DiffusionType.Implicit 0 (1 / 100 : ℚ) true
      jacobian_fields rfl 0 0 0 0 0 (by decide) (by decide)]
    have hne : ¬ DiffusionType.Implicit = DiffusionType.Explicit := by decide
    norm_num [predictor_cell, jacobian_fields, uniform_fields, Arr.const,
      PDEFields.to_stretched, PDEFields.conv_term_state, PDEFields.diff_term_state,
      predictor_fstate, hne]
  refine ⟨by decide, ?_, ?_, rfl, rfl, rfl, h, ?_⟩
  · norm_num [jacobian_fields, uniform_fields, Arr.const]
  · norm_num [jacobian_fields, uniform_fields, Arr.const]
  · rw [h]
    norm_num [jacobian_fields, uniform_fields, Arr.const]

/-- C4 (amended): for Implicit, in a visited cell where the source, convective
and diffusion terms vanish, the density-weighted predictor writes
`rho_old*detJ*fld_old/rho_new` for all positive densities, every `dt` and every
mask value, with `detJ` the Jacobian determinant under mesh mapping and `1`
otherwise; so it is `rho_old*fld_old/rho_new` when mesh mapping is off or
`detJ = 1`. -/
theorem predictor_rhs_implicit_reduction (pde : PDE) (scheme : Scheme) (dt : K) (mm : Bool)
    (s : PDEFields K) (lev : Nat) (i j k : Int) (n : Nat)
    (hrho : pde.multiply_rho = true)
    (hv : s.visited lev i j k = true) (hn : n < pde.ndim)
    (_hro : 0 < s.den_old lev i j k 0) (_hrn : 0 < s.den_new lev i j k 0)
    (hsrc : s.src_term lev i j k n = 0)
    (hconv : s.conv_term_state (predictor_fstate scheme) lev i j k n = 0)
    (hdiff : s.diff_term_state (predictor_fstate scheme) lev i j k n = 0) :
    let detJ : K := if mm then s.mesh_detJ lev i j k 0 else 1
    let rho_old : K := s.den_old lev i j k 0
    let rho_new : K := s.den_new lev i j k 0
    let fld_old : K := (s.to_stretched mm).field_old.data lev i j k n
    let fld_new : K :=
      (predictor_rhs pde scheme DiffusionType.Implicit dt mm s).state.field.data lev i j k n
    fld_new = rho_old * detJ * fld_old / rho_new ∧
    (detJ = 1 → fld_new = rho_old * fld_old / rho_new) ∧
    (predictor_rhs pde scheme DiffusionType.Implicit dt false s).state.field.data lev i j k n
      = rho_old * s.field_old.data lev i j k n / rho_new := by
  intro detJ rho_old rho_new fld_old fld_new
  have h1 : fld_new = rho_old * detJ * fld_old / rho_new := by
    show (predictor_rhs pde scheme DiffusionType.Implicit dt mm s).state.field.data lev i j k n = _
    rw [predictor_rhs_cell pde scheme DiffusionType.Implicit 0 dt mm s rfl lev i j k n hv hn]
    simp [predictor_cell, hrho, hsrc, hconv, hdiff, detJ, rho_old, rho_new, fld_old]
  refine ⟨h1, fun hJ => ?_, ?_⟩
  · rw [h1, hJ, mul_one]
  · rw [predictor_rhs_cell pde scheme DiffusionType.Implicit 0 dt false s rfl lev i j k n hv hn]
    simp [predictor_cell, hrho, hsrc, hconv, hdiff, to_stretched_false, rho_old, rho_new]

/-- Witness of C4 (amended): the configuration of the counterexample, where
the predictor writes `1*2*1/1 = 2`. -/
theorem predictor_rhs_implicit_reduction_witness :
    jacobian_fields.visited 0 0 0 0 = true ∧
    (predictor_rhs ⟨true, 1⟩ Scheme.Godunov DiffusionType.Implicit (1 / 100) true
        jacobian_fields).state.field.data 0 0 0 0 0 = 2 :=
  ⟨by decide,
   (predictor_rhs_implicit_reduction ⟨true, 1⟩ Scheme.Godunov (1 / 100 : ℚ) true
      jacobian_fields 0 0 0 0 0 rfl (by decide) (by decide)
      (by norm_num [jacobian_fields, uniform_fields, Arr.const])
      (by norm_num [jacobian_fields, uniform_fields, Arr.const]) rfl rfl rfl).1.trans
     (by norm_num [jacobian_fields, uniform_fields, Arr.const, PDEFields.to_stretched])⟩

/-- C5: the end-to-end scenario.  Without density weighting, Crank-Nicolson,
`dt = 1/100`, `fld_old = 1`, `conv_old = conv_new = 0`, `src = 0`,
`diff_old = diff_new = -2`, `mask = 1`, mesh mapping off: in every visited cell
`predictor_rhs` (under either scheme) writes `99/100`, and so does
`corrector_rhs`. -/
theorem crank_nicolson_scenario (pde : PDE) (scheme : Scheme)
    (s : PDEFields K) (lev : Nat) (i j k : Int) (n : Nat)
    (hrho : pde.multiply_rho = false)
    (hv : s.visited lev i j k = true) (hn : n < pde.ndim)
    (hold : s.field_old.data lev i j k n = 1)
    (hconv : s.conv_term lev i j k n = 0) (hconv_old : s.conv_term_old lev i j k n = 0)
    (hsrc : s.src_term lev i j k n = 0)
    (hdiff : s.diff_term lev i j k n = -2) (hdiff_old : s.diff_term_old lev i j k n = -2)
    (hmask : s.mask_cell lev i j k 0 = 1) :
    (predictor_rhs pde scheme DiffusionType.Crank_Nicolson (1 / 100 : K) false
        s).state.field.data lev i j k n = 99 / 100 ∧
    (corrector_rhs pde DiffusionType.Crank_Nicolson (1 / 100 : K) false
        s).state.field.data lev i j k n = 99 / 100 := by
  constructor
  · rw [predictor_rhs_cell pde scheme DiffusionType.Crank_Nicolson (1 / 2) (1 / 100) false s rfl
      lev i j k n hv hn]
    cases scheme <;>
      simp [predictor_cell, hrho, to_stretched_false, hold, hconv, hconv_old, hsrc, hdiff,
        hdiff_old, hmask, predictor_fstate, PDEFields.conv_term_state,
        PDEFields.diff_term_state] <;> norm_num
  · rw [corrector_rhs_cell pde DiffusionType.Crank_Nicolson (1 / 2) 0 (1 / 100) false s rfl
      lev i j k n hv hn]
    simp [corrector_cell, hrho, to_stretched_false, hold, hconv, hconv_old, hsrc, hdiff,
      hdiff_old, hmask]
    norm_num

/-- Witness of C5: the scenario on one level with the tile `[0,1]^3`. -/
theorem crank_nicolson_scenario_witness :
    scenario_fields.visited 0 1 0 1 = true ∧
    (predictor_rhs ⟨false, 1⟩ Scheme.Godunov DiffusionType.Crank_Nicolson (1 / 100 : ℚ) false
        scenario_fields).state.field.data 0 1 0 1 0 = 99 / 100 ∧
    (corrector_rhs ⟨false, 1⟩ DiffusionType.Crank_Nicolson (1 / 100 : ℚ) false
        scenario_fields).state.field.data 0 1 0 1 0 = 99 / 100 :=
  ⟨by decide,
   crank_nicolson_scenario ⟨false, 1⟩ Scheme.Godunov scenario_fields 0 1 0 1 0 rfl
     (by decide) (by decide) rfl rfl rfl rfl rfl rfl rfl⟩

/-- C6: in a visited cell whose mask value is 0 the value written by
`predictor_rhs` and by `corrector_rhs` is `detJ*fld_old` (not density-weighted)
or `rho_old*detJ*fld_old/rho_new` (density-weighted), divided by `detJ` for
Explicit; hence two runs with any time steps, schemes and source, convective
and diffusion terms write the same value as soon as they agree on `fld_old`
(the Old state as the loop reads it), `rho_old`, `rho_new`, `detJ` and the
diffusion type. -/
theorem masked_cell_rule (pde : PDE) (scheme1 scheme2 : Scheme) (d : DiffusionType)
    (dt1 dt2 : K) (mm : Bool) (s1 s2 : PDEFields K) (lev : Nat) (i j k : Int) (n : Nat)
    (hd : d.recognized = true)
    (hv1 : s1.visited lev i j k = true) (hv2 : s2.visited lev i j k = true)
    (hn : n < pde.ndim)
    (hm1 : s1.mask_cell lev i j k 0 = 0) (hm2 : s2.mask_cell lev i j k 0 = 0)
    (hold : (s1.to_stretched mm).field_old.data lev i j k n
      = (s2.to_stretched mm).field_old.data lev i j k n)
    (hro : s1.den_old lev i j k 0 = s2.den_old lev i j k 0)
    (hrn : s1.den_new lev i j k 0 = s2.den_new lev i j k 0)
    (hJ : s1.mesh_detJ lev i j k 0 = s2.mesh_detJ lev i j k 0) :
    let detJ : K := if mm then s1.mesh_detJ lev i j k 0 else 1
    let fld_old : K := (s1.to_stretched mm).field_old.data lev i j k n
    let base : K :=
      if pde.multiply_rho then s1.den_old lev i j k 0 * detJ * fld_old / s1.den_new lev i j k 0
      else detJ * fld_old
    let value : K := if d = DiffusionType.Explicit then base / detJ else base
    (predictor_rhs pde scheme1 d dt1 mm s1).state.field.data lev i j k n = value ∧
    (predictor_rhs pde scheme2 d dt2 mm s2).state.field.data lev i j k n = value ∧
    (corrector_rhs pde d dt1 mm s1).state.field.data lev i j k n = value ∧
    (corrector_rhs pde d dt2 mm s2).state.field.data lev i j k n = value := by
  intro detJ fld_old base value
  have hp : ∃ f : K, predictor_factor d = some f := by
    cases d <;> simp [predictor_factor, DiffusionType.recognized] at hd ⊢
  have hc : ∃ f : K × K, corrector_factors d = some f := by
    cases d <;> simp [corrector_factors, DiffusionType.recognized] at hd ⊢
  obtain ⟨f, hf⟩ := hp
  obtain ⟨⟨ofac, nfac⟩, hg⟩ := hc
  refine ⟨?_, ?_, ?_, ?_⟩
  · rw [predictor_rhs_cell pde scheme1 d f dt1 mm s1 hf lev i j k n hv1 hn]
    simp only [predictor_cell, hm1, Int.cast_zero, zero_mul, add_zero, value, base, detJ,
      fld_old]
    cases pde.multiply_rho <;> simp
  · rw [predictor_rhs_cell pde scheme2 d f dt2 mm s2 hf lev i j k n hv2 hn]
    simp only [predictor_cell, hm2, Int.cast_zero, zero_mul, add_zero, value, base, detJ,
      fld_old, hold, hro, hrn, hJ]
    cases pde.multiply_rho <;> simp
  · rw [corrector_rhs_cell pde d ofac nfac dt1 mm s1 hg lev i j k n hv1 hn]
    simp only [corrector_cell, hm1, Int.cast_zero, zero_mul, add_zero, value, base, detJ,
      fld_old]
    cases pde.multiply_rho <;> simp
  · rw [corrector_rhs_cell pde d ofac nfac dt2 mm s2 hg lev i j k n hv2 hn]
    simp only [corrector_cell, hm2, Int.cast_zero, zero_mul, add_zero, value, base, detJ,
      fld_old, hold, hro, hrn, hJ]
    cases pde.multiply_rho <;> simp

/-- Witness of C6: two masked configurations that differ in the time step
and in the source, convective and diffusion terms; density-weighted, Implicit,
mesh mapping on, both write `2*2*5/4 = 5`. -/
theorem masked_cell_rule_witness :
    masked_fields.visited 0 0 0 0 = true ∧ masked_fields_alt.visited 0 0 0 0 = true ∧
    masked_fields.src_term 0 0 0 0 0 ≠ masked_fields_alt.src_term 0 0 0 0 0 ∧
    (predictor_rhs ⟨true, 1⟩ Scheme.Godunov DiffusionType.Implicit (1 / 100) true
        masked_fields).state.field.data 0 0 0 0 0 = 5 ∧
    (predictor_rhs ⟨true, 1⟩ Scheme.MOL DiffusionType.Implicit (1 / 7) true
        masked_fields_alt).state.field.data 0 0 0 0 0 = 5 :=
  by
  have hne : ¬ DiffusionType.Implicit = DiffusionType.Explicit := by decide
  have h := masked_cell_rule ⟨true, 1⟩ Scheme.Godunov Scheme.MOL DiffusionType.Implicit
    (1 / 100 : ℚ) (1 / 7) true masked_fields masked_fields_alt 0 0 0 0 0 rfl
    (by decide) (by decide) (by decide) rfl rfl rfl rfl rfl rfl
  exact ⟨by decide, by decide,
    by norm_num [masked_fields, masked_fields_alt, uniform_fields, Arr.const],
    h.1.trans
      (by norm_num [masked_fields, uniform_fields, Arr.const, PDEFields.to_stretched, hne]),
    h.2.1.trans
      (by norm_num [masked_fields, uniform_fields, Arr.const, PDEFields.to_stretched, hne])⟩

/-- C7 (as stated) fails: with mesh mapping on and the Old state flagged as
being in uniform space, `predictor_rhs` and `corrector_rhs` transform the Old
state of the transported field, so it is not the same before and after. -/
theorem rhs_frame_old_state_counterexample :
    (predictor_rhs ⟨false, 1⟩ Scheme.Godunov DiffusionType.Explicit (1 / 100 : ℚ) true
        mapped_fields).state.field_old ≠ mapped_fields.field_old ∧
    (corrector_rhs ⟨false, 1⟩ DiffusionType.Explicit (1 / 100 : ℚ) true
        mapped_fields).state.field_old ≠ mapped_fields.field_old := by
  constructor
  · intro h
    have hu := congrArg Field.uniform h
    revert hu
    decide
  · intro h
    have hu := congrArg Field.uniform h
    revert hu
    decide

/-- C7 (amended): for every input, `predictor_rhs` and `corrector_rhs` leave
both density states, the source term, the diffusion-term and convective-term
states, the mask and the Jacobian field as they were; the Old state of the
transported field is replaced by its stretched-space transform (flag cleared)
when the call does not abort, mesh mapping is on and the Old state is flagged
as being in uniform space, and is left as it was in every other case. -/
theorem rhs_frame (pde : PDE) (scheme : Scheme) (d : DiffusionType) (dt : K) (mm : Bool)
    (s : PDEFields K) :
    let frame : PDEFields K → Prop := fun r =>
      r.den_new = s.den_new ∧ r.den_old = s.den_old ∧ r.src_term = s.src_term ∧
      r.diff_term = s.diff_term ∧ r.diff_term_old = s.diff_term_old ∧
      r.conv_term = s.conv_term ∧ r.conv_term_old = s.conv_term_old ∧
      r.mask_cell = s.mask_cell ∧ r.mesh_detJ = s.mesh_detJ ∧
      r.field_old =
        if d.recognized && s.field_old.uniform && mm then
          { data := s.stretch s.field_old.data, uniform := false }
        else s.field_old
    frame (predictor_rhs pde scheme d dt mm s).state ∧
    frame (corrector_rhs pde d dt mm s).state := by
  intro frame
  have key : ∀ fld : Arr K,
      frame { s.to_stretched mm with field := { (s.to_stretched mm).field with data := fld } } ∨
      d.recognized = false := by
    intro fld
    by_cases hd : d.recognized = true
    · left
      refine ⟨to_stretched_den_new s mm, to_stretched_den_old s mm, to_stretched_src_term s mm,
        to_stretched_diff_term s mm, to_stretched_diff_term_old s mm,
        to_stretched_conv_term s mm, to_stretched_conv_term_old s mm,
        to_stretched_mask_cell s mm, to_stretched_mesh_detJ s mm, ?_⟩
      show (s.to_stretched mm).field_old = _
      rw [to_stretched_field_old, hd]
      cases hu : s.field_old.uniform <;> cases mm <;>
        simp [Field.to_stretched_space, hu]
    · right
      simpa using hd
  cases d with
  | Unrecognized raw =>
    refine ⟨?_, ?_⟩
    · rw [predictor_rhs_unrecognized]
      simp [frame, Run.state, DiffusionType.recognized]
    · rw [corrector_rhs_unrecognized]
      simp [frame, Run.state, DiffusionType.recognized]
  | Explicit =>
    obtain ⟨f1, h1⟩ := predictor_rhs_state pde scheme DiffusionType.Explicit 1 dt mm s rfl
    obtain ⟨f2, h2⟩ := corrector_rhs_state pde DiffusionType.Explicit (1 / 2) (1 / 2) dt mm s rfl
    rw [h1, h2]
    exact ⟨(key f1).resolve_right (by simp [DiffusionType.recognized]),
      (key f2).resolve_right (by simp [DiffusionType.recognized])⟩
  | Crank_Nicolson =>
    obtain ⟨f1, h1⟩ :=
      predictor_rhs_state pde scheme DiffusionType.Crank_Nicolson (1 / 2) dt mm s rfl
    obtain ⟨f2, h2⟩ :=
      corrector_rhs_state pde DiffusionType.Crank_Nicolson (1 / 2) 0 dt mm s rfl
    rw [h1, h2]
    exact ⟨(key f1).resolve_right (by simp [DiffusionType.recognized]),
      (key f2).resolve_right (by simp [DiffusionType.recognized])⟩
  | Implicit =>
    obtain ⟨f1, h1⟩ := predictor_rhs_state pde scheme DiffusionType.Implicit 0 dt mm s rfl
    obtain ⟨f2, h2⟩ := corrector_rhs_state pde DiffusionType.Implicit 0 0 dt mm s rfl
    rw [h1, h2]
    exact ⟨(key f1).resolve_right (by simp [DiffusionType.recognized]),
      (key f2).resolve_right (by simp [DiffusionType.recognized])⟩

/-- C8: `predictor_rhs` and `corrector_rhs` abort exactly when the diffusion
type is none of Explicit, Crank-Nicolson, Implicit; an abort carries the
message "Invalid diffusion type" and the state the call was entered with, no
field having been transformed or written. -/
theorem invalid_diffusion_type_abort (pde : PDE) (scheme : Scheme) (d : DiffusionType)
    (dt : K) (mm : Bool) (s : PDEFields K) :
    let unrecognized : Prop :=
      d ≠ DiffusionType.Explicit ∧ d ≠ DiffusionType.Crank_Nicolson ∧ d ≠ DiffusionType.Implicit
    ((predictor_rhs pde scheme d dt mm s).aborted = true ↔ unrecognized) ∧
    (predictor_rhs pde scheme d dt mm s = Run.abort "Invalid diffusion type" s ↔ unrecognized) ∧
    ((corrector_rhs pde d dt mm s).aborted = true ↔ unrecognized) ∧
    (corrector_rhs pde d dt mm s = Run.abort "Invalid diffusion type" s ↔ unrecognized) := by
  intro unrecognized
  cases d with
  | Unrecognized raw =>
    simp [unrecognized, predictor_rhs_unrecognized, corrector_rhs_unrecognized, Run.aborted]
  | Explicit =>
    obtain ⟨f1, h1⟩ := predictor_rhs_state pde scheme DiffusionType.Explicit 1 dt mm s rfl
    obtain ⟨f2, h2⟩ := corrector_rhs_state pde DiffusionType.Explicit (1 / 2) (1 / 2) dt mm s rfl
    simp [unrecognized, h1, h2, Run.aborted]
  | Crank_Nicolson =>
    obtain ⟨f1, h1⟩ :=
      predictor_rhs_state pde scheme DiffusionType.Crank_Nicolson (1 / 2) dt mm s rfl
    obtain ⟨f2, h2⟩ :=
      corrector_rhs_state pde DiffusionType.Crank_Nicolson (1 / 2) 0 dt mm s rfl
    simp [unrecognized, h1, h2, Run.aborted]
  | Implicit =>
    obtain ⟨f1, h1⟩ := predictor_rhs_state pde scheme DiffusionType.Implicit 0 dt mm s rfl
    obtain ⟨f2, h2⟩ := corrector_rhs_state pde DiffusionType.Implicit 0 0 dt mm s rfl
    simp [unrecognized, h1, h2, Run.aborted]

end Rules

/-! ## Configuration of the Godunov ICNS operator -/

/-- C9: the scheme selected by the constructor is a total function of the
configured `godunov_type`, compared after lower-casing: `plm` gives PLM, `ppm`
gives PPM, `ppm_nolim` gives PPM_NOLIM, `weno` and `weno_js` give WENOJS,
`weno_z` gives WENOZ and every other string, the empty string of an absent
option included, gives the default PPM; the result is one of the five schemes,
and a construction that does not abort stores the scheme selected for the
queried string. -/
theorem godunov_scheme_selection (pp : ParmParse) (t : String) :
    (select_godunov_scheme t = godunov.scheme.PLM ↔ toLower t = "plm") ∧
    (select_godunov_scheme t = godunov.scheme.PPM_NOLIM ↔ toLower t = "ppm_nolim") ∧
    (select_godunov_scheme t = godunov.scheme.WENOJS ↔
      toLower t = "weno" ∨ toLower t = "weno_js") ∧
    (select_godunov_scheme t = godunov.scheme.WENOZ ↔ toLower t = "weno_z") ∧
    (select_godunov_scheme t = godunov.scheme.PPM ↔
      toLower t = "ppm" ∨
      (toLower t ≠ "plm" ∧ toLower t ≠ "ppm_nolim" ∧ toLower t ≠ "weno" ∧
        toLower t ≠ "weno_js" ∧ toLower t ≠ "weno_z")) ∧
    select_godunov_scheme t ∈ [godunov.scheme.PLM, godunov.scheme.PPM,
      godunov.scheme.PPM_NOLIM, godunov.scheme.WENOJS, godunov.scheme.WENOZ] ∧
    (∀ u : String, toLower u = toLower t →
      select_godunov_scheme u = select_godunov_scheme t) ∧
    select_godunov_scheme "" = godunov.scheme.PPM ∧
    select_godunov_scheme "plm" = godunov.scheme.PLM ∧
    select_godunov_scheme "ppm" = godunov.scheme.PPM ∧
    select_godunov_scheme "ppm_nolim" = godunov.scheme.PPM_NOLIM ∧
    select_godunov_scheme "weno" = godunov.scheme.WENOJS ∧
    select_godunov_scheme "weno_js" = godunov.scheme.WENOJS ∧
    select_godunov_scheme "weno_z" = godunov.scheme.WENOZ ∧
    select_godunov_scheme "PLM" = godunov.scheme.PLM ∧
    select_godunov_scheme "Weno_Z" = godunov.scheme.WENOZ ∧
    select_godunov_scheme "upwind" = godunov.scheme.PPM ∧
    (pp.contains "godunov_type" = true ∨ pp.query "godunov_type" "" = "") ∧
    ((GodunovAdvectionOp.construct pp).aborted = true ∨
      (GodunovAdvectionOp.construct pp).state.godunov_scheme =
        select_godunov_scheme (pp.query "godunov_type" "")) := by
  have e1 : ("ppm" : String) ≠ "plm" := by decide
  have e2 : ("ppm" : String) ≠ "ppm_nolim" := by decide
  have e3 : ("ppm" : String) ≠ "weno" := by decide
  have e4 : ("ppm" : String) ≠ "weno_js" := by decide
  have e5 : ("ppm" : String) ≠ "weno_z" := by decide
  refine ⟨?_, ?_, ?_, ?_, ?_, ?_, ?_, by decide, by decide, by decide, by decide, by decide,
    by decide, by decide, by decide, by decide, by decide, ?_, ?_⟩
  · unfold select_godunov_scheme
    split_ifs <;> simp_all
  · unfold select_godunov_scheme
    split_ifs <;> simp_all
  · unfold select_godunov_scheme
    split_ifs <;> simp_all
  · unfold select_godunov_scheme
    split_ifs with h1 h2 h3 h4 h5
    · simp_all
    · simp_all
    · simp_all
    · rcases h4 with h4 | h4 <;> simp_all
    · simp_all
    · simp_all
  · unfold select_godunov_scheme
    split_ifs with h1 h2 h3 h4 h5
    · simp_all
    · simp_all
    · simp_all
    · rcases h4 with h4 | h4 <;> simp_all
    · simp_all
    · simp_all
  · unfold select_godunov_scheme
    split_ifs <;> simp
  · intro u hu
    unfold select_godunov_scheme
    rw [hu]
  · unfold ParmParse.contains ParmParse.query
    cases h : pp.entries.reverse.find? (fun e => decide (e.1 = "godunov_type")) with
    | none => right; rfl
    | some e =>
      left
      have hmem := List.mem_of_find?_eq_some h
      have hp := List.find?_some h
      rw [List.any_eq_true]
      exact ⟨e, List.mem_reverse.mp hmem, hp⟩
  · unfold GodunovAdvectionOp.construct
    dsimp only
    split_ifs
    · left; rfl
    · right; rfl

/-- C10: constructing the Godunov ICNS operator aborts exactly when the
`incflo` table has the key `use_ppm` or the key `use_limiter`, whatever the
value stored under it and whatever `godunov_type` is; with neither key present
the construction returns. -/
theorem godunov_deprecated_keys_abort (pp : ParmParse) :
    ((GodunovAdvectionOp.construct pp).aborted = true ↔
      (pp.contains "use_ppm" = true ∨ pp.contains "use_limiter" = true)) ∧
    ((GodunovAdvectionOp.construct pp).aborted = false ↔
      (pp.contains "use_ppm" = false ∧ pp.contains "use_limiter" = false)) ∧
    (pp.contains "use_ppm" = true ↔ ∃ v : String, ("use_ppm", v) ∈ pp.entries) ∧
    (pp.contains "use_limiter" = true ↔ ∃ v : String, ("use_limiter", v) ∈ pp.entries) := by
  have hc : ∀ name : String,
      pp.contains name = true ↔ ∃ v : String, (name, v) ∈ pp.entries := by
    intro name
    unfold ParmParse.contains
    rw [List.any_eq_true]
    constructor
    · rintro ⟨⟨key, v⟩, hmem, hk⟩
      have hk2 : key = name := by simpa using hk
      exact ⟨v, hk2 ▸ hmem⟩
    · rintro ⟨v, hmem⟩
      exact ⟨(name, v), hmem, by simp⟩
  refine ⟨?_, ?_, hc "use_ppm", hc "use_limiter"⟩
  · unfold GodunovAdvectionOp.construct
    dsimp only
    cases h1 : pp.contains "use_ppm" <;> cases h2 : pp.contains "use_limiter" <;>
      simp [Run.aborted]
  · unfold GodunovAdvectionOp.construct
    dsimp only
    cases h1 : pp.contains "use_ppm" <;> cases h2 : pp.contains "use_limiter" <;>
      simp [Run.aborted]

/-! ## Order of the calls in the Godunov operator -/

theorem godunov_average_down_loop_eq (domain : Nat → Box) (n : Nat) :
    godunov_average_down_loop domain n =
      (List.range n).reverse.map (fun m =>
        AdvEvent.average_down_faces (m + 1) m
          (IntVect.div (domain (m + 1)).size (domain m).size)) := by
  induction n with
  | zero => rfl
  | succ n ih => simp [godunov_average_down_loop, List.range_succ, ih]

theorem godunov_flux_loop_kind (nlevels : Nat) (tiles : Nat → List Box) :
    ∀ e ∈ godunov_flux_loop nlevels tiles, e.is_fluxes = true := by
  intro e he
  unfold godunov_flux_loop at he
  obtain ⟨lev, _, hlev⟩ := List.mem_flatMap.mp he
  obtain ⟨bx, _, rfl⟩ := List.mem_map.mp hlev
  rfl

theorem godunov_advection_loop_kind (nlevels : Nat) (tiles : Nat → List Box) :
    ∀ e ∈ godunov_advection_loop nlevels tiles, e.is_advection = true := by
  intro e he
  unfold godunov_advection_loop at he
  obtain ⟨lev, _, hlev⟩ := List.mem_flatMap.mp he
  obtain ⟨bx, _, rfl⟩ := List.mem_map.mp hlev
  rfl

theorem godunov_average_down_loop_kind (domain : Nat → Box) (n : Nat) :
    ∀ e ∈ godunov_average_down_loop domain n, e.is_average_down = true := by
  intro e he
  rw [godunov_average_down_loop_eq] at he
  obtain ⟨m, _, rfl⟩ := List.mem_map.mp he
  rfl

/-- C11: for every number of active levels, the Godunov `operator()` first
computes the fluxes on all levels, then calls average-down exactly
`nlevels - 1` times, on the pairs `(lev, lev - 1)` for
`lev = nlevels - 1, ..., 1` in that order (no call for one level), each with
the component-wise quotient of the fine and coarse domain sizes, and calls
`compute_advection` of every level only after the last average-down. -/
theorem godunov_operator_order (nlevels : Nat) (flux_tiles adv_tiles : Nat → List Box)
    (domain : Nat → Box) :
    let tr := godunov_operator nlevels flux_tiles adv_tiles domain
    tr.filter AdvEvent.is_average_down = expected_average_down domain nlevels ∧
    (tr.filter AdvEvent.is_average_down).length = nlevels - 1 ∧
    (∃ pre mid post : List AdvEvent, tr = pre ++ (mid ++ post) ∧
      (∀ e ∈ pre, e.is_fluxes = true) ∧
      (∀ e ∈ mid, e.is_average_down = true) ∧
      (∀ e ∈ post, e.is_advection = true) ∧
      (∀ lev bx, lev < nlevels → bx ∈ flux_tiles lev →
        AdvEvent.compute_fluxes lev bx ∈ pre) ∧
      (∀ lev bx, lev < nlevels → bx ∈ adv_tiles lev →
        AdvEvent.compute_advection lev bx ∈ post)) ∧
    (godunov_operator 1 flux_tiles adv_tiles domain).filter AdvEvent.is_average_down = [] := by
  intro tr
  have hflux : (godunov_flux_loop nlevels flux_tiles).filter AdvEvent.is_average_down = [] := by
    rw [List.filter_eq_nil_iff]
    intro e he
    have := godunov_flux_loop_kind nlevels flux_tiles e he
    cases e <;> simp_all [AdvEvent.is_fluxes, AdvEvent.is_average_down]
  have hadv : (godunov_advection_loop nlevels adv_tiles).filter AdvEvent.is_average_down = [] := by
    rw [List.filter_eq_nil_iff]
    intro e he
    have := godunov_advection_loop_kind nlevels adv_tiles e he
    cases e <;> simp_all [AdvEvent.is_advection, AdvEvent.is_average_down]
  have havg : (godunov_average_down_loop domain (nlevels - 1)).filter AdvEvent.is_average_down
      = godunov_average_down_loop domain (nlevels - 1) :=
    List.filter_eq_self.mpr (godunov_average_down_loop_kind domain (nlevels - 1))
  have h1 : tr.filter AdvEvent.is_average_down = expected_average_down domain nlevels := by
    show (godunov_operator nlevels flux_tiles adv_tiles domain).filter _ = _
    unfold godunov_operator expected_average_down
    rw [List.filter_append, List.filter_append, hflux, hadv, havg,
      godunov_average_down_loop_eq]
    simp
  refine ⟨h1, ?_, ?_, ?_⟩
  · rw [h1]
    simp [expected_average_down]
  · refine ⟨godunov_flux_loop nlevels flux_tiles,
      godunov_average_down_loop domain (nlevels - 1),
      godunov_advection_loop nlevels adv_tiles, rfl,
      godunov_flux_loop_kind nlevels flux_tiles,
      godunov_average_down_loop_kind domain (nlevels - 1),
      godunov_advection_loop_kind nlevels adv_tiles, ?_, ?_⟩
    · intro lev bx hlev hbx
      unfold godunov_flux_loop
      exact List.mem_flatMap.mpr ⟨lev, List.mem_range.mpr hlev, List.mem_map.mpr ⟨bx, hbx, rfl⟩⟩
    · intro lev bx hlev hbx
      unfold godunov_advection_loop
      exact List.mem_flatMap.mpr ⟨lev, List.mem_range.mpr hlev, List.mem_map.mpr ⟨bx, hbx, rfl⟩⟩
  · simp [godunov_operator, godunov_average_down_loop, godunov_flux_loop,
      godunov_advection_loop, List.filter_map, Function.comp_def, AdvEvent.is_average_down]

/-! ## Weights of the corrector and calls of the transform -/

section Corrector

variable {K : Type} [LinearOrderedField K]

/-- C14 (as stated) fails: for Crank-Nicolson the corrector does not weight
the new diffusion term by `0.5`.  In the sample configuration (mesh mapping
off, no density weighting) it writes `1009/200`, while weights
`ofac = nfac = 0.5` would give `253/50`. -/
theorem corrector_crank_nicolson_weights_counterexample :
    sample_fields.visited 0 0 0 0 = true ∧
    (corrector_rhs ⟨false, 1⟩ DiffusionType.Crank_Nicolson (1 / 100 : ℚ) false
        sample_fields).state.field.data 0 0 0 0 0 = 1009 / 200 ∧
    (corrector_rhs ⟨false, 1⟩ DiffusionType.Crank_Nicolson (1 / 100 : ℚ) false
        sample_fields).state.field.data 0 0 0 0 0 ≠
      sample_fields.field_old.data 0 0 0 0 0 +
        ((sample_fields.mask_cell 0 0 0 0 0 : Int) : ℚ) * (1 / 100) *
          (1 / 2 * (sample_fields.conv_term_old 0 0 0 0 0 + sample_fields.conv_term 0 0 0 0 0)
            + 1 / 2 * sample_fields.diff_term_old 0 0 0 0 0
            + 1 / 2 * sample_fields.diff_term 0 0 0 0 0
            + sample_fields.src_term 0 0 0 0 0) := by
  have hne : ¬ DiffusionType.Crank_Nicolson = DiffusionType.Explicit := by decide
  have h : (corrector_rhs ⟨false, 1⟩ DiffusionType.Crank_Nicolson (1 / 100 : ℚ) false
      sample_fields).state.field.data 0 0 0 0 0 = 1009 / 200 := by
    rw [corrector_rhs_cell ⟨false, 1⟩ DiffusionType.Crank_Nicolson (1 / 2) 0 (1 / 100 : ℚ) false
      sample_fields rfl 0 0 0 0 0 (by decide) (by decide)]
    norm_num [corrector_cell, sample_fields, uniform_fields, Arr.const,
      PDEFields.to_stretched, hne]
  refine ⟨by decide, h, ?_⟩
  rw [h]
  norm_num [sample_fields, uniform_fields, Arr.const]

/-- C14 (amended): in `corrector_rhs` with Crank-Nicolson the old diffusion
term is weighted by `0.5` and the new diffusion term by `0`; the value written
in a visited cell does not depend on the new diffusion term. -/
theorem corrector_crank_nicolson_weights (pde : PDE) (dt : K) (mm : Bool)
    (s : PDEFields K) (diff_other : Arr K) (lev : Nat) (i j k : Int) (n : Nat)
    (hv : s.visited lev i j k = true) (hn : n < pde.ndim) :
    let detJ : K := if mm then s.mesh_detJ lev i j k 0 else 1
    let mask : K := ((s.mask_cell lev i j k 0 : Int) : K)
    let fld_old : K := (s.to_stretched mm).field_old.data lev i j k n
    let rhs : K := mask * dt *
      (1 / 2 * (s.conv_term_old lev i j k n + s.conv_term lev i j k n)
        + 1 / 2 * s.diff_term_old lev i j k n + 0 * s.diff_term lev i j k n
        + detJ * s.src_term lev i j k n)
    (corrector_factors DiffusionType.Crank_Nicolson : Option (K × K)) = some (1 / 2, 0) ∧
    (corrector_rhs pde DiffusionType.Crank_Nicolson dt mm s).state.field.data lev i j k n =
      (if pde.multiply_rho then
        (s.den_old lev i j k 0 * detJ * fld_old + rhs) / s.den_new lev i j k 0
       else detJ * fld_old + rhs) ∧
    (corrector_rhs pde DiffusionType.Crank_Nicolson dt mm
        { s with diff_term := diff_other }).state.field.data lev i j k n =
      (corrector_rhs pde DiffusionType.Crank_Nicolson dt mm s).state.field.data lev i j k n := by
  intro detJ mask fld_old rhs
  have hne : ¬ DiffusionType.Crank_Nicolson = DiffusionType.Explicit := by decide
  have h1 := corrector_rhs_cell pde DiffusionType.Crank_Nicolson (1 / 2) 0 dt mm s rfl
    lev i j k n hv hn
  have h2 := corrector_rhs_cell pde DiffusionType.Crank_Nicolson (1 / 2) 0 dt mm
    { s with diff_term := diff_other } rfl lev i j k n hv hn
  have hold : ({ s with diff_term := diff_other } : PDEFields K).to_stretched mm
      = { s.to_stretched mm with diff_term := diff_other } := by
    unfold PDEFields.to_stretched
    dsimp only
    split_ifs <;> rfl
  refine ⟨rfl, ?_, ?_⟩
  · rw [h1]
    cases hr : pde.multiply_rho <;>
      simp [corrector_cell, hr, hne, detJ, mask, fld_old, rhs]
  · rw [h1, h2, hold]
    cases hr : pde.multiply_rho <;> simp [corrector_cell, hr, hne]

/-- Witness of C14 (amended): the sample configuration, where the value is
`5 + 1/100*(1/2*(2 - 1) + 1/2*6 + 1) = 1009/200`. -/
theorem corrector_crank_nicolson_weights_witness :
    sample_fields.visited 0 0 0 0 = true ∧
    (corrector_rhs ⟨false, 1⟩ DiffusionType.Crank_Nicolson (1 / 100 : ℚ) false
        sample_fields).state.field.data 0 0 0 0 0 = 1009 / 200 :=
  ⟨by decide,
   (corrector_crank_nicolson_weights ⟨false, 1⟩ (1 / 100 : ℚ) false sample_fields
      (Arr.const 0) 0 0 0 0 0 (by decide) (by decide)).2.1.trans
     (by norm_num [sample_fields, uniform_fields, Arr.const, PDEFields.to_stretched])⟩

end Corrector

section Transform

variable {K : Type} [LinearOrderedField K]

theorem to_stretched_log_fst {K : Type} (s : PDEFields K) (mm : Bool) :
    (s.to_stretched_log mm).1 = s.to_stretched mm := by
  unfold PDEFields.to_stretched_log PDEFields.to_stretched
  dsimp only
  split_ifs <;> rfl

theorem to_stretched_log_snd {K : Type} (s : PDEFields K) (mm : Bool) :
    (s.to_stretched_log mm).2 =
      (if s.field.uniform && mm then [FieldState.New] else []) ++
        (if s.field_old.uniform && mm then [FieldState.Old] else []) := by
  unfold PDEFields.to_stretched_log
  dsimp only
  split_ifs <;> simp_all

theorem to_stretched_flags {K : Type} (s : PDEFields K) (mm : Bool) :
    (s.to_stretched mm).field.uniform = (s.field.uniform && !mm) ∧
    (s.to_stretched mm).field_old.uniform = (s.field_old.uniform && !mm) := by
  unfold PDEFields.to_stretched Field.to_stretched_space
  cases hn : s.field.uniform <;> cases ho : s.field_old.uniform <;> cases mm <;>
    simp [hn, ho]

theorem rhs_call_done_flags (c : RhsCall K) (s s1 : PDEFields K)
    (h : c.run s = Run.done s1) :
    s1.field.uniform = (s.field.uniform && !c.mesh_mapping) ∧
    s1.field_old.uniform = (s.field_old.uniform && !c.mesh_mapping) := by
  have key : ∀ (mm : Bool) (fld : Arr K),
      s1 = { s.to_stretched mm with field := { (s.to_stretched mm).field with data := fld } } →
      s1.field.uniform = (s.field.uniform && !mm) ∧
      s1.field_old.uniform = (s.field_old.uniform && !mm) := by
    intro mm fld hs
    subst hs
    exact to_stretched_flags s mm
  cases c with
  | predictor pde scheme d dt mm =>
    simp only [RhsCall.run] at h
    cases d with
    | Unrecognized raw => rw [predictor_rhs_unrecognized] at h; cases h
    | Explicit =>
      obtain ⟨f, hf⟩ := predictor_rhs_state pde scheme DiffusionType.Explicit 1 dt mm s rfl
      rw [hf] at h
      exact key mm f (Run.done.inj h).symm
    | Crank_Nicolson =>
      obtain ⟨f, hf⟩ :=
        predictor_rhs_state pde scheme DiffusionType.Crank_Nicolson (1 / 2) dt mm s rfl
      rw [hf] at h
      exact key mm f (Run.done.inj h).symm
    | Implicit =>
      obtain ⟨f, hf⟩ := predictor_rhs_state pde scheme DiffusionType.Implicit 0 dt mm s rfl
      rw [hf] at h
      exact key mm f (Run.done.inj h).symm
  | corrector pde d dt mm =>
    simp only [RhsCall.run] at h
    cases d with
    | Unrecognized raw => rw [corrector_rhs_unrecognized] at h; cases h
    | Explicit =>
      obtain ⟨f, hf⟩ :=
        corrector_rhs_state pde DiffusionType.Explicit (1 / 2) (1 / 2) dt mm s rfl
      rw [hf] at h
      exact key mm f (Run.done.inj h).symm
    | Crank_Nicolson =>
      obtain ⟨f, hf⟩ :=
        corrector_rhs_state pde DiffusionType.Crank_Nicolson (1 / 2) 0 dt mm s rfl
      rw [hf] at h
      exact key mm f (Run.done.inj h).symm
    | Implicit =>
      obtain ⟨f, hf⟩ := corrector_rhs_state pde DiffusionType.Implicit 0 0 dt mm s rfl
      rw [hf] at h
      exact key mm f (Run.done.inj h).symm

theorem rhs_sequence_transformed_count (calls : List (RhsCall K)) :
    ∀ s : PDEFields K,
      (rhs_sequence_transformed calls s).count FieldState.New
          ≤ (if s.field.uniform then 1 else 0) ∧
      (rhs_sequence_transformed calls s).count FieldState.Old
          ≤ (if s.field_old.uniform then 1 else 0) := by
  induction calls with
  | nil => intro s; simp [rhs_sequence_transformed]
  | cons c cs ih =>
    intro s
    unfold rhs_sequence_transformed
    cases hrun : c.run s with
    | abort msg s1 => simp
    | done s1 =>
      obtain ⟨hn, ho⟩ := rhs_call_done_flags c s s1 hrun
      obtain ⟨ihn, iho⟩ := ih s1
      rw [hn] at ihn
      rw [ho] at iho
      simp only [to_stretched_log_snd, List.count_append]
      cases hfn : s.field.uniform <;> cases hfo : s.field_old.uniform <;>
        cases hmm : c.mesh_mapping <;> simp_all

/-- C15: in `predictor_rhs` and `corrector_rhs` the uniform-to-stretched
transform is invoked on the New state, and separately on the Old state,
exactly when that state is flagged as being in uniform space and
`mesh_mapping` is true (a call that aborts in its `switch` invokes nothing), at
most once per state per call and never with `mesh_mapping` false; with the
transform clearing the flag, every sequence of predictor and corrector calls
invokes it at most once on each state. -/
theorem transform_at_most_once (c : RhsCall K) (calls : List (RhsCall K)) (mm : Bool)
    (s : PDEFields K) :
    (FieldState.New ∈ (s.to_stretched_log mm).2 ↔ (s.field.uniform = true ∧ mm = true)) ∧
    (FieldState.Old ∈ (s.to_stretched_log mm).2 ↔ (s.field_old.uniform = true ∧ mm = true)) ∧
    (s.to_stretched_log mm).2.count FieldState.New ≤ 1 ∧
    (s.to_stretched_log mm).2.count FieldState.Old ≤ 1 ∧
    (s.to_stretched_log false).2 = [] ∧
    (s.to_stretched_log mm).1 = s.to_stretched mm ∧
    c.transformed s =
      (if (c.run s).aborted then [] else (s.to_stretched_log c.mesh_mapping).2) ∧
    (rhs_sequence_transformed calls s).count FieldState.New ≤ 1 ∧
    (rhs_sequence_transformed calls s).count FieldState.Old ≤ 1 := by
  refine ⟨?_, ?_, ?_, ?_, ?_, to_stretched_log_fst s mm, ?_, ?_, ?_⟩
  · rw [to_stretched_log_snd]
    cases s.field.uniform <;> cases s.field_old.uniform <;> cases mm <;> simp
  · rw [to_stretched_log_snd]
    cases s.field.uniform <;> cases s.field_old.uniform <;> cases mm <;> simp
  · rw [to_stretched_log_snd]
    cases s.field.uniform <;> cases s.field_old.uniform <;> cases mm <;> simp
  · rw [to_stretched_log_snd]
    cases s.field.uniform <;> cases s.field_old.uniform <;> cases mm <;> simp
  · rw [to_stretched_log_snd]
    simp
  · unfold RhsCall.transformed
    cases c.run s <;> simp [Run.aborted]
  · refine le_trans (rhs_sequence_transformed_count calls s).1 ?_
    split_ifs <;> simp
  · refine le_trans (rhs_sequence_transformed_count calls s).2 ?_
    split_ifs <;> simp

end Transform

/-! ## States read and written by the operators -/

section Handles

variable {K : Type} [LinearOrderedField K]

theorem set_conv_term_state_visited {K : Type} (s : PDEFields K) (fs : FieldState)
    (a : Arr K) (lev : Nat) (i j k : Int) :
    (s.set_conv_term_state fs a).visited lev i j k = s.visited lev i j k := by
  cases fs <;> rfl

/-- C16: the state in which `predictor_rhs` reads the convective and diffusion
terms is the state the operators write.  Under Godunov it reads New, and the
Godunov advection operator and `compute_diff_term` write New for every
requested `fstate`; under method-of-lines it reads Old, and the MOL advection
operator and `compute_diff_term` called with `fstate = Old` write Old.  So
after the advection operator and `compute_diff_term` have run, the arrays
`predictor_rhs` reads hold in every visited cell the values the kernels
produced. -/
theorem predictor_reads_written_state (pde : PDE) (fstate : FieldState)
    (compute : Arr K → Arr K) (apply_op : K → K → FieldState → Arr K → Arr K)
    (s : PDEFields K) (lev : Nat) (i j k : Int) (n : Nat)
    (hv : s.visited lev i j k = true) (hn : n < pde.ndim) (hn3 : n < ICNS.ndim) :
    let g := compute_diff_term pde Scheme.Godunov fstate apply_op
      (godunov_advection_op fstate compute s)
    let m := compute_diff_term pde Scheme.MOL FieldState.Old apply_op
      (mol_advection_op FieldState.Old compute s)
    godunov_conv_term_state fstate = predictor_fstate Scheme.Godunov ∧
    tau_state Scheme.Godunov fstate = predictor_fstate Scheme.Godunov ∧
    mol_conv_term_state FieldState.Old = predictor_fstate Scheme.MOL ∧
    tau_state Scheme.MOL FieldState.Old = predictor_fstate Scheme.MOL ∧
    (godunov_advection_op fstate compute s).conv_term_state (predictor_fstate Scheme.Godunov)
      = s.write_visited ICNS.ndim s.conv_term (compute (s.field_state fstate).data) ∧
    (compute_diff_term pde Scheme.Godunov fstate apply_op s).diff_term_state
        (predictor_fstate Scheme.Godunov)
      = s.write_visited pde.ndim s.diff_term (apply_op 0 (-1) fstate s.field.data) ∧
    (mol_advection_op FieldState.Old compute s).conv_term_state (predictor_fstate Scheme.MOL)
      = s.write_visited AMREX_SPACEDIM s.conv_term_old (compute s.field_old.data) ∧
    (compute_diff_term pde Scheme.MOL FieldState.Old apply_op s).diff_term_state
        (predictor_fstate Scheme.MOL)
      = s.write_visited pde.ndim s.diff_term_old
          (apply_op 0 (-1) FieldState.Old s.field.data) ∧
    g.conv_term_state (predictor_fstate Scheme.Godunov) lev i j k n
      = compute (s.field_state fstate).data lev i j k n ∧
    g.diff_term_state (predictor_fstate Scheme.Godunov) lev i j k n
      = apply_op 0 (-1) fstate s.field.data lev i j k n ∧
    m.conv_term_state (predictor_fstate Scheme.MOL) lev i j k n
      = compute s.field_old.data lev i j k n ∧
    m.diff_term_state (predictor_fstate Scheme.MOL) lev i j k n
      = apply_op 0 (-1) FieldState.Old s.field.data lev i j k n := by
  intro g m
  have hn3' : n < AMREX_SPACEDIM := hn3
  refine ⟨rfl, rfl, rfl, rfl, rfl, rfl, rfl, rfl, ?_, ?_, ?_, ?_⟩
  · show s.write_visited ICNS.ndim s.conv_term (compute (s.field_state fstate).data)
      lev i j k n = _
    simp [PDEFields.write_visited, hv, hn3]
  · show (godunov_advection_op fstate compute s).write_visited pde.ndim
      (godunov_advection_op fstate compute s).diff_term
      (apply_op 0 (-1) fstate (godunov_advection_op fstate compute s).field.data)
      lev i j k n = _
    have hv2 : (godunov_advection_op fstate compute s).visited lev i j k = true := by
      unfold godunov_advection_op
      rw [set_conv_term_state_visited]
      exact hv
    have hf : (godunov_advection_op fstate compute s).field = s.field := rfl
    simp [PDEFields.write_visited, hv2, hn, hf]
  · show s.write_visited AMREX_SPACEDIM s.conv_term_old (compute s.field_old.data)
      lev i j k n = _
    simp [PDEFields.write_visited, hv, hn3']
  · show (mol_advection_op FieldState.Old compute s).write_visited pde.ndim
      (mol_advection_op FieldState.Old compute s).diff_term_old
      (apply_op 0 (-1) FieldState.Old (mol_advection_op FieldState.Old compute s).field.data)
      lev i j k n = _
    have hv2 : (mol_advection_op FieldState.Old compute s).visited lev i j k = true := by
      unfold mol_advection_op
      rw [set_conv_term_state_visited]
      exact hv
    have hf : (mol_advection_op FieldState.Old compute s).field = s.field := rfl
    simp [PDEFields.write_visited, hv2, hn, hf]

/-- Witness of C16: the sample configuration with the kernels `x ↦ 2*x` and
`x ↦ alpha + beta*x`; under Godunov with `fstate = Old` the convective term
read by the predictor is `2*5 = 10` and the diffusion term `-7`. -/
theorem predictor_reads_written_state_witness :
    sample_fields.visited 0 0 0 0 = true ∧
    (compute_diff_term ⟨false, 1⟩ Scheme.Godunov FieldState.Old sample_apply_op
      (godunov_advection_op FieldState.Old (sample_apply_op 0 2 FieldState.New)
        sample_fields)).conv_term_state (predictor_fstate Scheme.Godunov) 0 0 0 0 0 = 10 ∧
    (compute_diff_term ⟨false, 1⟩ Scheme.Godunov FieldState.Old sample_apply_op
      (godunov_advection_op FieldState.Old (sample_apply_op 0 2 FieldState.New)
        sample_fields)).diff_term_state (predictor_fstate Scheme.Godunov) 0 0 0 0 0 = -7 := by
  have h := predictor_reads_written_state ⟨false, 1⟩ FieldState.Old
    (sample_apply_op 0 2 FieldState.New) sample_apply_op sample_fields 0 0 0 0 0
    (by decide) (by decide) (by decide)
  exact ⟨by decide,
    h.2.2.2.2.2.2.2.2.1.trans
      (by norm_num [sample_apply_op, sample_fields, uniform_fields, Arr.const,
            PDEFields.field_state]),
    h.2.2.2.2.2.2.2.2.2.1.trans
      (by norm_num [sample_apply_op, sample_fields, uniform_fields, Arr.const])⟩

/-- C17 (as stated) fails for `fstate = Old`: the operator is applied to
`fields.field`, the New state.  In the sample configuration (New state 7, Old
state 5) with the operator `x ↦ alpha + beta*x`, `compute_diff_term(Old)` under
method-of-lines writes `-7`, not the operator applied to the Old state,
`-5`. -/
theorem compute_diff_term_operand_counterexample :
    sample_fields.visited 0 0 0 0 = true ∧
    (compute_diff_term ⟨false, 1⟩ Scheme.MOL FieldState.Old sample_apply_op
        sample_fields).diff_term_old 0 0 0 0 0 = -7 ∧
    sample_apply_op 0 (-1) FieldState.Old
        (sample_fields.field_state FieldState.Old).data 0 0 0 0 0 = -5 ∧
    (compute_diff_term ⟨false, 1⟩ Scheme.MOL FieldState.Old sample_apply_op
        sample_fields).diff_term_old 0 0 0 0 0 ≠
      sample_apply_op 0 (-1) FieldState.Old
        (sample_fields.field_state FieldState.Old).data 0 0 0 0 0 := by
  have h1 : (compute_diff_term ⟨false, 1⟩ Scheme.MOL FieldState.Old sample_apply_op
      sample_fields).diff_term_old 0 0 0 0 0 = -7 := by
    have hv : sample_fields.visited 0 0 0 0 = true := by decide
    simp only [compute_diff_term, tau_state, PDEFields.set_diff_term_state,
      PDEFields.write_visited, hv]
    norm_num [sample_apply_op, sample_fields, uniform_fields, Arr.const]
  have h2 : sample_apply_op 0 (-1) FieldState.Old
      (sample_fields.field_state FieldState.Old).data 0 0 0 0 0 = -5 := by
    norm_num [sample_apply_op, sample_fields, uniform_fields, Arr.const,
      PDEFields.field_state]
  refine ⟨by decide, h1, h2, ?_⟩
  rw [h1, h2]
  norm_num

/-- C17 (amended): for every requested state `fstate`, the scalar
`compute_diff_term(fstate)` sets up the explicit operator with `alpha = 0` and
`beta = -1` using `fstate`, applies it to the New state of the transported
field (the state `fstate` only when `fstate` is New), and writes only the
diffusion-term field, in state New under Godunov and in state `fstate` under
method-of-lines; the transported field and every other field are unchanged. -/
theorem compute_diff_term_effect (pde : PDE) (scheme : Scheme) (fstate : FieldState)
    (apply_op : K → K → FieldState → Arr K → Arr K) (s : PDEFields K) :
    let r := compute_diff_term pde scheme fstate apply_op s
    r.diff_term_state (tau_state scheme fstate) =
      s.write_visited pde.ndim (s.diff_term_state (tau_state scheme fstate))
        (apply_op 0 (-1) fstate (s.field_state FieldState.New).data) ∧
    (∀ fs : FieldState, fs ≠ tau_state scheme fstate →
      r.diff_term_state fs = s.diff_term_state fs) ∧
    tau_state Scheme.Godunov fstate = FieldState.New ∧
    tau_state Scheme.MOL fstate = fstate ∧
    r.field = s.field ∧ r.field_old = s.field_old ∧
    r.den_new = s.den_new ∧ r.den_old = s.den_old ∧ r.src_term = s.src_term ∧
    r.conv_term = s.conv_term ∧ r.conv_term_old = s.conv_term_old ∧
    r.mask_cell = s.mask_cell ∧ r.mesh_detJ = s.mesh_detJ := by
  intro r
  refine ⟨?_, ?_, rfl, rfl, ?_, ?_, ?_, ?_, ?_, ?_, ?_, ?_, ?_⟩
  · cases scheme <;> cases fstate <;> rfl
  · intro fs hfs
    cases scheme <;> cases fstate <;> cases fs <;>
      first | rfl | exact absurd rfl hfs
  all_goals cases scheme <;> cases fstate <;> rfl

/-- C18 (code evaluated): with mesh mapping on, the guard at the head of the
method-of-lines `preadvect` leaves the degree-of-freedom field flagged as not
being in uniform space, for either initial value of the flag; a flagged field
is replaced by its stretched-space transform. -/
theorem mol_preadvect_guard_stretched {K : Type} (xf : Arr K → Arr K)
    (dof_field : Field K) :
    (mol_preadvect_guard xf true dof_field).uniform = false ∧
    (mol_preadvect_guard xf true { data := dof_field.data, uniform := true })
      = { data := xf dof_field.data, uniform := false } ∧
    (mol_preadvect_guard xf true { data := dof_field.data, uniform := false })
      = { data := dof_field.data, uniform := false } := by
  refine ⟨?_, ?_, ?_⟩
  · unfold mol_preadvect_guard Field.to_stretched_space
    cases h : dof_field.uniform <;> simp [h]
  · simp [mol_preadvect_guard, Field.to_stretched_space]
  · simp [mol_preadvect_guard]

end Handles

/-! ## Wall-model branches of `KsgsM84Src` -/

theorem bdryLo_ok (bx : Box) (dir : Nat) (hbx : bx.ok = true) :
    (bdryLo bx dir 1).ok = true := by
  unfold Box.ok at hbx ⊢
  simp only [Bool.and_eq_true, decide_eq_true_eq] at hbx ⊢
  obtain ⟨⟨hx, hy⟩, hz⟩ := hbx
  unfold bdryLo
  rcases dir with _ | _ | dir
  · simp only [IntVect.get, IntVect.setVal]
    refine ⟨⟨by omega, hy⟩, hz⟩
  · simp only [IntVect.get, IntVect.setVal]
    refine ⟨⟨hx, by omega⟩, hz⟩
  · simp only [IntVect.get, IntVect.setVal]
    refine ⟨⟨hx, hy⟩, by omega⟩

section Ksgs

variable {K : Type} [LinearOrderedField K]

theorem lo_side_of_ok (m : KsgsM84Src K) (lev : Nat) (bx : Box) (dir : Nat)
    (src : Arr3 K) (hbx : bx.ok = true) :
    m.lo_side lev bx dir src = Run.done (m.lo_step lev bx dir src) := by
  unfold KsgsM84Src.lo_side KsgsM84Src.lo_step
  simp only [bdryLo_ok bx dir hbx, if_true]
  split_ifs <;> rfl

theorem operator_call_of_ok (m : KsgsM84Src K) (lev : Nat) (bx : Box) (src : Arr3 K)
    (hbx : bx.ok = true) :
    m.operator_call lev bx src =
      if m.hi_wall lev bx 0 then
        Run.abort "tke wall model is not supported on upper boundary"
          (m.lo_step lev bx 0 (m.interior lev bx src))
      else if m.hi_wall lev bx 1 then
        Run.abort "tke wall model is not supported on upper boundary"
          (m.lo_step lev bx 1 (m.lo_step lev bx 0 (m.interior lev bx src)))
      else if m.hi_wall lev bx 2 then
        Run.abort "tke wall model is not supported on upper boundary"
          (m.lo_step lev bx 2 (m.lo_step lev bx 1 (m.lo_step lev bx 0 (m.interior lev bx src))))
      else
        Run.done
          (m.lo_step lev bx 2 (m.lo_step lev bx 1 (m.lo_step lev bx 0 (m.interior lev bx src)))) := by
  have hr : List.range AMREX_SPACEDIM = [0, 1, 2] := by decide
  unfold KsgsM84Src.operator_call
  rw [hr]
  simp only [KsgsM84Src.dir_loop, KsgsM84Src.dir_body, lo_side_of_ok m lev bx _ _ hbx,
    KsgsM84Src.hi_side]
  split_ifs <;> simp_all

theorem exists_dir_lt_three (p : Nat → Prop) :
    (∃ dir, dir < AMREX_SPACEDIM ∧ p dir) ↔ (p 0 ∨ p 1 ∨ p 2) := by
  constructor
  · rintro ⟨dir, hlt, hp⟩
    have h3 : dir < 3 := hlt
    interval_cases dir
    · exact Or.inl hp
    · exact Or.inr (Or.inl hp)
    · exact Or.inr (Or.inr hp)
  · rintro (h | h | h)
    · exact ⟨0, by decide, h⟩
    · exact ⟨1, by decide, h⟩
    · exact ⟨2, by decide, h⟩

theorem operator_call_aborts_any_box (m : KsgsM84Src K) (lev : Nat) (b : Box) (src : Arr3 K)
    (h : m.hi_wall lev b 0 = true ∨ m.hi_wall lev b 1 = true ∨ m.hi_wall lev b 2 = true) :
    (m.operator_call lev b src).aborted = true := by
  have hr : List.range AMREX_SPACEDIM = [0, 1, 2] := by decide
  unfold KsgsM84Src.operator_call
  rw [hr]
  simp only [KsgsM84Src.dir_loop, KsgsM84Src.dir_body, KsgsM84Src.lo_side, KsgsM84Src.hi_side]
  cases h0 : m.hi_wall lev b 0 <;> cases h1 : m.hi_wall lev b 1 <;>
    cases h2 : m.hi_wall lev b 2 <;> simp [h0, h1, h2] at h ⊢ <;>
    (split_ifs <;> simp [Run.aborted])

/-- C19: in `KsgsM84Src::operator()` on a non-empty box, whenever some
direction has the wall-model type on its high boundary and the box reaches the
upper end of the domain there, the call aborts with "tke wall model is not
supported on upper boundary", and it aborts in no other case; the state at the
abort and the state returned hold the interior update and low-side
corrections only, so no upper-boundary correction is ever added.  On any
box `b`, empty or not, the call does not return in that case. -/
theorem upper_wall_model_aborts (m : KsgsM84Src K) (lev : Nat) (bx b : Box) (src : Arr3 K)
    (hbx : bx.ok = true) :
    let s1 := m.lo_step lev bx 0 (m.interior lev bx src)
    let s2 := m.lo_step lev bx 1 s1
    let s3 := m.lo_step lev bx 2 s2
    let hi : Nat → Prop := fun dir =>
      m.bc_type_hi dir = BC.wall_model ∧ bx.bigend.get dir = (m.domain lev).bigend.get dir
    ((∃ dir, dir < AMREX_SPACEDIM ∧ hi dir) ↔
      ∃ s, m.operator_call lev bx src =
        Run.abort "tke wall model is not supported on upper boundary" s) ∧
    ((∃ dir, dir < AMREX_SPACEDIM ∧ hi dir) ↔ (m.operator_call lev bx src).aborted = true) ∧
    ((m.operator_call lev bx src).state = s1 ∨ (m.operator_call lev bx src).state = s2 ∨
      (m.operator_call lev bx src).state = s3) ∧
    ((m.operator_call lev bx src).aborted = false ↔ m.operator_call lev bx src = Run.done s3) ∧
    ((∃ dir, dir < AMREX_SPACEDIM ∧ m.bc_type_hi dir = BC.wall_model ∧
        b.bigend.get dir = (m.domain lev).bigend.get dir) →
      (m.operator_call lev b src).aborted = true) := by
  intro s1 s2 s3 hi
  have hhi : ∀ dir, hi dir ↔ m.hi_wall lev bx dir = true := by
    intro dir
    simp [hi, KsgsM84Src.hi_wall]
  have hany : (∃ dir, dir < AMREX_SPACEDIM ∧ m.bc_type_hi dir = BC.wall_model ∧
        b.bigend.get dir = (m.domain lev).bigend.get dir) →
      (m.operator_call lev b src).aborted = true := by
    intro h
    rw [exists_dir_lt_three
      (fun dir => m.bc_type_hi dir = BC.wall_model ∧
        b.bigend.get dir = (m.domain lev).bigend.get dir)] at h
    apply operator_call_aborts_any_box
    simpa [KsgsM84Src.hi_wall] using h
  refine ⟨?_, ?_, ?_, ?_, hany⟩ <;>
    (first
      | rw [exists_dir_lt_three, hhi 0, hhi 1, hhi 2, operator_call_of_ok m lev bx src hbx]
      | rw [operator_call_of_ok m lev bx src hbx]) <;>
    cases h0 : m.hi_wall lev bx 0 <;> cases h1 : m.hi_wall lev bx 1 <;>
      cases h2 : m.hi_wall lev bx 2 <;> simp [Run.aborted, Run.state, s1, s2, s3]

/-- Witness of C19: the sample source on the tile `[2,3]^3` of the domain
`[0,3]^3`, with the wall model on the high side of direction 2. -/
theorem upper_wall_model_aborts_witness :
    sample_high_tile.ok = true ∧
    sample_ksgs.bc_type_hi 2 = BC.wall_model ∧
    (sample_ksgs.operator_call 0 sample_high_tile (fun _ _ _ => 0)).aborted = true :=
  ⟨by decide, by decide,
   (upper_wall_model_aborts sample_ksgs 0 sample_high_tile sample_high_tile (fun _ _ _ => 0)
      (by decide)).2.1.mp
     ⟨2, by decide, by decide, by decide⟩⟩

end Ksgs

/-! ## Tensors: transposition and rotations -/

section Tensors

variable {K : Type} [LinearOrderedField K]

/-- C27: the tensor built with `transpose = true` is the transpose of the one
built with `transpose = false`: `TensorT(x,y,z,false)` has the rows `x`, `y`,
`z`, `TensorT(x,y,z,true)` has the columns `x`, `y`, `z`, and
`v & TensorT(x,y,z,false) = TensorT(x,y,z,true) & v` for every vector `v`. -/
theorem tensor_transpose_flag (x y z v : vs.Vector K) :
    vs.Tensor.of_vectors x y z true = (vs.Tensor.of_vectors x y z false).transposed ∧
    (vs.Tensor.of_vectors x y z false).x = x ∧
    (vs.Tensor.of_vectors x y z false).y = y ∧
    (vs.Tensor.of_vectors x y z false).z = z ∧
    (vs.Tensor.of_vectors x y z true).cx = x ∧
    (vs.Tensor.of_vectors x y z true).cy = y ∧
    (vs.Tensor.of_vectors x y z true).cz = z ∧
    vs.vector_dot_tensor v (vs.Tensor.of_vectors x y z false)
      = vs.tensor_dot_vector (vs.Tensor.of_vectors x y z true) v := by
  refine ⟨rfl, rfl, rfl, rfl, rfl, rfl, rfl, rfl⟩

end Tensors

theorem half_angle_cos (r : ℝ) :
    Real.cos r = Real.cos (1 / 2 * (-1 * r)) * Real.cos (1 / 2 * (-1 * r))
      - Real.sin (1 / 2 * (-1 * r)) * Real.sin (1 / 2 * (-1 * r)) := by
  have e : r = -(2 * (1 / 2 * (-1 * r))) := by ring
  conv_lhs => rw [e, Real.cos_neg, Real.cos_two_mul']
  ring

theorem half_angle_sin (r : ℝ) :
    Real.sin r = -(2 * (Real.sin (1 / 2 * (-1 * r)) * Real.cos (1 / 2 * (-1 * r)))) := by
  have e : r = -(2 * (1 / 2 * (-1 * r))) := by ring
  conv_lhs => rw [e, Real.sin_neg, Real.sin_two_mul]
  ring

/-- C26: for every axis length `s > 0` and every angle, `vs::quaternion`
applied to `s*(1,0,0)`, `s*(0,1,0)`, `s*(0,0,1)` equals `vs::xrot`, `vs::yrot`,
`vs::zrot` of the same angle, component by component, over the real sine,
cosine and square root (whatever `utils::radians` returns). -/
theorem quaternion_axis_rotations (radians : ℝ → ℝ) (s angle : ℝ) (hs : 0 < s) :
    vs.quaternion Real.cos Real.sin Real.sqrt radians ⟨s, 0, 0⟩ angle
      = vs.xrot Real.cos Real.sin radians angle ∧
    vs.quaternion Real.cos Real.sin Real.sqrt radians ⟨0, s, 0⟩ angle
      = vs.yrot Real.cos Real.sin radians angle ∧
    vs.quaternion Real.cos Real.sin Real.sqrt radians ⟨0, 0, s⟩ angle
      = vs.zrot Real.cos Real.sin radians angle := by
  have hs0 : s ≠ 0 := ne_of_gt hs
  have hsq : Real.sqrt (s * s) = s := Real.sqrt_mul_self hs.le
  have hone := Real.cos_sq_add_sin_sq (1 / 2 * (-1 * radians angle))
  refine ⟨?_, ?_, ?_⟩
  · simp only [vs.quaternion, vs.xrot, vs.mag, vs.Vector.dot, mul_zero, add_zero, zero_div,
      vs.Tensor.mk.injEq, hsq, mul_div_assoc, div_self hs0, mul_one,
      half_angle_cos (radians angle), half_angle_sin (radians angle)]
    refine ⟨?_, ?_, ?_, ?_, ?_, ?_, ?_, ?_, ?_⟩ <;> first
      | (ring_nf; done)
      | linear_combination hone
  · simp only [vs.quaternion, vs.yrot, vs.mag, vs.Vector.dot, mul_zero, add_zero, zero_add,
      zero_div, vs.Tensor.mk.injEq, hsq, mul_div_assoc, div_self hs0, mul_one,
      half_angle_cos (radians angle), half_angle_sin (radians angle)]
    refine ⟨?_, ?_, ?_, ?_, ?_, ?_, ?_, ?_, ?_⟩ <;> first
      | (ring_nf; done)
      | linear_combination hone
  · simp only [vs.quaternion, vs.zrot, vs.mag, vs.Vector.dot, mul_zero, add_zero, zero_add,
      zero_div, vs.Tensor.mk.injEq, hsq, mul_div_assoc, div_self hs0, mul_one,
      half_angle_cos (radians angle), half_angle_sin (radians angle)]
    refine ⟨?_, ?_, ?_, ?_, ?_, ?_, ?_, ?_, ?_⟩ <;> first
      | (ring_nf; done)
      | linear_combination hone

/-- Witness of C26: axis length 2 and angle 90, with `radians` the conversion
from degrees. -/
theorem quaternion_axis_rotations_witness :
    (0 : ℝ) < 2 ∧
    vs.quaternion Real.cos Real.sin Real.sqrt (fun a => a * Real.pi / 180) ⟨2, 0, 0⟩ 90
      = vs.xrot Real.cos Real.sin (fun a => a * Real.pi / 180) 90 :=
  ⟨by norm_num,
   (quaternion_axis_rotations (fun a => a * Real.pi / 180) 2 90 (by norm_num)).1⟩

/-! ## Volume-fraction fluxes -/

section Vof

variable {K : Type} [LinearOrderedField K]

theorem Arr3.set_self {K : Type} (a : Arr3 K) (i j k : Int) (v : K) :
    (a.set i j k v) i j k = v := by
  simp [Arr3.set]

theorem clip_unit_interval (u : K) :
    0 ≤ max 0 (min 1 u) ∧ max 0 (min 1 u) ≤ 1 ∧ (0 ≤ u → u ≤ 1 → max 0 (min 1 u) = u) := by
  refine ⟨le_max_left _ _, max_le zero_le_one (min_le_left _ _), ?_⟩
  intro h0 h1
  rw [min_eq_right h1, max_eq_right h0]

/-- C28: in `lagrangian_explicit`, for a full cell (`|volfrac - 1| <= 1e-12`)
and every `dtdx`, `velL`, `velR` and direction, `fluxL = max(-aL, 0)`,
`fluxC = 1 - max(aL, 0) + min(aR, 0)`, `fluxR = max(aR, 0)` with
`aL = velL*dtdx`, `aR = velR*dtdx`, and the three sum to `1 - aL + aR`; for a
cell with `volfrac <= 0` all three fluxes are 0. -/
theorem lagrangian_explicit_full_cell
    (fit_plane : Int → Int → Int → Arr3 K → K × K × K × K)
    (cut_volume : K → K → K → K → K → K → K)
    (i j k : Int) (dir : Nat) (dtdx velL velR : K)
    (volfrac volfrac_empty fluxL fluxC fluxR : Arr3 K)
    (hfull : |volfrac i j k - 1| ≤ 1 / 1000000000000) :
    let aL := velL * dtdx
    let aR := velR * dtdx
    let r := lagrangian_explicit fit_plane cut_volume i j k dir dtdx velL velR volfrac
      fluxL fluxC fluxR
    let e := lagrangian_explicit fit_plane cut_volume i j k dir dtdx velL velR volfrac_empty
      fluxL fluxC fluxR
    r.1 i j k = max (-aL) 0 ∧
    r.2.1 i j k = 1 - max aL 0 + min aR 0 ∧
    r.2.2 i j k = max aR 0 ∧
    r.1 i j k + r.2.1 i j k + r.2.2 i j k = 1 - aL + aR ∧
    (volfrac_empty i j k ≤ 0 → e.1 i j k = 0 ∧ e.2.1 i j k = 0 ∧ e.2.2 i j k = 0) := by
  intro aL aR r e
  have hv : lagrangian_explicit_values fit_plane cut_volume i j k dir dtdx velL velR volfrac
      = (max (-aL) 0, 1 - max aL 0 + min aR 0, max aR 0) := by
    unfold lagrangian_explicit_values
    simp only [hfull, if_true, aL, aR]
  have h1 : r.1 i j k = max (-aL) 0 := by
    show (fluxL.set i j k _) i j k = _
    rw [Arr3.set_self, hv]
  have h2 : r.2.1 i j k = 1 - max aL 0 + min aR 0 := by
    show (fluxC.set i j k _) i j k = _
    rw [Arr3.set_self, hv]
  have h3 : r.2.2 i j k = max aR 0 := by
    show (fluxR.set i j k _) i j k = _
    rw [Arr3.set_self, hv]
  refine ⟨h1, h2, h3, ?_, ?_⟩
  · rw [h1, h2, h3]
    rcases le_total aL 0 with hL | hL <;> rcases le_total aR 0 with hR | hR
    · rw [max_eq_left (neg_nonneg.mpr hL), max_eq_right hL, min_eq_left hR, max_eq_right hR]
      ring
    · rw [max_eq_left (neg_nonneg.mpr hL), max_eq_right hL, min_eq_right hR, max_eq_left hR]
      ring
    · rw [max_eq_right (neg_nonpos.mpr hL), max_eq_left hL, min_eq_left hR, max_eq_right hR]
      ring
    · rw [max_eq_right (neg_nonpos.mpr hL), max_eq_left hL, min_eq_right hR, max_eq_left hR]
      ring
  · intro hempty
    have hnot : ¬ |volfrac_empty i j k - 1| ≤ (1 / 1000000000000 : K) := by
      rw [abs_sub_comm, abs_of_nonneg (by linarith)]
      intro h
      have : (1 / 1000000000000 : K) < 1 := by norm_num
      linarith
    have hpos : ¬ volfrac_empty i j k > 0 := not_lt.mpr hempty
    have hz : lagrangian_explicit_values fit_plane cut_volume i j k dir dtdx velL velR
        volfrac_empty = (0, 0, 0) := by
      unfold lagrangian_explicit_values
      simp only [hnot, hpos, if_false]
    refine ⟨?_, ?_, ?_⟩
    · show (fluxL.set i j k _) i j k = _
      rw [Arr3.set_self, hz]
    · show (fluxC.set i j k _) i j k = _
      rw [Arr3.set_self, hz]
    · show (fluxR.set i j k _) i j k = _
      rw [Arr3.set_self, hz]

/-- Witness of C28: a full cell with `velL*dtdx = -1/4` and
`velR*dtdx = 1/2`: the fluxes are `1/4`, `1`, `1/2` and sum to
`1 + 1/4 + 1/2`. -/
theorem lagrangian_explicit_full_cell_witness :
    |(fun _ _ _ => (1 : ℚ)) 0 0 0 - 1| ≤ (1 / 1000000000000 : ℚ) ∧
    (lagrangian_explicit sample_fit_plane sample_cut_volume 0 0 0 0 (1 / 2) (-1 / 2) 1
      (fun _ _ _ => 1) (fun _ _ _ => 0) (fun _ _ _ => 0) (fun _ _ _ => 0)).1 0 0 0 = 1 / 4 :=
  ⟨by norm_num,
   (lagrangian_explicit_full_cell sample_fit_plane sample_cut_volume 0 0 0 0 (1 / 2) (-1 / 2)
      1 (fun _ _ _ => 1) (fun _ _ _ => 0) (fun _ _ _ => 0) (fun _ _ _ => 0) (fun _ _ _ => 0)
      (by norm_num)).1.trans (by norm_num)⟩

/-- C23: for every cell, direction, boundary-condition record and every value
of the fluxes, velocities and previous volume fraction, the volume fraction
written by `balance_lagrangian_fluxes` and by `balance_eulerian_fluxes` lies in
`[0, 1]`: it is the balance value clipped by `max(0, min(1, .))`, hence that
value itself whenever it lies in `[0, 1]`.  In direction 0 the balance values
are `fluxR(i-1) + fluxC(i) + fluxL(i+1)` and
`volfrac - (fluxR(i) - fluxL(i+1)) + (fluxR(i-1) - fluxL(i)) + fluxC*(velR - velL)`
on the fluxes left by the boundary assignments, and alike in directions 1
and 2. -/
theorem balance_fluxes_clipped (ext_dir hoextrap : Int) (i j k : Int) (dir : Nat)
    (velL velR : K) (volfrac fluxL fluxC fluxR : Arr3 K) (bc : BCRec) (domlo domhi : Int) :
    let ul := (balance_lagrangian_unclipped ext_dir hoextrap i j k dir volfrac fluxL fluxC
      fluxR bc domlo domhi).1 i j k
    let ue := (balance_eulerian_unclipped ext_dir hoextrap i j k dir velL velR volfrac fluxL
      fluxC fluxR bc domlo domhi).1 i j k
    let rl := (balance_lagrangian_fluxes ext_dir hoextrap i j k dir volfrac fluxL fluxC
      fluxR bc domlo domhi).1 i j k
    let re := (balance_eulerian_fluxes ext_dir hoextrap i j k dir velL velR volfrac fluxL
      fluxC fluxR bc domlo domhi).1 i j k
    let f0 := balance_boundary_fluxes ext_dir hoextrap i j k 0 fluxL fluxR bc domlo domhi
    let f1 := balance_boundary_fluxes ext_dir hoextrap i j k 1 fluxL fluxR bc domlo domhi
    let f2 := balance_boundary_fluxes ext_dir hoextrap i j k 2 fluxL fluxR bc domlo domhi
    (0 ≤ rl ∧ rl ≤ 1) ∧ (0 ≤ re ∧ re ≤ 1) ∧
    rl = max 0 (min 1 ul) ∧ re = max 0 (min 1 ue) ∧
    (0 ≤ ul → ul ≤ 1 → rl = ul) ∧ (0 ≤ ue → ue ≤ 1 → re = ue) ∧
    (dir = 0 → ul = f0.2 (i - 1) j k + fluxC i j k + f0.1 (i + 1) j k ∧
      ue = volfrac i j k - (f0.2 i j k - f0.1 (i + 1) j k) + (f0.2 (i - 1) j k - f0.1 i j k)
        + fluxC i j k * (velR - velL)) ∧
    (dir = 1 → ul = f1.2 i (j - 1) k + fluxC i j k + f1.1 i (j + 1) k ∧
      ue = volfrac i j k - (f1.2 i j k - f1.1 i (j + 1) k) + (f1.2 i (j - 1) k - f1.1 i j k)
        + fluxC i j k * (velR - velL)) ∧
    (dir = 2 → ul = f2.2 i j (k - 1) + fluxC i j k + f2.1 i j (k + 1) ∧
      ue = volfrac i j k - (f2.2 i j k - f2.1 i j (k + 1)) + (f2.2 i j (k - 1) - f2.1 i j k)
        + fluxC i j k * (velR - velL)) := by
  intro ul ue rl re f0 f1 f2
  have hl : rl = max 0 (min 1 ul) := by
    show ((balance_lagrangian_unclipped ext_dir hoextrap i j k dir volfrac fluxL fluxC
      fluxR bc domlo domhi).1.set i j k _) i j k = _
    rw [Arr3.set_self]
  have he : re = max 0 (min 1 ue) := by
    show ((balance_eulerian_unclipped ext_dir hoextrap i j k dir velL velR volfrac fluxL
      fluxC fluxR bc domlo domhi).1.set i j k _) i j k = _
    rw [Arr3.set_self]
  refine ⟨?_, ?_, hl, he, ?_, ?_, ?_, ?_, ?_⟩
  · rw [hl]
    exact ⟨(clip_unit_interval ul).1, (clip_unit_interval ul).2.1⟩
  · rw [he]
    exact ⟨(clip_unit_interval ue).1, (clip_unit_interval ue).2.1⟩
  · intro h0 h1
    rw [hl]
    exact (clip_unit_interval ul).2.2 h0 h1
  · intro h0 h1
    rw [he]
    exact (clip_unit_interval ue).2.2 h0 h1
  · intro hd
    subst hd
    refine ⟨?_, ?_⟩
    · show ((volfrac.set i j k _) i j k) = _
      rw [Arr3.set_self]
    · show ((volfrac.set i j k _) i j k) = _
      rw [Arr3.set_self]
  · intro hd
    subst hd
    refine ⟨?_, ?_⟩
    · show ((volfrac.set i j k _) i j k) = _
      rw [Arr3.set_self]
    · show ((volfrac.set i j k _) i j k) = _
      rw [Arr3.set_self]
  · intro hd
    subst hd
    refine ⟨?_, ?_⟩
    · show ((volfrac.set i j k _) i j k) = _
      rw [Arr3.set_self]
    · show ((volfrac.set i j k _) i j k) = _
      rw [Arr3.set_self]

end Vof

/-! ## Stencils applied by `fvm::impl::apply` -/

theorem boundary_stencils_count (st : fvm.Stencil) (h : st ≠ fvm.Stencil.StencilInterior) :
    fvm.boundary_stencils.count st = 1 := by
  cases st <;> first | exact absurd rfl h | decide

theorem boundary_stencils_sides_count (a b c : fvm.Side)
    (h : (a, b, c) ≠ (fvm.Side.inside, fvm.Side.inside, fvm.Side.inside)) :
    (fvm.boundary_stencils.map fvm.Stencil.sides).count (a, b, c) = 1 := by
  cases a <;> cases b <;> cases c <;> first | exact absurd rfl h | decide

/-- C24: `fvm::impl::apply` applies the interior stencil to every tile of
every active level; for a tile strictly contained in the domain of its level
nothing else is applied; for every other tile each of the 26 boundary stencils
(6 faces, 12 edges, 8 corners, every low/high combination) is applied exactly
once, after the interior stencil. -/
theorem fvm_apply_stencils (nlevels : Nat) (domain : Nat → Box) (tiles : Nat → List Box)
    (d bx : Box) :
    (∀ lev b, lev < nlevels → b ∈ tiles lev →
      (lev, b, fvm.Stencil.StencilInterior) ∈ fvm.apply nlevels domain tiles ∧
      ∀ st, (lev, b, st) ∈ fvm.apply nlevels domain tiles ↔
        st ∈ fvm.apply_tile (domain lev) b) ∧
    (fvm.apply_tile d bx).head? = some fvm.Stencil.StencilInterior ∧
    (fvm.apply_tile d bx).count fvm.Stencil.StencilInterior = 1 ∧
    (d.strictly_contains bx = true →
      fvm.apply_tile d bx = [fvm.Stencil.StencilInterior]) ∧
    (d.strictly_contains bx = false →
      fvm.apply_tile d bx = fvm.Stencil.StencilInterior :: fvm.boundary_stencils ∧
      ∀ st, (fvm.apply_tile d bx).count st = 1) ∧
    fvm.boundary_stencils.length = 26 ∧
    (∀ a b c : fvm.Side, (a, b, c) ≠ (fvm.Side.inside, fvm.Side.inside, fvm.Side.inside) →
      (fvm.boundary_stencils.map fvm.Stencil.sides).count (a, b, c) = 1) ∧
    (fvm.boundary_stencils.filter (fun st => fvm.boundary_rank st.sides = 1)).length = 6 ∧
    (fvm.boundary_stencils.filter (fun st => fvm.boundary_rank st.sides = 2)).length = 12 ∧
    (fvm.boundary_stencils.filter (fun st => fvm.boundary_rank st.sides = 3)).length = 8 := by
  have hint : fvm.boundary_stencils.count fvm.Stencil.StencilInterior = 0 := by decide
  refine ⟨?_, rfl, ?_, ?_, ?_, rfl, boundary_stencils_sides_count, by decide, by decide,
    by decide⟩
  · intro lev b hlev hb
    have hmem : ∀ st, (lev, b, st) ∈ fvm.apply nlevels domain tiles ↔
        st ∈ fvm.apply_tile (domain lev) b := by
      intro st
      unfold fvm.apply
      simp only [List.mem_flatMap, List.mem_map, List.mem_range, Prod.mk.injEq]
      constructor
      · rintro ⟨lev1, _, b1, _, st1, hst, rfl, rfl, rfl⟩
        exact hst
      · intro hst
        exact ⟨lev, hlev, b, hb, st, hst, rfl, rfl, rfl⟩
    refine ⟨(hmem _).mpr ?_, hmem⟩
    simp [fvm.apply_tile]
  · unfold fvm.apply_tile
    split_ifs
    · simp
    · rw [List.count_cons_self, hint]
  · intro h
    simp [fvm.apply_tile, h]
  · intro h
    have he : fvm.apply_tile d bx = fvm.Stencil.StencilInterior :: fvm.boundary_stencils := by
      simp [fvm.apply_tile, h]
    refine ⟨he, ?_⟩
    intro st
    rw [he]
    by_cases hst : st = fvm.Stencil.StencilInterior
    · subst hst
      rw [List.count_cons_self, hint]
    · rw [List.count_cons_of_ne hst, boundary_stencils_count st hst]

/-! ## Conservative flags and the ground coefficient -/

/-- C21: after every construction that returns, the conservative flag vector
of the Godunov ICNS operator has exactly `ICNS::ndim = 3` entries, all 0
(non-conservative form), and `operator()` passes this member to every call of
the flux computation and of the divergence step. -/
theorem godunov_iconserv_zero (pp : ParmParse) (nlevels : Nat)
    (flux_tiles adv_tiles : Nat → List Box) (domain : Nat → Box) :
    ICNS.ndim = 3 ∧
    ((GodunovAdvectionOp.construct pp).aborted = true ∨
      ((GodunovAdvectionOp.construct pp).state.iconserv.length = ICNS.ndim ∧
       (∀ x ∈ (GodunovAdvectionOp.construct pp).state.iconserv, x = 0) ∧
       (GodunovAdvectionOp.construct pp).state.iconserv = [0, 0, 0] ∧
       ∀ e ∈ godunov_operator nlevels flux_tiles adv_tiles domain,
         (e.is_fluxes = true ∨ e.is_advection = true) →
         (GodunovAdvectionOp.construct pp).state.iconserv_argument e = some [0, 0, 0])) := by
  refine ⟨rfl, ?_⟩
  unfold GodunovAdvectionOp.construct
  dsimp only
  split_ifs with h
  · left; rfl
  · right
    have hv : vec_resize ([] : List Int) ICNS.ndim 0 = [0, 0, 0] := by decide
    refine ⟨?_, ?_, ?_, ?_⟩
    · simp only [Run.state, hv]
      rfl
    · intro x hx
      simp only [Run.state, hv] at hx
      simpa using hx
    · simp [Run.state, hv]
    · intro e _ he
      cases e with
      | compute_fluxes lev bx =>
        simp [Run.state, hv, GodunovAdvectionOp.iconserv_argument]
      | average_down_faces f c rr =>
        simp [AdvEvent.is_fluxes, AdvEvent.is_advection] at he
      | compute_advection lev bx =>
        simp [Run.state, hv, GodunovAdvectionOp.iconserv_argument]

theorem box_ok_of_contains (bx : Box) (i j k : Int) (h : bx.contains i j k = true) :
    bx.ok = true := by
  unfold Box.contains at h
  unfold Box.ok
  simp only [Bool.and_eq_true, decide_eq_true_eq] at h ⊢
  obtain ⟨⟨⟨⟨⟨h1, h2⟩, h3⟩, h4⟩, h5⟩, h6⟩ := h
  exact ⟨⟨by omega, by omega⟩, by omega⟩

theorem bdryLo_contains (bx : Box) (dir : Nat) (i j k : Int) (h : bx.contains i j k = true) :
    (bdryLo bx dir 1).contains i j k = true ↔
      (⟨i, j, k⟩ : IntVect).get dir = bx.smallend.get dir := by
  unfold Box.contains at h ⊢
  simp only [Bool.and_eq_true, decide_eq_true_eq] at h ⊢
  obtain ⟨⟨⟨⟨⟨h1, h2⟩, h3⟩, h4⟩, h5⟩, h6⟩ := h
  unfold bdryLo
  rcases dir with _ | _ | dir <;> simp only [IntVect.get, IntVect.setVal] <;>
    constructor <;> intro hh <;> omega

section KsgsCell

variable {K : Type} [LinearOrderedField K]

theorem lo_step_apply (m : KsgsM84Src K) (lev : Nat) (bx : Box) (e : Nat) (f : Arr3 K)
    (i j k : Int) (hcell : bx.contains i j k = true) :
    m.lo_step lev bx e f i j k =
      f i j k +
        (if m.lo_wall lev bx e = true ∧ (⟨i, j, k⟩ : IntVect).get e = bx.smallend.get e
          then 1 else 0) *
        ((m.ceps_local lev i j k - m.m_CepsGround) * m.sqrt (m.m_tke lev i j k 0) *
          m.m_tke lev i j k 0 / m.m_turb_lscale lev i j k 0) := by
  unfold KsgsM84Src.lo_step
  by_cases hw : m.lo_wall lev bx e = true
  · by_cases hf : (⟨i, j, k⟩ : IntVect).get e = bx.smallend.get e
    · have hin := (bdryLo_contains bx e i j k hcell).mpr hf
      simp [hw, hf, KsgsM84Src.wall_correction, hin]
    · have hout : (bdryLo bx e 1).contains i j k = false := by
        rw [Bool.eq_false_iff]
        intro hc
        exact hf ((bdryLo_contains bx e i j k hcell).mp hc)
      simp [hw, hf, KsgsM84Src.wall_correction, hout]
  · simp [hw]

theorem lo_step_outside (m : KsgsM84Src K) (lev : Nat) (bx : Box) (e : Nat) (f : Arr3 K)
    (i j k : Int) (hbx : bx.ok = true) (hnc : bx.contains i j k = false) :
    m.lo_step lev bx e f i j k = f i j k := by
  have hb : (bdryLo bx e 1).contains i j k = false := by
    rw [Bool.eq_false_iff]
    intro hc
    rw [Bool.eq_false_iff] at hnc
    apply hnc
    unfold Box.contains at hc ⊢
    simp only [Bool.and_eq_true, decide_eq_true_eq] at hc ⊢
    unfold bdryLo at hc
    unfold Box.ok at hbx
    simp only [Bool.and_eq_true, decide_eq_true_eq] at hbx
    rcases e with _ | _ | e <;> simp only [IntVect.get, IntVect.setVal] at hc <;>
      (refine ⟨⟨⟨⟨⟨?_, ?_⟩, ?_⟩, ?_⟩, ?_⟩, ?_⟩ <;> omega)
  unfold KsgsM84Src.lo_step
  split_ifs
  · simp [KsgsM84Src.wall_correction, hb]
  · rfl

theorem operator_call_no_hi (m : KsgsM84Src K) (lev : Nat) (bx : Box) (src : Arr3 K)
    (hbx : bx.ok = true) (hhi : ∀ e, e < AMREX_SPACEDIM → m.hi_wall lev bx e = false) :
    m.operator_call lev bx src =
      Run.done (m.lo_step lev bx 2 (m.lo_step lev bx 1 (m.lo_step lev bx 0
        (m.interior lev bx src)))) := by
  have h0 := hhi 0 (by decide)
  have h1 := hhi 1 (by decide)
  have h2 := hhi 2 (by decide)
  have hcall := operator_call_of_ok m lev bx src hbx
  simp only [h0, h1, h2, Bool.false_eq_true, if_false] at hcall
  exact hcall

theorem lo_steps_value (m : KsgsM84Src K) (lev : Nat) (bx : Box) (src : Arr3 K)
    (i j k : Int) (hcell : bx.contains i j k = true) :
    m.lo_step lev bx 2 (m.lo_step lev bx 1 (m.lo_step lev bx 0
        (m.interior lev bx src))) i j k
      = src i j k +
          (m.m_shear_prod lev i j k 0 + m.m_buoy_prod lev i j k 0
            - m.ceps_local lev i j k * m.sqrt (m.m_tke lev i j k 0) * m.m_tke lev i j k 0
              / m.m_turb_lscale lev i j k 0)
        + ((if m.lo_wall lev bx 0 = true ∧ (⟨i, j, k⟩ : IntVect).get 0 = bx.smallend.get 0
              then 1 else 0)
            + (if m.lo_wall lev bx 1 = true ∧ (⟨i, j, k⟩ : IntVect).get 1 = bx.smallend.get 1
              then 1 else 0)
            + (if m.lo_wall lev bx 2 = true ∧ (⟨i, j, k⟩ : IntVect).get 2 = bx.smallend.get 2
              then 1 else 0))
          * ((m.ceps_local lev i j k - m.m_CepsGround) * m.sqrt (m.m_tke lev i j k 0)
              * m.m_tke lev i j k 0 / m.m_turb_lscale lev i j k 0) := by
  rw [lo_step_apply m lev bx 2 _ i j k hcell, lo_step_apply m lev bx 1 _ i j k hcell,
    lo_step_apply m lev bx 0 _ i j k hcell]
  simp only [KsgsM84Src.interior, hcell, if_true]
  ring

/-- C25 (counterexample): the sample source with low wall-model boundaries in
the directions 1 and 2 and no high one, constructed with `Ceps = 93/100` (so
`CepsGround = 39/10`), on the tile `[0,1]^3`.  The cell `(0,0,0)` lies in the
first layer of both walls, so it is not a cell in the first layer of exactly
one direction; one call started from a zero `src_term` leaves `-487/100`
there, which is neither the increase with the local coefficient,
`1 + 1 - 93/100 = 107/100`, nor the one with the ground coefficient,
`1 + 1 - 39/10 = -19/10`. -/
theorem ksgs_corner_cell_counterexample :
    sample_low_tile.contains 0 0 0 = true ∧
    (∀ e, e < AMREX_SPACEDIM →
      (KsgsM84Src.construct "OneEqKsgsM84" (93 / 100 : ℚ) sample_ksgs_two_walls).state.hi_wall
        0 sample_low_tile e = false) ∧
    ((KsgsM84Src.construct "OneEqKsgsM84" (93 / 100 : ℚ) sample_ksgs_two_walls).state.lo_wall
        0 sample_low_tile 1 = true ∧
      (⟨0, 0, 0⟩ : IntVect).get 1 = sample_low_tile.smallend.get 1) ∧
    ((KsgsM84Src.construct "OneEqKsgsM84" (93 / 100 : ℚ) sample_ksgs_two_walls).state.lo_wall
        0 sample_low_tile 2 = true ∧
      (⟨0, 0, 0⟩ : IntVect).get 2 = sample_low_tile.smallend.get 2) ∧
    (KsgsM84Src.construct "OneEqKsgsM84" (93 / 100 : ℚ) sample_ksgs_two_walls).state.m_CepsGround
      = 39 / 10 ∧
    (KsgsM84Src.construct "OneEqKsgsM84" (93 / 100 : ℚ) sample_ksgs_two_walls).state.ceps_local
      0 0 0 0 = 93 / 100 ∧
    ∃ s, (KsgsM84Src.construct "OneEqKsgsM84" (93 / 100 : ℚ)
          sample_ksgs_two_walls).state.operator_call 0 sample_low_tile (fun _ _ _ => 0)
        = Run.done s ∧
      s 0 0 0 = -487 / 100 ∧
      s 0 0 0 ≠ 0 + (1 + 1 - 93 / 100 * 1 * 1 / 1) ∧
      s 0 0 0 ≠ 0 + (1 + 1 - 39 / 10 * 1 * 1 / 1) := by
  have hhi : ∀ e, e < AMREX_SPACEDIM →
      (KsgsM84Src.construct "OneEqKsgsM84" (93 / 100 : ℚ) sample_ksgs_two_walls).state.hi_wall
        0 sample_low_tile e = false := by decide
  have hval : (KsgsM84Src.construct "OneEqKsgsM84" (93 / 100 : ℚ)
      sample_ksgs_two_walls).state.lo_step 0 sample_low_tile 2
        ((KsgsM84Src.construct "OneEqKsgsM84" (93 / 100 : ℚ)
          sample_ksgs_two_walls).state.lo_step 0 sample_low_tile 1
          ((KsgsM84Src.construct "OneEqKsgsM84" (93 / 100 : ℚ)
            sample_ksgs_two_walls).state.lo_step 0 sample_low_tile 0
            ((KsgsM84Src.construct "OneEqKsgsM84" (93 / 100 : ℚ)
              sample_ksgs_two_walls).state.interior 0 sample_low_tile (fun _ _ _ => 0))))
        0 0 0 = -487 / 100 := by
    rw [lo_steps_value _ 0 sample_low_tile _ 0 0 0 (by decide)]
    rw [if_neg (by decide), if_pos (by decide), if_pos (by decide)]
    norm_num [KsgsM84Src.construct, Run.state, sample_ksgs_two_walls, Arr.const,
      KsgsM84Src.ceps_local, KsgsM84Src.ds]
  refine ⟨by decide, hhi, by decide, by decide, ?_, ?_, _,
    operator_call_no_hi _ 0 sample_low_tile _ (by decide) hhi, hval, ?_, ?_⟩
  · norm_num [KsgsM84Src.construct, Run.state, sample_ksgs_two_walls]
  · norm_num [KsgsM84Src.construct, Run.state, sample_ksgs_two_walls, Arr.const,
      KsgsM84Src.ceps_local, KsgsM84Src.ds]
  · rw [hval]
    norm_num
  · rw [hval]
    norm_num

/-- C25 (amended): let the source be constructed with coefficient `Ceps`, so
that `CepsGround = (3.9/0.93)*Ceps`, let no high wall-model boundary be
reached by the box, and take a cell of the box.  One call of `operator()`
adds to `src_term` in that cell
`shear_prod + buoy_prod - ceps_local*sqrt(tke)*tke/turb_lscale` with
`ceps_local = (Ceps/0.93)*(0.19 + 0.74*turb_lscale/ds)`, plus
`(ceps_local - CepsGround)*sqrt(tke)*tke/turb_lscale` once for every direction
in which the box touches a low wall-model boundary and the cell lies in its
first layer.  So for a cell in the first layer of exactly one such direction
the increase is `shear_prod + buoy_prod - CepsGround*sqrt(tke)*tke/turb_lscale`,
and for a cell in the first layer of none it is
`shear_prod + buoy_prod - ceps_local*sqrt(tke)*tke/turb_lscale`.  The previous
content is added to, and cells outside the box keep theirs. -/
theorem ksgs_first_layer_cell (m0 m : KsgsM84Src K) (Ceps : K) (lev : Nat) (bx : Box)
    (src : Arr3 K) (i j k : Int)
    (hm : KsgsM84Src.construct "OneEqKsgsM84" Ceps m0 = Run.done m)
    (hhi : ∀ e, e < AMREX_SPACEDIM → m.hi_wall lev bx e = false)
    (hcell : bx.contains i j k = true) :
    let tke := m.m_tke lev i j k 0
    let tl := m.m_turb_lscale lev i j k 0
    let prod := m.m_shear_prod lev i j k 0 + m.m_buoy_prod lev i j k 0
    let layers : Nat → K := fun e =>
      if m.lo_wall lev bx e = true ∧ (⟨i, j, k⟩ : IntVect).get e = bx.smallend.get e
        then 1 else 0
    m.m_Ceps = Ceps ∧ m.m_CepsGround = (39 / 10) / (93 / 100) * Ceps ∧
    m.ceps_local lev i j k = (Ceps / (93 / 100)) * (19 / 100 + (74 / 100 * tl / m.ds lev)) ∧
    ∃ s, m.operator_call lev bx src = Run.done s ∧
      s i j k = src i j k + (prod - m.ceps_local lev i j k * m.sqrt tke * tke / tl)
        + (layers 0 + layers 1 + layers 2)
          * ((m.ceps_local lev i j k - m.m_CepsGround) * m.sqrt tke * tke / tl) ∧
      (∀ d, d < AMREX_SPACEDIM →
        (m.lo_wall lev bx d = true ∧ (⟨i, j, k⟩ : IntVect).get d = bx.smallend.get d) →
        (∀ e, e < AMREX_SPACEDIM → e ≠ d →
          ¬ (m.lo_wall lev bx e = true ∧
              (⟨i, j, k⟩ : IntVect).get e = bx.smallend.get e)) →
        s i j k = src i j k + (prod - m.m_CepsGround * m.sqrt tke * tke / tl)) ∧
      ((∀ e, e < AMREX_SPACEDIM →
          ¬ (m.lo_wall lev bx e = true ∧
              (⟨i, j, k⟩ : IntVect).get e = bx.smallend.get e)) →
        s i j k = src i j k + (prod - m.ceps_local lev i j k * m.sqrt tke * tke / tl)) ∧
      (∀ i1 j1 k1, bx.contains i1 j1 k1 = false → s i1 j1 k1 = src i1 j1 k1) := by
  intro tke tl prod layers
  have hbx : bx.ok = true := box_ok_of_contains bx i j k hcell
  have hmeq : m = { m0 with m_Ceps := Ceps, m_CepsGround := (39 / 10) / (93 / 100) * Ceps } := by
    have h := hm
    simp only [KsgsM84Src.construct, if_true] at h
    exact (Run.done.inj h).symm
  have hC : m.m_Ceps = Ceps := by rw [hmeq]
  have hG : m.m_CepsGround = (39 / 10) / (93 / 100) * Ceps := by rw [hmeq]
  have hcl : m.ceps_local lev i j k
      = (Ceps / (93 / 100)) * (19 / 100 + (74 / 100 * tl / m.ds lev)) := by
    unfold KsgsM84Src.ceps_local
    rw [hC]
  have hcall := operator_call_no_hi m lev bx src hbx hhi
  have hval : m.lo_step lev bx 2 (m.lo_step lev bx 1 (m.lo_step lev bx 0
      (m.interior lev bx src))) i j k
      = src i j k + (prod - m.ceps_local lev i j k * m.sqrt tke * tke / tl)
        + (layers 0 + layers 1 + layers 2)
          * ((m.ceps_local lev i j k - m.m_CepsGround) * m.sqrt tke * tke / tl) :=
    lo_steps_value m lev bx src i j k hcell
  refine ⟨hC, hG, hcl, _, hcall, hval, ?_, ?_, ?_⟩
  · intro d hd hin hother
    have hone : layers d = 1 := by simp [layers, hin.1, hin.2]
    have hzero : ∀ e, e < AMREX_SPACEDIM → e ≠ d → layers e = 0 := by
      intro e he hne
      have hn := hother e he hne
      simp only [layers]
      rw [if_neg hn]
    rw [hval]
    have hd3 : d < 3 := hd
    interval_cases d
    · rw [hone, hzero 1 (by decide) (by decide), hzero 2 (by decide) (by decide)]
      ring
    · rw [hone, hzero 0 (by decide) (by decide), hzero 2 (by decide) (by decide)]
      ring
    · rw [hone, hzero 0 (by decide) (by decide), hzero 1 (by decide) (by decide)]
      ring
  · intro hnone
    have hzero : ∀ e, e < AMREX_SPACEDIM → layers e = 0 := by
      intro e he
      have hn := hnone e he
      simp only [layers]
      rw [if_neg hn]
    rw [hval, hzero 0 (by decide), hzero 1 (by decide), hzero 2 (by decide)]
    ring
  · intro i1 j1 k1 hnc
    rw [lo_step_outside m lev bx 2 _ i1 j1 k1 hbx hnc,
      lo_step_outside m lev bx 1 _ i1 j1 k1 hbx hnc,
      lo_step_outside m lev bx 0 _ i1 j1 k1 hbx hnc]
    simp [KsgsM84Src.interior, hnc]

/-- Witness of C25: the sample source constructed with `Ceps = 93/100` (so
`CepsGround = 39/10`) on the tile `[0,1]^3`, which touches the low wall of
direction 2 only; in the cell `(0,0,0)` the call adds `1 + 1 - 39/10`. -/
theorem ksgs_first_layer_cell_witness :
    sample_low_tile.contains 0 0 0 = true ∧
    ∃ s, (KsgsM84Src.construct "OneEqKsgsM84" (93 / 100 : ℚ) sample_ksgs).state.operator_call
        0 sample_low_tile (fun _ _ _ => 0) = Run.done s ∧ s 0 0 0 = -19 / 10 := by
  have hm : KsgsM84Src.construct "OneEqKsgsM84" (93 / 100 : ℚ) sample_ksgs
      = Run.done (KsgsM84Src.construct "OneEqKsgsM84" (93 / 100 : ℚ) sample_ksgs).state := by
    simp [KsgsM84Src.construct, Run.state]
  obtain ⟨_, _, _, s, hs, _, hfirst, _, _⟩ :=
    ksgs_first_layer_cell sample_ksgs _ (93 / 100 : ℚ) 0 sample_low_tile (fun _ _ _ => 0)
      0 0 0 hm (by decide) (by decide)
  refine ⟨by decide, s, hs, (hfirst 2 (by decide) (by decide) (by decide)).trans ?_⟩
  norm_num [KsgsM84Src.construct, Run.state, sample_ksgs, Arr.const]

end KsgsCell

/-! ## Uniform-Ct actuator disk: velocities and forces -/

section Disk

variable {K : Type} [LinearOrderedField K]

theorem foldl_vel_sums (vel : Nat → vs.Vector K) (off n : Nat) (a0 b0 : vs.Vector K) :
    (List.range n).foldl
        (fun (a : vs.Vector K × vs.Vector K) i => (a.1.add (vel i), a.2.add (vel (i + off))))
        (a0, b0) =
      (⟨a0.x + ∑ i in Finset.range n, (vel i).x, a0.y + ∑ i in Finset.range n, (vel i).y,
        a0.z + ∑ i in Finset.range n, (vel i).z⟩,
       ⟨b0.x + ∑ i in Finset.range n, (vel (i + off)).x,
        b0.y + ∑ i in Finset.range n, (vel (i + off)).y,
        b0.z + ∑ i in Finset.range n, (vel (i + off)).z⟩) := by
  induction n with
  | zero => simp
  | succ n ih =>
    rw [List.range_succ, List.foldl_append, ih]
    simp [vs.Vector.add, Finset.sum_range_succ, add_assoc]

theorem foldl_force_update {K : Type} (g : Nat → vs.Vector K) (n : Nat)
    (f0 : Nat → vs.Vector K) :
    (List.range n).foldl (fun (f : Nat → vs.Vector K) (ip : Nat) => Function.update f ip (g ip))
        f0 = fun ip => if ip < n then g ip else f0 ip := by
  induction n with
  | zero => simp
  | succ n ih =>
    rw [List.range_succ, List.foldl_append, ih]
    funext ip
    simp only [List.foldl_cons, List.foldl_nil, Function.update_apply]
    by_cases h1 : ip = n
    · subst h1
      simp
    · have h2 : ip < n + 1 ↔ ip < n := by omega
      simp [h1, h2]

theorem ring_area_sum (pi dr : K) (n : Nat) :
    ∑ p in Finset.range n,
        pi * ((((p : K) + 1 / 2) * dr + dr * (1 / 2)) * (((p : K) + 1 / 2) * dr + dr * (1 / 2))
          - (((p : K) + 1 / 2) * dr - dr * (1 / 2)) * (((p : K) + 1 / 2) * dr - dr * (1 / 2)))
      = pi * (((n : K) * dr) * ((n : K) * dr)) := by
  induction n with
  | zero => simp
  | succ n ih =>
    rw [Finset.sum_range_succ, ih]
    push_cast
    ring

/-- C29: in `UpdateVelOp`, with `np = num_vel_pts / 2`: for
`num_vel_pts >= 2`, `np >= 1` (so the divisor is not zero),
`reference_velocity` is the arithmetic mean of `vel[0..np-1]` and
`disk_velocity` the arithmetic mean of `vel[np..2*np-1]`; both are reset before
the accumulation, so the result does not depend on their previous values, and
every index read is below `num_vel_pts`. -/
theorem update_vel_means (mdata : actuator.UniformCtData K) (grid : actuator.ActGrid K)
    (v w : vs.Vector K) (hn : 2 ≤ mdata.num_vel_pts) :
    let np : Int := mdata.num_vel_pts.tdiv 2
    let r := actuator.UpdateVelOp mdata grid
    1 ≤ np ∧ ((np : Int) : K) ≠ 0 ∧
    r.reference_velocity =
      ⟨(∑ i in Finset.range np.toNat, (grid.vel i).x) / ((np : Int) : K),
       (∑ i in Finset.range np.toNat, (grid.vel i).y) / ((np : Int) : K),
       (∑ i in Finset.range np.toNat, (grid.vel i).z) / ((np : Int) : K)⟩ ∧
    r.disk_velocity =
      ⟨(∑ i in Finset.range np.toNat, (grid.vel (i + np.toNat)).x) / ((np : Int) : K),
       (∑ i in Finset.range np.toNat, (grid.vel (i + np.toNat)).y) / ((np : Int) : K),
       (∑ i in Finset.range np.toNat, (grid.vel (i + np.toNat)).z) / ((np : Int) : K)⟩ ∧
    actuator.UpdateVelOp { mdata with reference_velocity := v, disk_velocity := w } grid = r ∧
    (∀ idx ∈ actuator.UpdateVelOp_reads mdata.num_vel_pts, (idx : Int) < mdata.num_vel_pts) := by
  intro np r
  have hnp : 1 ≤ np := by
    show 1 ≤ mdata.num_vel_pts.tdiv 2
    rw [Int.tdiv_eq_ediv (by omega) (by norm_num)]
    omega
  have hnp2 : 2 * np ≤ mdata.num_vel_pts := by
    show 2 * mdata.num_vel_pts.tdiv 2 ≤ mdata.num_vel_pts
    rw [Int.tdiv_eq_ediv (by omega) (by norm_num)]
    omega
  have hcast : ((np : Int) : K) ≠ 0 := by
    have : (0 : Int) < np := by omega
    exact_mod_cast (ne_of_gt this)
  refine ⟨hnp, hcast, ?_, ?_, rfl, ?_⟩
  · show (actuator.UpdateVelOp mdata grid).reference_velocity = _
    unfold actuator.UpdateVelOp
    dsimp only
    rw [foldl_vel_sums]
    simp [vs.Vector.div_scalar, np]
  · show (actuator.UpdateVelOp mdata grid).disk_velocity = _
    unfold actuator.UpdateVelOp
    dsimp only
    rw [foldl_vel_sums]
    simp [vs.Vector.div_scalar, np]
  · intro idx hidx
    unfold actuator.UpdateVelOp_reads at hidx
    obtain ⟨i, hi, hmem⟩ := List.mem_flatMap.mp hidx
    have hi2 : i < np.toNat := List.mem_range.mp hi
    have hmem2 : idx = i ∨ idx = i + np.toNat := by simpa using hmem
    have hto : ((np.toNat : Nat) : Int) = np := Int.toNat_of_nonneg (by omega)
    rcases hmem2 with h | h <;> omega

/-- Witness of C29: four velocity points `vel[i] = (i, 2 i, 1)`: the reference
velocity is the mean of `vel[0]`, `vel[1]`, namely `(1/2, 1, 1)`. -/
theorem update_vel_means_witness :
    (2 : Int) ≤ sample_disk.num_vel_pts ∧
    (actuator.UpdateVelOp sample_disk sample_grid).reference_velocity = ⟨1 / 2, 1, 1⟩ :=
  ⟨by decide,
   (update_vel_means sample_disk sample_grid ⟨0, 0, 0⟩ ⟨0, 0, 0⟩ (by decide)).2.2.1.trans
     (by
       have h2 : (sample_disk.num_vel_pts.tdiv 2).toNat = 2 := by decide
       have h3 : (sample_disk.num_vel_pts.tdiv 2) = 2 := by decide
       rw [h2, h3]
       norm_num [Finset.sum_range_succ, sample_grid])⟩

/-- C22: in `ComputeForceOp`, for every number of force points, ring width,
density, thrust coefficient, reference velocity `u` and normal `n`:
`force[ip] = 0.5*rho*(u.n)^2*Ct * pi*((r+dr/2)^2 - (r-dr/2)^2) * n` with
`r = (ip+1/2)*dr`, a scalar multiple of the normal that is non-negative when
`rho*Ct >= 0`, and the forces of all points sum to
`0.5*rho*(u.n)^2*Ct * pi*(npts*dr)^2 * n`.  `Ct` is the coefficient the
operator stores in `current_ct`; `pi` is taken non-negative. -/
theorem uniform_ct_forces (pi : K) (sqrt : K → K) (linear : List K → List K → K → K)
    (ddata : actuator.UniformCtData K) (grid : actuator.ActGrid K) (npts : Nat)
    (hn : ddata.num_force_pts = (npts : Int)) (hpi : 0 ≤ pi) :
    let res := actuator.ComputeForceOp pi sqrt linear ddata grid
    let Ct := res.1.current_ct
    let un := ddata.reference_velocity.dot ddata.normal_vec
    let q := 1 / 2 * ddata.density * un ^ 2 * Ct
    let area : Nat → K := fun ip =>
      pi * ((((ip : K) + 1 / 2) * ddata.dr + ddata.dr / 2) ^ 2
        - (((ip : K) + 1 / 2) * ddata.dr - ddata.dr / 2) ^ 2)
    Ct = linear ddata.table_velocity ddata.thrust_coeff (sqrt |un * un|) ∧
    (∀ ip, ip < npts → res.2.force ip = vs.Vector.smul (q * area ip) ddata.normal_vec) ∧
    (∀ ip, ip < npts → 0 ≤ ddata.density * Ct → 0 ≤ q * area ip) ∧
    (∀ ip, npts ≤ ip → res.2.force ip = grid.force ip) ∧
    ∑ ip in Finset.range npts, (res.2.force ip).x
      = q * pi * ((npts : K) * ddata.dr) ^ 2 * ddata.normal_vec.x ∧
    ∑ ip in Finset.range npts, (res.2.force ip).y
      = q * pi * ((npts : K) * ddata.dr) ^ 2 * ddata.normal_vec.y ∧
    ∑ ip in Finset.range npts, (res.2.force ip).z
      = q * pi * ((npts : K) * ddata.dr) ^ 2 * ddata.normal_vec.z := by
  intro res Ct un q area
  have hforce : res.2.force = fun ip =>
      if ip < npts then vs.Vector.smul (q * area ip) ddata.normal_vec else grid.force ip := by
    show (actuator.ComputeForceOp pi sqrt linear ddata grid).2.force = _
    unfold actuator.ComputeForceOp
    dsimp only
    rw [foldl_force_update, hn, Int.toNat_ofNat]
    funext ip
    split_ifs
    · congr 1
      simp only [q, area, Ct, un, res, actuator.ComputeForceOp]
      ring
    · rfl
  have hsum : ∑ ip in Finset.range npts, area ip = pi * ((npts : K) * ddata.dr) ^ 2 := by
    have h := ring_area_sum pi ddata.dr npts
    rw [sq, ← h]
    refine Finset.sum_congr rfl ?_
    intro ip _
    simp only [area]
    ring
  have hcomp : ∀ c : K, ∑ ip in Finset.range npts, q * area ip * c
      = q * pi * ((npts : K) * ddata.dr) ^ 2 * c := by
    intro c
    rw [← Finset.sum_mul, ← Finset.mul_sum, hsum]
    ring
  have harea : ∀ ip : Nat, 0 ≤ area ip := by
    intro ip
    have e : area ip = pi * (ddata.dr ^ 2 * (2 * (ip : K) + 1)) := by
      simp only [area]
      ring
    rw [e]
    have hip : (0 : K) ≤ 2 * (ip : K) + 1 := by positivity
    exact mul_nonneg hpi (mul_nonneg (sq_nonneg _) hip)
  refine ⟨rfl, ?_, ?_, ?_, ?_, ?_, ?_⟩
  · intro ip hip
    rw [hforce]
    simp [hip]
  · intro ip _ hrc
    have hq : 0 ≤ q := by
      have e : q = 1 / 2 * un ^ 2 * (ddata.density * Ct) := by
        simp only [q]
        ring
      rw [e]
      exact mul_nonneg (mul_nonneg (by norm_num) (sq_nonneg _)) hrc
    exact mul_nonneg hq (harea ip)
  · intro ip hip
    rw [hforce]
    simp [not_lt.mpr hip]
  · rw [← hcomp ddata.normal_vec.x, hforce]
    refine Finset.sum_congr rfl ?_
    intro ip hip
    simp [Finset.mem_range.mp hip, vs.Vector.smul]
  · rw [← hcomp ddata.normal_vec.y, hforce]
    refine Finset.sum_congr rfl ?_
    intro ip hip
    simp [Finset.mem_range.mp hip, vs.Vector.smul]
  · rw [← hcomp ddata.normal_vec.z, hforce]
    refine Finset.sum_congr rfl ?_
    intro ip hip
    simp [Finset.mem_range.mp hip, vs.Vector.smul]

/-- Witness of C22: the sample disk (three rings of width 2, density 2,
`u.n = 3`, `Ct = 1/2`) with `pi` replaced by 3: the force of ring 1 is
`0.5*2*9*(1/2) * 3*(16 - 4) = 162` along the normal. -/
theorem uniform_ct_forces_witness :
    sample_disk.num_force_pts = ((3 : Nat) : Int) ∧ (0 : ℚ) ≤ 3 ∧
    ((actuator.ComputeForceOp 3 (fun x => x) sample_linear sample_disk sample_grid).2.force 1)
      = ⟨0, 162, 0⟩ :=
  ⟨by decide, by norm_num,
   ((uniform_ct_forces 3 (fun x => x) sample_linear sample_disk sample_grid 3 (by decide)
      (by norm_num)).2.1 1 (by decide)).trans
     (by
       simp only [actuator.ComputeForceOp, sample_linear, sample_disk, vs.Vector.dot,
         vs.Vector.smul, List.headD, vs.Vector.mk.injEq]
       norm_num)⟩

end Disk

end amr_wind
